import Mathlib

/-!
Mutter's `MetaTextureTower` (src/src/compositor/meta-texture-tower.c):
a shallow embedding of the mipmap tower and of its level-of-detail estimator.

Conventions of the embedding:

* C `int` values are unbounded (`Int`, or `Nat` where the value is a size or a
  loop counter that is never negative); `guint16` fields hold naturals below
  `65536` and every assignment that can leave that range is reduced modulo
  `65536` explicitly.
* The fixed arrays `textures`, `fbos` and `invalid` of `MAX_TEXTURE_LEVELS`
  slots are total functions of the slot index.
* Object pointers are modelled by the object they point to together with an
  address (`ptr`); `NULL` is `none`.
* The Cogl library is an explicit state (`Cogl`): a supply of fresh addresses,
  the recorded draw calls, and the reference-count traffic.
* `float`/`double` arithmetic is idealised by exact arithmetic where the value
  is continuous data: rationals for the normalised texture coordinates of a
  draw, reals for `get_paint_level`. The level count is an integer obtained by
  truncating a double, and there the rounding is modelled: `int_log2` is the
  value that `(int)(M_LOG2E * log (width))` has in IEEE 754 double precision.
-/

namespace Mutter

/-! ## Data model -/

/-- The constant `MAX_TEXTURE_LEVELS` (line 34). -/
def MAX_TEXTURE_LEVELS : Nat := 12

/-- Assignment of a C `int` to a `guint16`: reduction modulo `2^16`. -/
def guint16 (v : Int) : Nat := (v % 65536).toNat

/-- The struct `Box` (lines 50-56): four `guint16` coordinates. -/
structure Box where
  x1 : Nat
  y1 : Nat
  x2 : Nat
  y2 : Nat
  deriving DecidableEq, Repr

/-- A `CoglTexture *` that is not `NULL`: the address of the object and the
size reported by `cogl_texture_get_width` / `cogl_texture_get_height`. -/
structure CoglTexture where
  ptr : Nat
  width : Nat
  height : Nat
  deriving DecidableEq, Repr

/-- A `CoglOffscreen *` that is not `NULL`, as made by
`cogl_offscreen_new_with_texture (dest_texture)`. -/
structure CoglOffscreen where
  texture : CoglTexture
  deriving DecidableEq, Repr

/-- One recorded call of `cogl_framebuffer_draw_textured_rectangle`
(lines 413-419): the destination framebuffer, the layer-0 texture of the
pipeline, the destination rectangle and the normalised source rectangle.
`level` is the argument of the `texture_tower_revalidate` call that issued it. -/
structure Draw where
  level : Nat
  fb : CoglOffscreen
  source : CoglTexture
  x1 : Nat
  y1 : Nat
  x2 : Nat
  y2 : Nat
  tx1 : ℚ
  ty1 : ℚ
  tx2 : ℚ
  ty2 : ℚ
  deriving DecidableEq

/-- The state of the Cogl library as far as the tower drives it. -/
structure Cogl where
  /-- Address handed out by the next `cogl_texture_2d_new_with_size`. -/
  next_ptr : Nat
  /-- Draw calls recorded so far, oldest first. -/
  draws : List Draw
  /-- Textures passed to `cogl_object_ref`, oldest first. -/
  refs : List CoglTexture
  /-- Textures released by `cogl_object_unref` / `cogl_clear_object`. -/
  unrefs : List CoglTexture
  /-- Offscreens released by `g_clear_object`. -/
  fbo_unrefs : List CoglOffscreen
  deriving DecidableEq

/-- The struct `_MetaTextureTower` (lines 58-65). `pipeline_template` records
whether the pointer of that name is non-`NULL`. -/
structure MetaTextureTower where
  n_levels : Nat
  textures : Nat → Option CoglTexture
  fbos : Nat → Option CoglOffscreen
  invalid : Nat → Box
  pipeline_template : Bool

/-! ## Operations -/

/-- The function `meta_texture_tower_new` (lines 75-83): `g_new0` zeroes every field. -/
def meta_texture_tower_new : MetaTextureTower :=
  { n_levels := 0
    textures := fun _ => none
    fbos := fun _ => none
    invalid := fun _ => ⟨0, 0, 0, 0⟩
    pipeline_template := false }

/-- The candidate rectangle of the next level (lines 199-202), for the next
level's size `tw × th`. The operands are `guint16` values, so no result leaves
the `guint16` range. -/
def halve_box (tw th : Nat) (b : Box) : Box :=
  { x1 := b.x1 / 2
    y1 := b.y1 / 2
    x2 := min tw ((b.x2 + 1) / 2)
    y2 := min th ((b.y2 + 1) / 2) }

/-- Accumulation of a candidate into a level's dirty rectangle (lines 204-215). -/
def merge_box (cur cand : Box) : Box :=
  if cur.x1 = cur.x2 ∨ cur.y1 = cur.y2 then cand
  else
    { x1 := min cur.x1 cand.x1
      y1 := min cur.y1 cand.y1
      x2 := max cur.x2 cand.x2
      y2 := max cur.y2 cand.y2 }

/-- The loop of `meta_texture_tower_update_area` (lines 194-216): `count`
remaining iterations, the next of which is for level `i`;
`texture_width`, `texture_height` and `invalid` are the loop-carried locals. -/
def update_area_loop :
    Nat → Nat → Nat → Nat → Box → (Nat → Box) → (Nat → Box)
  | 0, _, _, _, _, inv => inv
  | count + 1, i, texture_width, texture_height, invalid, inv =>
    let texture_width := max 1 (texture_width / 2)
    let texture_height := max 1 (texture_height / 2)
    let invalid := halve_box texture_width texture_height invalid
    update_area_loop count (i + 1) texture_width texture_height invalid
      (Function.update inv i (merge_box (inv i) invalid))

/-- The function `meta_texture_tower_update_area` (lines 170-217). -/
def meta_texture_tower_update_area (tower : MetaTextureTower)
    (x y width height : Int) : MetaTextureTower :=
  match tower.textures 0 with
  | none => tower
  | some base =>
    let invalid : Box :=
      { x1 := guint16 x
        y1 := guint16 y
        x2 := guint16 (x + width)
        y2 := guint16 (y + height) }
    { tower with
      invalid := update_area_loop (tower.n_levels - 1) 1 base.width base.height
        invalid tower.invalid }

/-- The loop of lines 127-131: release the derived textures and framebuffers. -/
def clear_levels_loop :
    Nat → Nat → MetaTextureTower → Cogl → MetaTextureTower × Cogl
  | 0, _, tower, cogl => (tower, cogl)
  | count + 1, i, tower, cogl =>
    let cogl :=
      match tower.textures i with
      | none => cogl
      | some t => { cogl with unrefs := cogl.unrefs ++ [t] }
    let cogl :=
      match tower.fbos i with
      | none => cogl
      | some f => { cogl with fbo_unrefs := cogl.fbo_unrefs ++ [f] }
    clear_levels_loop count (i + 1)
      { tower with
        textures := Function.update tower.textures i none
        fbos := Function.update tower.fbos i none } cogl

/-- The widths in the range of a 32-bit `int` at which the double-precision
product `M_LOG2E * log (width)` is smaller than the binary logarithm of `width`,
an integer there: some of the powers of two. The products are
2.9999999999999996 at 8, 5.999999999999999 at 64, 6.999999999999999 at 128,
11.999999999999998 at 4096, 12.999999999999998 at 8192, 13.999999999999998 at
16384, 23.999999999999996 at 2^24, 25.999999999999996 at 2^26 and
27.999999999999996 at 2^28. At every other width from 1 to 2^31 - 1 the product
has the integer part of the binary logarithm. -/
def double_short_widths : List Nat :=
  [8, 64, 128, 4096, 8192, 16384, 16777216, 67108864, 268435456]

/-- The value of `(int)(M_LOG2E * log (width))` (line 147) for a width from 1 to
2^31 - 1, as IEEE 754 double-precision arithmetic evaluates it (`M_LOG2E` is the
double nearest to 1.4426950408889634074, `log` returns the double nearest to the
natural logarithm, the product is rounded to nearest and the conversion to `int`
truncates): the integer part of the binary logarithm, and one less than it at
the widths of `double_short_widths`, where the rounded product lies just below
the integer. -/
def int_log2 (width : Nat) : Nat :=
  if width ∈ double_short_widths then Nat.log 2 width - 1 else Nat.log 2 width

/-- The function `meta_texture_tower_set_base_texture` (lines 114-156).
The comparison `texture == tower->textures[0]` is a comparison of addresses. -/
def meta_texture_tower_set_base_texture (tower : MetaTextureTower) (cogl : Cogl)
    (texture : Option CoglTexture) : MetaTextureTower × Cogl :=
  if texture.map CoglTexture.ptr = (tower.textures 0).map CoglTexture.ptr then
    (tower, cogl)
  else
    let released : MetaTextureTower × Cogl :=
      match tower.textures 0 with
      | none => (tower, cogl)
      | some old =>
        let cleared := clear_levels_loop (tower.n_levels - 1) 1 tower cogl
        (cleared.1, { cleared.2 with unrefs := cleared.2.unrefs ++ [old] })
    let tower := { released.1 with textures := Function.update released.1.textures 0 texture }
    let cogl := released.2
    match texture with
    | some base =>
      let cogl := { cogl with refs := cogl.refs ++ [base] }
      let n_levels := 1 + max (int_log2 base.width) (int_log2 base.height)
      let tower := { tower with n_levels := min n_levels MAX_TEXTURE_LEVELS }
      (meta_texture_tower_update_area tower 0 0 base.width base.height, cogl)
    | none => ({ tower with n_levels := 0 }, cogl)

/-- The function `texture_tower_create_texture` (lines 356-372). -/
def texture_tower_create_texture (tower : MetaTextureTower) (cogl : Cogl)
    (level width height : Nat) : MetaTextureTower × Cogl :=
  ({ tower with
     textures := Function.update tower.textures level
       (some { ptr := cogl.next_ptr, width := width, height := height })
     invalid := Function.update tower.invalid level
       { x1 := 0, y1 := 0, x2 := guint16 width, y2 := guint16 height } },
   { cogl with next_ptr := cogl.next_ptr + 1 })

/-- The function `texture_tower_revalidate` (lines 374-425). `alloc level` is the
outcome of `cogl_framebuffer_allocate` for the framebuffer of `level`. The C
code dereferences `textures[level - 1]` and `textures[level]`; where one of
them is `NULL` (which `meta_texture_tower_get_paint_texture` rules out before
calling) the embedding leaves the state as it is. -/
def texture_tower_revalidate (alloc : Nat → Bool) (tower : MetaTextureTower)
    (cogl : Cogl) (level : Nat) : MetaTextureTower × Cogl :=
  match tower.textures (level - 1), tower.textures level with
  | some source_texture, some dest_texture =>
    let invalid := tower.invalid level
    let fbo : CoglOffscreen :=
      match tower.fbos level with
      | none => { texture := dest_texture }
      | some f => f
    let tower := { tower with fbos := Function.update tower.fbos level (some fbo) }
    if alloc level = false then (tower, cogl)
    else
      let tower := { tower with pipeline_template := true }
      let draw : Draw :=
        { level := level
          fb := fbo
          source := source_texture
          x1 := invalid.x1
          y1 := invalid.y1
          x2 := invalid.x2
          y2 := invalid.y2
          tx1 := (2 * (invalid.x1 : ℚ)) / source_texture.width
          ty1 := (2 * (invalid.y1 : ℚ)) / source_texture.height
          tx2 := (2 * (invalid.x2 : ℚ)) / source_texture.width
          ty2 := (2 * (invalid.y2 : ℚ)) / source_texture.height }
      ({ tower with invalid := Function.update tower.invalid level ⟨0, 0, 0, 0⟩ },
       { cogl with draws := cogl.draws ++ [draw] })
  | _, _ => (tower, cogl)

/-- The first loop of `meta_texture_tower_get_paint_texture` (lines 467-475):
`count` remaining iterations, the next of which is for level `i`. -/
def create_loop :
    Nat → Nat → Nat → Nat → MetaTextureTower → Cogl → MetaTextureTower × Cogl
  | 0, _, _, _, tower, cogl => (tower, cogl)
  | count + 1, i, texture_width, texture_height, tower, cogl =>
    let texture_width := max 1 (texture_width / 2)
    let texture_height := max 1 (texture_height / 2)
    let created : MetaTextureTower × Cogl :=
      match tower.textures i with
      | none => texture_tower_create_texture tower cogl i texture_width texture_height
      | some _ => (tower, cogl)
    create_loop count (i + 1) texture_width texture_height created.1 created.2

/-- The second loop of `meta_texture_tower_get_paint_texture` (lines 477-482).
The test reads `invalid[level]`, the rectangle of the requested level, on
every iteration. -/
def revalidate_loop (alloc : Nat → Bool) (level : Nat) :
    Nat → Nat → MetaTextureTower → Cogl → MetaTextureTower × Cogl
  | 0, _, tower, cogl => (tower, cogl)
  | count + 1, i, tower, cogl =>
    let revalidated : MetaTextureTower × Cogl :=
      if (tower.invalid level).x2 ≠ (tower.invalid level).x1 ∧
          (tower.invalid level).y2 ≠ (tower.invalid level).y1 then
        texture_tower_revalidate alloc tower cogl i
      else (tower, cogl)
    revalidate_loop alloc level count (i + 1) revalidated.1 revalidated.2

/-- Lines 461-485 of `meta_texture_tower_get_paint_texture`, for the clamped
`level` and the size `texture_width × texture_height` of the base texture. -/
def paint_texture_at_level (alloc : Nat → Bool) (level : Nat)
    (texture_width texture_height : Nat) (tower : MetaTextureTower) (cogl : Cogl) :
    Option CoglTexture × MetaTextureTower × Cogl :=
  if tower.textures level = none ∨
      ((tower.invalid level).x2 ≠ (tower.invalid level).x1 ∧
       (tower.invalid level).y2 ≠ (tower.invalid level).y1) then
    let created := create_loop level 1 texture_width texture_height tower cogl
    let revalidated := revalidate_loop alloc level level 1 created.1 created.2
    (revalidated.1.textures level, revalidated.1, revalidated.2)
  else (tower.textures level, tower, cogl)

/-- The function `meta_texture_tower_get_paint_texture` (lines 441-486).
`paint_level width height` stands for `get_paint_level (paint_context, width,
height)`, and `alloc` for the outcomes of `cogl_framebuffer_allocate`.
`n_levels` is at least `1` whenever a base texture is set, so that the clamped
level is a valid index. -/
def meta_texture_tower_get_paint_texture (paint_level : Int → Int → Int)
    (alloc : Nat → Bool) (tower : MetaTextureTower) (cogl : Cogl) :
    Option CoglTexture × MetaTextureTower × Cogl :=
  match tower.textures 0 with
  | none => (none, tower, cogl)
  | some base =>
    let level := paint_level base.width base.height
    if level < 0 then (none, tower, cogl)
    else
      paint_texture_at_level alloc (min level ((tower.n_levels : Int) - 1)).toNat
        base.width base.height tower cogl

/-! ## Level-of-detail estimator -/

/-- A `graphene_matrix_t`: the value at `(row, col)`, as read by
`graphene_matrix_get_value`. -/
abbrev graphene_matrix_t := Fin 4 → Fin 4 → ℝ

/-- The product `a × b` computed by `graphene_matrix_multiply (a, b, res)`. -/
def graphene_matrix_multiply (a b : graphene_matrix_t) : graphene_matrix_t :=
  fun i j => a i 0 * b 0 j + a i 1 * b 1 j + a i 2 * b 2 j + a i 3 * b 3 j

/-- The matrix made by `graphene_matrix_init_scale (m, x, y, z)`. -/
def graphene_matrix_init_scale (x y z : ℝ) : graphene_matrix_t :=
  fun i j =>
    if i = j then (if i = 0 then x else if i = 1 then y else if i = 2 then z else 1)
    else 0

/-- What `get_paint_level` reads from its `ClutterPaintContext`: the projection
and model-view matrices of the framebuffer and its viewport `v[0..3]`. -/
structure ClutterPaintContext where
  projection : graphene_matrix_t
  modelview : graphene_matrix_t
  viewport : Fin 4 → ℝ

/-- The constant `LOD_BIAS` (line 222). -/
noncomputable def LOD_BIAS : ℝ := -0.49

/-- The constant `M_LOG2E` (line 31), exactly: `log2 e = 1 / ln 2`. -/
noncomputable def M_LOG2E : ℝ := 1 / Real.log 2

/-- The locals of `get_paint_level` after line 334: the `wc`-scaled partial
derivatives and `wc`. -/
structure PaintJacobian where
  dxdu_ : ℝ
  dxdv_ : ℝ
  dydu_ : ℝ
  dydv_ : ℝ
  wc : ℝ

/-- Lines 271-334 of `get_paint_level`, over the reals. -/
noncomputable def paint_jacobian (paint_context : ClutterPaintContext)
    (width height : Int) : PaintJacobian :=
  let pm := graphene_matrix_multiply paint_context.modelview paint_context.projection
  let xx := pm 0 0
  let xy := pm 0 1
  let xw := pm 0 3
  let yx := pm 1 0
  let yy := pm 1 1
  let yw := pm 1 3
  let wx := pm 3 0
  let wy := pm 3 1
  let ww := pm 3 3
  let viewport_width := paint_context.viewport 2
  let viewport_height := paint_context.viewport 3
  let u0 : ℝ := width / 2
  let v0 : ℝ := height / 2
  let xc := xx * u0 + yx * v0 + wx
  let yc := xy * u0 + yy * v0 + wy
  let wc := xw * u0 + yw * v0 + ww
  { dxdu_ := 0.5 * viewport_width * (xx - xw * (xc / wc))
    dxdv_ := 0.5 * viewport_width * (yx - yw * (xc / wc))
    dydu_ := 0.5 * viewport_height * (xy - xw * (yc / wc))
    dydv_ := 0.5 * viewport_height * (yy - yw * (yc / wc))
    wc := wc }

/-- The local `det_` of `get_paint_level` (line 337). -/
noncomputable def paint_det (p : PaintJacobian) : ℝ :=
  p.dxdu_ * p.dydv_ - p.dxdv_ * p.dydu_

/-- The local `lambda` of `get_paint_level` (lines 338-344). -/
noncomputable def paint_lambda (p : PaintJacobian) : ℝ :=
  let det_sq := paint_det p * paint_det p
  let rho_sq := max (p.dydv_ * p.dydv_ + p.dydu_ * p.dydu_)
    (p.dxdv_ * p.dxdv_ + p.dxdu_ * p.dxdu_)
  0.5 * M_LOG2E * Real.log (rho_sq * p.wc * p.wc / det_sq) + LOD_BIAS

/-- Lines 336-353 of `get_paint_level`: the level selected from the partial
derivatives, `-1` for a singular paint matrix; `(int)` of a positive value is
its floor. -/
noncomputable def level_of_jacobian (p : PaintJacobian) : Int :=
  let det_sq := paint_det p * paint_det p
  if det_sq = 0 then -1
  else
    let lambda := paint_lambda p
    if lambda ≤ 0 then 0 else ⌊0.5 + lambda⌋

/-- The function `get_paint_level` (lines 236-354) over the reals. -/
noncomputable def get_paint_level (paint_context : ClutterPaintContext)
    (width height : Int) : Int :=
  level_of_jacobian (paint_jacobian paint_context width height)

/-- The paint context after a uniform scale `s` is applied on top of the model-view
matrix (`modelview := scale × modelview`, the scale acting on object coordinates). -/
def scale_modelview (paint_context : ClutterPaintContext) (s : ℝ) : ClutterPaintContext :=
  { paint_context with
    modelview := graphene_matrix_multiply (graphene_matrix_init_scale s s s)
      paint_context.modelview }

/-- The partial derivatives `dxdu`, `dxdv`, `dydu`, `dydv` of the window coordinates
in the commented-out, unsimplified version of `get_paint_level` (lines 306-309). -/
structure WindowJacobian where
  dxdu : ℝ
  dxdv : ℝ
  dydu : ℝ
  dydv : ℝ

/-- Lines 271-296 of `get_paint_level` followed by lines 306-309 of the commented-out
code, over the reals. -/
noncomputable def window_jacobian (paint_context : ClutterPaintContext)
    (width height : Int) : WindowJacobian :=
  let pm := graphene_matrix_multiply paint_context.modelview paint_context.projection
  let xx := pm 0 0
  let xy := pm 0 1
  let xw := pm 0 3
  let yx := pm 1 0
  let yy := pm 1 1
  let yw := pm 1 3
  let wx := pm 3 0
  let wy := pm 3 1
  let ww := pm 3 3
  let viewport_width := paint_context.viewport 2
  let viewport_height := paint_context.viewport 3
  let u0 : ℝ := width / 2
  let v0 : ℝ := height / 2
  let xc := xx * u0 + yx * v0 + wx
  let yc := xy * u0 + yy * v0 + wy
  let wc := xw * u0 + yw * v0 + ww
  { dxdu := 0.5 * viewport_width * (xx - xw * (xc / wc)) / wc
    dxdv := 0.5 * viewport_width * (yx - yw * (xc / wc)) / wc
    dydu := 0.5 * viewport_height * (xy - xw * (yc / wc)) / wc
    dydv := 0.5 * viewport_height * (yy - yw * (yc / wc)) / wc }

/-- The local `det` of the commented-out code (line 312). -/
noncomputable def window_det (j : WindowJacobian) : ℝ :=
  j.dxdu * j.dydv - j.dxdv * j.dydu

/-- The local `lambda` of the commented-out code (lines 311-327): the inverse
partial derivatives as the matrix inverse, `rho` and `log2 (rho) + LOD_BIAS`. The
comment writes `dvdy = dvdu / det` with a name `dvdu` that it does not define; the
entry of the matrix inverse, `dxdu / det`, is taken. -/
noncomputable def opengl_lambda (j : WindowJacobian) : ℝ :=
  let det := window_det j
  let dudx := j.dydv / det
  let dudy := -j.dxdv / det
  let dvdx := -j.dydu / det
  let dvdy := j.dxdu / det
  let rho := max (Real.sqrt (dudx * dudx + dvdx * dvdx)) (Real.sqrt (dudy * dudy + dvdy * dvdy))
  Real.logb 2 rho + LOD_BIAS

/-! ## Vocabulary of the properties -/

/-- Size of level `i` of a tower whose base measures `w` along one axis:
`max (1, · / 2)` applied `i` times (lines 196-197 and 470-471). -/
def level_size (w : Nat) : Nat → Nat
  | 0 => w
  | i + 1 => max 1 (level_size w i / 2)

/-- The candidate rectangle that the loop of `meta_texture_tower_update_area`
holds after its iteration for level `i`, from the base size `w × h` and the
rectangle `b` stored before the loop. -/
def candidate (w h : Nat) (b : Box) : Nat → Box
  | 0 => b
  | i + 1 => halve_box (level_size w (i + 1)) (level_size h (i + 1)) (candidate w h b i)

/-- The arguments of one `meta_texture_tower_update_area` call that marks a
rectangle with non-negative origin and extent. -/
structure Rect where
  x : Nat
  y : Nat
  width : Nat
  height : Nat
  deriving DecidableEq, Repr

/-- The rectangle lies inside a base image of size `w × h`. -/
def Rect.inside (r : Rect) (w h : Nat) : Prop :=
  r.x + r.width ≤ w ∧ r.y + r.height ≤ h

/-- The level-`i` footprint of a marked rectangle in a tower of base size `w × h`:
origin divided by `2^i` rounded down, far corner divided by `2^i` rounded up and
clipped to the level's size. -/
def footprint (w h : Nat) (r : Rect) (i : Nat) : Box :=
  { x1 := r.x / 2 ^ i
    y1 := r.y / 2 ^ i
    x2 := min (level_size w i) ((r.x + r.width + 2 ^ i - 1) / 2 ^ i)
    y2 := min (level_size h i) ((r.y + r.height + 2 ^ i - 1) / 2 ^ i) }

/-- A rectangle with positive width and height. -/
def Box.nonempty (b : Box) : Prop := b.x1 < b.x2 ∧ b.y1 < b.y2

/-- The rectangle `outer` covers the rectangle `inner`. -/
def Box.covers (outer inner : Box) : Prop :=
  outer.x1 ≤ inner.x1 ∧ outer.y1 ≤ inner.y1 ∧ inner.x2 ≤ outer.x2 ∧ inner.y2 ≤ outer.y2

/-- A sequence of `meta_texture_tower_update_area` calls, first rectangle first. -/
def mark_all (t : MetaTextureTower) (rs : List Rect) : MetaTextureTower :=
  rs.foldl (fun t r => meta_texture_tower_update_area t r.x r.y r.width r.height) t

/-- A newly created tower after `meta_texture_tower_set_base_texture` with a
base image of 65538 × 2 texels. -/
def wide_tower : MetaTextureTower :=
  (meta_texture_tower_set_base_texture meta_texture_tower_new ⟨0, [], [], [], []⟩
    (some ⟨7, 65538, 2⟩)).1

/-- The whole area of the 65538 × 2 base image. -/
def wide_mark : Rect := ⟨0, 0, 65538, 2⟩

/-- A paint context with identity projection and model-view and a 2 × 2 viewport. -/
def unit_paint_context : ClutterPaintContext :=
  { projection := graphene_matrix_init_scale 1 1 1
    modelview := graphene_matrix_init_scale 1 1 1
    viewport := fun i => if i = 2 ∨ i = 3 then 2 else 0 }

/-- The emptiness test that the code applies to a dirty rectangle (lines 204-205
and, negated, lines 462-463 and 479-480). -/
def Box.is_empty (b : Box) : Prop := b.x1 = b.x2 ∨ b.y1 = b.y2

/-- The tower and Cogl states reachable from a newly created tower by calls of
`meta_texture_tower_set_base_texture` (with `NULL` or a texture of at least 1 × 1
texels), `meta_texture_tower_update_area` (any arguments) and
`meta_texture_tower_get_paint_texture` (any estimated level, any outcome of the
framebuffer allocations). -/
inductive Reachable : MetaTextureTower → Cogl → Prop
  | new (c : Cogl) : Reachable meta_texture_tower_new c
  | set_base_texture (t : MetaTextureTower) (c : Cogl) (texture : Option CoglTexture) :
      Reachable t c → (∀ b, texture = some b → 1 ≤ b.width ∧ 1 ≤ b.height) →
      Reachable (meta_texture_tower_set_base_texture t c texture).1
        (meta_texture_tower_set_base_texture t c texture).2
  | update_area (t : MetaTextureTower) (c : Cogl) (x y width height : Int) :
      Reachable t c → Reachable (meta_texture_tower_update_area t x y width height) c
  | get_paint_texture (paint_level : Int → Int → Int) (alloc : Nat → Bool)
      (t : MetaTextureTower) (c : Cogl) :
      Reachable t c →
      Reachable (meta_texture_tower_get_paint_texture paint_level alloc t c).2.1
        (meta_texture_tower_get_paint_texture paint_level alloc t c).2.2

/-- The states reachable as in `Reachable` when every base texture measures at
most `bound` texels in width and in height and every marked rectangle lies inside
the current base image. -/
inductive ReachableWithin (bound : Nat) : MetaTextureTower → Cogl → Prop
  | new (c : Cogl) : ReachableWithin bound meta_texture_tower_new c
  | set_base_texture (t : MetaTextureTower) (c : Cogl) (texture : Option CoglTexture) :
      ReachableWithin bound t c →
      (∀ b, texture = some b →
        1 ≤ b.width ∧ b.width ≤ bound ∧ 1 ≤ b.height ∧ b.height ≤ bound) →
      ReachableWithin bound (meta_texture_tower_set_base_texture t c texture).1
        (meta_texture_tower_set_base_texture t c texture).2
  | update_area (t : MetaTextureTower) (c : Cogl) (r : Rect) :
      ReachableWithin bound t c →
      (∀ b, t.textures 0 = some b → r.inside b.width b.height) →
      ReachableWithin bound (meta_texture_tower_update_area t r.x r.y r.width r.height) c
  | get_paint_texture (paint_level : Int → Int → Int) (alloc : Nat → Bool)
      (t : MetaTextureTower) (c : Cogl) :
      ReachableWithin bound t c →
      ReachableWithin bound (meta_texture_tower_get_paint_texture paint_level alloc t c).2.1
        (meta_texture_tower_get_paint_texture paint_level alloc t c).2.2

/-- The structural invariant of the tower: the level count matches the presence
of a base texture, no slot at or above the level count is used, every
framebuffer is bound to the texture of its level, every derived texture has the
size of its level, the dirty rectangle of a level that has a texture ends inside
that level, and the level count is the one computed from the base size. -/
structure TowerInv (t : MetaTextureTower) : Prop where
  levels_zero : t.n_levels = 0 ↔ t.textures 0 = none
  levels_le : t.n_levels ≤ 12
  above : ∀ i, t.n_levels ≤ i → t.textures i = none
  fbo_zero : t.fbos 0 = none
  fbo_bound : ∀ i f, t.fbos i = some f → t.textures i = some f.texture
  base_pos : ∀ base, t.textures 0 = some base → 1 ≤ base.width ∧ 1 ≤ base.height
  sizes : ∀ base, t.textures 0 = some base → ∀ i tex, 1 ≤ i → t.textures i = some tex →
    tex.width = level_size base.width i ∧ tex.height = level_size base.height i
  dirty_le : ∀ base, t.textures 0 = some base → ∀ i, 1 ≤ i → t.textures i ≠ none →
    (t.invalid i).x2 ≤ level_size base.width i ∧ (t.invalid i).y2 ≤ level_size base.height i
  levels_eq : ∀ base, t.textures 0 = some base →
    t.n_levels = min (1 + max (int_log2 base.width) (int_log2 base.height)) 12

/-- The dirty rectangle of every derived level that has a texture is ordered. -/
def DirtyOrdered (t : MetaTextureTower) : Prop :=
  ∀ i, 1 ≤ i → t.textures i ≠ none →
    (t.invalid i).x1 ≤ (t.invalid i).x2 ∧ (t.invalid i).y1 ≤ (t.invalid i).y2

/-- The draw that `texture_tower_revalidate (tower, level)` records in the tower
state `t` when the framebuffer allocation succeeds (lines 378-419). -/
def revalidate_draw (t : MetaTextureTower) (level : Nat) : Option Draw :=
  match t.textures (level - 1), t.textures level with
  | some source_texture, some dest_texture =>
    some
      { level := level
        fb := (t.fbos level).getD { texture := dest_texture }
        source := source_texture
        x1 := (t.invalid level).x1
        y1 := (t.invalid level).y1
        x2 := (t.invalid level).x2
        y2 := (t.invalid level).y2
        tx1 := (2 * ((t.invalid level).x1 : ℚ)) / source_texture.width
        ty1 := (2 * ((t.invalid level).y1 : ℚ)) / source_texture.height
        tx2 := (2 * ((t.invalid level).x2 : ℚ)) / source_texture.width
        ty2 := (2 * ((t.invalid level).y2 : ℚ)) / source_texture.height }
  | _, _ => none

/-- The state of the regeneration loop of `meta_texture_tower_get_paint_texture`
(lines 477-482) after its first `k` iterations, that is, at the moment the loop
reaches level `k + 1`; `t` and `c` are the states the loop starts from. -/
def regeneration_state (alloc : Nat → Bool) (level k : Nat) (t : MetaTextureTower)
    (c : Cogl) : MetaTextureTower × Cogl :=
  revalidate_loop alloc level k 1 t c

/-- The iteration of the regeneration loop for level `i` records the draw `d`
when started in the tower state `t`: the rectangle of the requested `level` is
not empty, the allocation for level `i` succeeds, and `d` is the draw of
`texture_tower_revalidate`. -/
def StepDraws (alloc : Nat → Bool) (level : Nat) (t : MetaTextureTower) (i : Nat)
    (d : Draw) : Prop :=
  ((t.invalid level).x2 ≠ (t.invalid level).x1 ∧
    (t.invalid level).y2 ≠ (t.invalid level).y1) ∧
  alloc i = true ∧ revalidate_draw t i = some d

/-- A newly created tower that received a 512 × 512 base texture and then a
64 × 64 base texture at another address. -/
def replaced_state : MetaTextureTower × Cogl :=
  meta_texture_tower_set_base_texture
    (meta_texture_tower_set_base_texture meta_texture_tower_new ⟨0, [], [], [], []⟩
      (some ⟨7, 512, 512⟩)).1
    (meta_texture_tower_set_base_texture meta_texture_tower_new ⟨0, [], [], [], []⟩
      (some ⟨7, 512, 512⟩)).2
    (some ⟨8, 64, 64⟩)

/-- A rectangle inside a 70000 × 2 base image whose right edge lies beyond 65535. -/
def wrapped_mark : Rect := ⟨60000, 0, 6000, 1⟩

/-- A newly created tower that received a 70000 × 2 base texture and was painted
once at level 1 with a successful allocation. -/
def wide_painted_state : Option CoglTexture × MetaTextureTower × Cogl :=
  meta_texture_tower_get_paint_texture (fun _ _ => 1) (fun _ => true)
    (meta_texture_tower_set_base_texture meta_texture_tower_new ⟨0, [], [], [], []⟩
      (some ⟨7, 70000, 2⟩)).1
    (meta_texture_tower_set_base_texture meta_texture_tower_new ⟨0, [], [], [], []⟩
      (some ⟨7, 70000, 2⟩)).2

/-- The tower of `wide_painted_state` after `wrapped_mark` was marked dirty. -/
def wrapped_tower : MetaTextureTower :=
  meta_texture_tower_update_area wide_painted_state.2.1
    wrapped_mark.x wrapped_mark.y wrapped_mark.width wrapped_mark.height

/-- The level that `meta_texture_tower_get_paint_texture` resolves to (line 459)
for a tower whose base texture is `base` and a non-negative estimate. -/
def clamped_level (paint_level : Int → Int → Int) (t : MetaTextureTower)
    (base : CoglTexture) : Nat :=
  (min (paint_level base.width base.height) ((t.n_levels : Int) - 1)).toNat

/-- The state of a `meta_texture_tower_get_paint_texture` call on a tower with the
base texture `base` at the moment its regeneration loop (lines 477-482) reaches
level `k + 1`: the creation loop (lines 467-475) has run and the regeneration loop
has made its first `k` iterations. -/
def draw_moment (paint_level : Int → Int → Int) (alloc : Nat → Bool)
    (t : MetaTextureTower) (c : Cogl) (base : CoglTexture) (k : Nat) :
    MetaTextureTower × Cogl :=
  regeneration_state alloc (clamped_level paint_level t base) k
    (create_loop (clamped_level paint_level t base) 1 base.width base.height t c).1
    (create_loop (clamped_level paint_level t base) 1 base.width base.height t c).2

/-- A newly created tower that received a 512 × 512 base texture. -/
def base_512_state : MetaTextureTower × Cogl :=
  meta_texture_tower_set_base_texture meta_texture_tower_new ⟨0, [], [], [], []⟩
    (some ⟨7, 512, 512⟩)

/-- The state `base_512_state` after one paint at level 1 whose allocation succeeds. -/
def painted_512_state : Option CoglTexture × MetaTextureTower × Cogl :=
  meta_texture_tower_get_paint_texture (fun _ _ => 1) (fun _ => true)
    base_512_state.1 base_512_state.2

/-- A newly created tower that received a 1024 × 1 base texture. -/
def thin_base_state : MetaTextureTower × Cogl :=
  meta_texture_tower_set_base_texture meta_texture_tower_new ⟨0, [], [], [], []⟩
    (some ⟨7, 1024, 1⟩)

/-- A newly created tower that received a 4 × 4 base texture and was painted once at
level 1 with a successful allocation. -/
def painted_4_state : Option CoglTexture × MetaTextureTower × Cogl :=
  meta_texture_tower_get_paint_texture (fun _ _ => 1) (fun _ => true)
    (meta_texture_tower_set_base_texture meta_texture_tower_new ⟨0, [], [], [], []⟩
      (some ⟨7, 4, 4⟩)).1
    (meta_texture_tower_set_base_texture meta_texture_tower_new ⟨0, [], [], [], []⟩
      (some ⟨7, 4, 4⟩)).2

/-- The tower of `painted_4_state` after the rectangle `(100, 0, 1, 1)`, which lies
outside the 4 × 4 base image, was marked dirty. -/
def outside_marked_tower : MetaTextureTower :=
  meta_texture_tower_update_area painted_4_state.2.1 100 0 1 1

/-- The allocation outcomes in which only the framebuffer of level 1 fails. -/
def alloc_fails_at_1 (level : Nat) : Bool := level != 1

/-- The largest clamped level resolved so far after one more
`meta_texture_tower_get_paint_texture` call on the tower `t`, when `K` was the largest
one before the call: a call without base texture or with a negative estimate resolves
to no level. -/
def tracked_level (paint_level : Int → Int → Int) (t : MetaTextureTower) (K : Nat) : Nat :=
  match t.textures 0 with
  | none => K
  | some base =>
    if paint_level base.width base.height < 0 then K
    else max K (clamped_level paint_level t base)

/-- The reachable states together with the largest clamped level `K` that a
`meta_texture_tower_get_paint_texture` call has resolved to since the current base
texture was installed: `K` starts at 0, is reset to 0 when
`meta_texture_tower_set_base_texture` receives a texture at another address than the
installed one, and is raised by `meta_texture_tower_get_paint_texture`. -/
inductive ReachableTracking : MetaTextureTower → Cogl → Nat → Prop
  | new (c : Cogl) : ReachableTracking meta_texture_tower_new c 0
  | set_base_texture (t : MetaTextureTower) (c : Cogl) (K : Nat)
      (texture : Option CoglTexture) :
      ReachableTracking t c K →
      (∀ b, texture = some b → 1 ≤ b.width ∧ 1 ≤ b.height) →
      ReachableTracking (meta_texture_tower_set_base_texture t c texture).1
        (meta_texture_tower_set_base_texture t c texture).2
        (if texture.map CoglTexture.ptr = (t.textures 0).map CoglTexture.ptr then K else 0)
  | update_area (t : MetaTextureTower) (c : Cogl) (K : Nat) (x y width height : Int) :
      ReachableTracking t c K →
      ReachableTracking (meta_texture_tower_update_area t x y width height) c K
  | get_paint_texture (paint_level : Int → Int → Int) (alloc : Nat → Bool)
      (t : MetaTextureTower) (c : Cogl) (K : Nat) :
      ReachableTracking t c K →
      ReachableTracking (meta_texture_tower_get_paint_texture paint_level alloc t c).2.1
        (meta_texture_tower_get_paint_texture paint_level alloc t c).2.2
        (tracked_level paint_level t K)

/-- A newly created tower that received a 6 × 6 base texture and was painted once at
level 2 with successful allocations. -/
def painted_6_state : Option CoglTexture × MetaTextureTower × Cogl :=
  meta_texture_tower_get_paint_texture (fun _ _ => 2) (fun _ => true)
    (meta_texture_tower_set_base_texture meta_texture_tower_new ⟨0, [], [], [], []⟩
      (some ⟨7, 6, 6⟩)).1
    (meta_texture_tower_set_base_texture meta_texture_tower_new ⟨0, [], [], [], []⟩
      (some ⟨7, 6, 6⟩)).2

/-- A rectangle inside the 6 × 6 base image. -/
def corner_mark : Rect := ⟨4, 0, 2, 1⟩

/-- The tower of `painted_6_state` after `corner_mark` was marked dirty. -/
def marked_6_tower : MetaTextureTower :=
  meta_texture_tower_update_area painted_6_state.2.1
    corner_mark.x corner_mark.y corner_mark.width corner_mark.height

/-- A newly created tower that received a 131072 × 2 base texture. -/
def huge_base_state : MetaTextureTower × Cogl :=
  meta_texture_tower_set_base_texture meta_texture_tower_new ⟨0, [], [], [], []⟩
    (some ⟨7, 131072, 2⟩)

/-! ## Lemmas and theorems -/

theorem level_size_shift (w : Nat) (i : Nat) :
    level_size w (i + 1) = level_size (max 1 (w / 2)) i := by
  induction i with
  | zero => rfl
  | succ n ih => rw [level_size, ih, level_size]

theorem candidate_shift (w h : Nat) (b : Box) (i : Nat) :
    candidate w h b (i + 1) =
      candidate (max 1 (w / 2)) (max 1 (h / 2))
        (halve_box (max 1 (w / 2)) (max 1 (h / 2)) b) i := by
  induction i with
  | zero => rfl
  | succ n ih =>
    rw [candidate, ih, candidate, level_size_shift w (n + 1), level_size_shift h (n + 1)]

theorem level_size_pos (w : Nat) (hw : 1 ≤ w) (i : Nat) : 1 ≤ level_size w i := by
  cases i with
  | zero => exact hw
  | succ n => simp [level_size]

theorem update_area_loop_spec (count : Nat) :
    ∀ (i tw th : Nat) (b : Box) (inv : Nat → Box) (j : Nat),
      update_area_loop count i tw th b inv j =
        if i ≤ j ∧ j < i + count then merge_box (inv j) (candidate tw th b (j - i + 1))
        else inv j := by
  induction count with
  | zero =>
    intro i tw th b inv j
    have h : ¬ (i ≤ j ∧ j < i + 0) := by omega
    rw [update_area_loop, if_neg h]
  | succ n ih =>
    intro i tw th b inv j
    rw [update_area_loop, ih]
    by_cases hj : j = i
    · subst hj
      simp [candidate, level_size]
    · by_cases h1 : i + 1 ≤ j ∧ j < i + 1 + n
      · have h2 : i ≤ j ∧ j < i + (n + 1) := by omega
        have h3 : j - i + 1 = (j - (i + 1) + 1) + 1 := by omega
        rw [if_pos h1, if_pos h2, Function.update_noteq hj, h3,
          candidate_shift tw th b (j - (i + 1) + 1)]
      · have h2 : ¬ (i ≤ j ∧ j < i + (n + 1)) := by omega
        rw [if_neg h1, if_neg h2, Function.update_noteq hj]

@[simp] theorem update_area_n_levels (t : MetaTextureTower) (x y w h : Int) :
    (meta_texture_tower_update_area t x y w h).n_levels = t.n_levels := by
  unfold meta_texture_tower_update_area
  cases t.textures 0 <;> rfl

@[simp] theorem update_area_textures (t : MetaTextureTower) (x y w h : Int) :
    (meta_texture_tower_update_area t x y w h).textures = t.textures := by
  unfold meta_texture_tower_update_area
  cases t.textures 0 <;> rfl

@[simp] theorem update_area_fbos (t : MetaTextureTower) (x y w h : Int) :
    (meta_texture_tower_update_area t x y w h).fbos = t.fbos := by
  unfold meta_texture_tower_update_area
  cases t.textures 0 <;> rfl

@[simp] theorem update_area_pipeline_template (t : MetaTextureTower) (x y w h : Int) :
    (meta_texture_tower_update_area t x y w h).pipeline_template = t.pipeline_template := by
  unfold meta_texture_tower_update_area
  cases t.textures 0 <;> rfl

theorem update_area_invalid (t : MetaTextureTower) (base : CoglTexture)
    (hbase : t.textures 0 = some base) (x y w h : Int) (j : Nat) :
    (meta_texture_tower_update_area t x y w h).invalid j =
      if 1 ≤ j ∧ j < t.n_levels then
        merge_box (t.invalid j)
          (candidate base.width base.height
            ⟨guint16 x, guint16 y, guint16 (x + w), guint16 (y + h)⟩ j)
      else t.invalid j := by
  unfold meta_texture_tower_update_area
  rw [hbase]
  simp only [update_area_loop_spec]
  by_cases h1 : 1 ≤ j ∧ j < t.n_levels
  · have h2 : 1 ≤ j ∧ j < 1 + (t.n_levels - 1) := by omega
    have h3 : j - 1 + 1 = j := by omega
    rw [if_pos h1, if_pos h2, h3]
  · have h2 : ¬ (1 ≤ j ∧ j < 1 + (t.n_levels - 1)) := by omega
    rw [if_neg h1, if_neg h2]

theorem clear_levels_loop_n_levels (count : Nat) :
    ∀ (i : Nat) (t : MetaTextureTower) (c : Cogl),
      (clear_levels_loop count i t c).1.n_levels = t.n_levels := by
  induction count with
  | zero => intro i t c; rfl
  | succ n ih => intro i t c; rw [clear_levels_loop, ih]

theorem clear_levels_loop_invalid (count : Nat) :
    ∀ (i : Nat) (t : MetaTextureTower) (c : Cogl),
      (clear_levels_loop count i t c).1.invalid = t.invalid := by
  induction count with
  | zero => intro i t c; rfl
  | succ n ih => intro i t c; rw [clear_levels_loop, ih]

theorem int_log2_le (w : Nat) : int_log2 w ≤ Nat.log 2 w := by
  unfold int_log2
  split
  · exact Nat.sub_le _ _
  · exact le_rfl

theorem int_log2_exact (w k : Nat) (hmem : w ∉ double_short_widths) (h1 : 2 ^ k ≤ w)
    (h2 : w < 2 ^ (k + 1)) : int_log2 w = k := by
  unfold int_log2
  rw [if_neg hmem]
  exact Nat.log_eq_of_pow_le_of_lt_pow h1 h2

theorem int_log2_short (w k : Nat) (hmem : w ∈ double_short_widths) (hw : w = 2 ^ (k + 1)) :
    int_log2 w = k := by
  unfold int_log2
  rw [if_pos hmem, hw, Nat.log_pow (by decide)]
  rfl

theorem int_log2_one : int_log2 1 = 0 :=
  int_log2_exact 1 0 (by decide) (by norm_num) (by norm_num)

theorem int_log2_max_exact (w h : Nat) (hle : h ≤ w) (hmem : w ∉ double_short_widths) :
    max (int_log2 w) (int_log2 h) = Nat.log 2 w := by
  have e : int_log2 w = Nat.log 2 w := by unfold int_log2; rw [if_neg hmem]
  rw [e]
  exact max_eq_left (le_trans (int_log2_le h) (Nat.log_mono_right hle))

theorem int_log2_max_short (w h k : Nat) (hle : h ≤ w) (hmem : w ∈ double_short_widths)
    (hw : w = 2 ^ (k + 1)) : max (int_log2 w) (int_log2 h) = k := by
  rw [int_log2_short w k hmem hw]
  apply max_eq_left
  rcases Nat.eq_or_lt_of_le hle with e | hlt
  · rw [e, int_log2_short w k hmem hw]
  · refine le_trans (int_log2_le h) ?_
    rcases Nat.eq_zero_or_pos h with h0 | hpos
    · rw [h0]; simp
    · have := Nat.log_lt_of_lt_pow (Nat.pos_iff_ne_zero.mp hpos) (hw ▸ hlt)
      omega

/-- The level count of lines 147-148 in terms of the larger side. -/
theorem level_count_of_larger (w h : Nat) (hle : h ≤ w) :
    min (1 + max (int_log2 w) (int_log2 h)) 12 =
      if w = 8 ∨ w = 64 ∨ w = 128 then Nat.log 2 w
      else min (1 + Nat.log 2 w) 12 := by
  by_cases hmem : w ∈ double_short_widths
  · have hmem2 := hmem
    simp only [double_short_widths, List.mem_cons, List.mem_singleton, List.not_mem_nil,
      or_false] at hmem2
    have key : ∀ k, w = 2 ^ (k + 1) →
        max (int_log2 w) (int_log2 h) = k ∧ Nat.log 2 w = k + 1 := by
      intro k hk
      refine ⟨int_log2_max_short w h k hle hmem hk, ?_⟩
      rw [hk, Nat.log_pow (by decide)]
    rcases hmem2 with e | e | e | e | e | e | e | e | e
    · obtain ⟨a, b⟩ := key 2 (by rw [e]; norm_num)
      rw [a, b, if_pos (Or.inl e)]; decide
    · obtain ⟨a, b⟩ := key 5 (by rw [e]; norm_num)
      rw [a, b, if_pos (Or.inr (Or.inl e))]; decide
    · obtain ⟨a, b⟩ := key 6 (by rw [e]; norm_num)
      rw [a, b, if_pos (Or.inr (Or.inr e))]; decide
    · obtain ⟨a, b⟩ := key 11 (by rw [e]; norm_num)
      rw [a, b, if_neg (by omega)]; decide
    · obtain ⟨a, b⟩ := key 12 (by rw [e]; norm_num)
      rw [a, b, if_neg (by omega)]; decide
    · obtain ⟨a, b⟩ := key 13 (by rw [e]; norm_num)
      rw [a, b, if_neg (by omega)]; decide
    · obtain ⟨a, b⟩ := key 23 (by rw [e]; norm_num)
      rw [a, b, if_neg (by omega)]; decide
    · obtain ⟨a, b⟩ := key 25 (by rw [e]; norm_num)
      rw [a, b, if_neg (by omega)]; decide
    · obtain ⟨a, b⟩ := key 27 (by rw [e]; norm_num)
      rw [a, b, if_neg (by omega)]; decide
  · rw [int_log2_max_exact w h hle hmem, if_neg]
    intro hc
    apply hmem
    rcases hc with e | e | e <;> rw [e] <;> decide

theorem level_count_of_max (w h : Nat) :
    min (1 + max (int_log2 w) (int_log2 h)) 12 =
      if max w h = 8 ∨ max w h = 64 ∨ max w h = 128 then Nat.log 2 (max w h)
      else min (1 + Nat.log 2 (max w h)) 12 := by
  rcases le_total h w with hle | hle
  · rw [max_eq_left hle]
    exact level_count_of_larger w h hle
  · rw [max_eq_right hle, max_comm (int_log2 w)]
    exact level_count_of_larger h w hle

/-- The level count and the base texture that `meta_texture_tower_set_base_texture`
leaves when it installs a texture at a new address. -/
theorem set_base_texture_installs (t : MetaTextureTower) (c : Cogl) (p w h : Nat)
    (hnew : (t.textures 0).map CoglTexture.ptr ≠ some p) :
    (meta_texture_tower_set_base_texture t c (some ⟨p, w, h⟩)).1.n_levels =
        min (1 + max (int_log2 w) (int_log2 h)) 12 ∧
      (meta_texture_tower_set_base_texture t c (some ⟨p, w, h⟩)).1.textures 0 =
        some ⟨p, w, h⟩ := by
  unfold meta_texture_tower_set_base_texture
  have hne : ¬ (Option.map CoglTexture.ptr (some (⟨p, w, h⟩ : CoglTexture)) =
      Option.map CoglTexture.ptr (t.textures 0)) := by
    intro e; exact hnew e.symm
  rw [if_neg hne]
  cases t.textures 0 <;> simp [MAX_TEXTURE_LEVELS]

theorem new_tower_no_base (p : Nat) :
    (meta_texture_tower_new.textures 0).map CoglTexture.ptr ≠ some p := by
  simp [meta_texture_tower_new]

theorem log2_1024 : max (int_log2 1024) (int_log2 1) = 10 := by
  rw [int_log2_max_exact 1024 1 (by decide) (by decide)]
  apply Nat.log_eq_of_pow_le_of_lt_pow <;> norm_num

/-- The level count that `meta_texture_tower_set_base_texture` leaves for a base
texture whose larger side is 8, 64 or 128: the binary logarithm of that side, one
less than `1 + floor (log2 (max (W, H)))`. -/
theorem level_count_at_short_side (t : MetaTextureTower) (c : Cogl)
    (texture : CoglTexture)
    (hnew : (t.textures 0).map CoglTexture.ptr ≠ some texture.ptr)
    (hside : max texture.width texture.height = 8 ∨ max texture.width texture.height = 64 ∨
      max texture.width texture.height = 128) :
    (meta_texture_tower_set_base_texture t c (some texture)).1.n_levels =
      Nat.log 2 (max texture.width texture.height) := by
  obtain ⟨p, w, h⟩ := texture
  rw [(set_base_texture_installs t c p w h hnew).1, level_count_of_max, if_pos hside]

theorem guint16_of_le (n : Nat) (h : n ≤ 65535) : guint16 (n : Int) = n := by
  unfold guint16
  omega

theorem guint16_add_of_le (a b : Nat) (h : a + b ≤ 65535) :
    guint16 ((a : Int) + (b : Int)) = a + b := by
  unfold guint16
  omega

theorem candidate_full (w h : Nat) (hw : 1 ≤ w) (hh : 1 ≤ h) (i : Nat) :
    candidate w h ⟨0, 0, w, h⟩ i = ⟨0, 0, level_size w i, level_size h i⟩ := by
  induction i with
  | zero => rfl
  | succ n ih =>
    have h1 := level_size_pos w hw n
    have h2 := level_size_pos h hh n
    rw [candidate, ih]
    simp only [halve_box, level_size, Box.mk.injEq]
    refine ⟨trivial, trivial, by omega, by omega⟩

theorem new_tower_set_base_invalid (c : Cogl) (p w h : Nat) (i : Nat) :
    (meta_texture_tower_set_base_texture meta_texture_tower_new c (some ⟨p, w, h⟩)).1.invalid i =
      if 1 ≤ i ∧ i < min (1 + max (int_log2 w) (int_log2 h)) 12 then
        candidate w h ⟨guint16 0, guint16 0, guint16 (0 + w), guint16 (0 + h)⟩ i
      else ⟨0, 0, 0, 0⟩ := by
  unfold meta_texture_tower_set_base_texture
  simp only [meta_texture_tower_new, Option.map_some', Option.map_none']
  rw [if_neg (by simp)]
  simp only []
  rw [update_area_invalid _ ⟨p, w, h⟩ (by simp)]
  simp [merge_box, MAX_TEXTURE_LEVELS]

theorem guint16_zero : guint16 0 = 0 := rfl

/-- Claim C2. For `1 ≤ W, H ≤ 65535`, after `meta_texture_tower_set_base_texture` on a
newly created tower with a `W × H` texture, every derived level `i` with `1 ≤ i < N`
has the dirty rectangle `{0, 0, w_i, h_i}`, where `w_i × h_i` is the size of level `i`
(`level_size`: `max (1, · / 2)` applied `i` times). -/
theorem set_base_texture_dirty_full (c : Cogl) (texture : CoglTexture)
    (hw1 : 1 ≤ texture.width) (hw2 : texture.width ≤ 65535)
    (hh1 : 1 ≤ texture.height) (hh2 : texture.height ≤ 65535)
    (i : Nat) (hi1 : 1 ≤ i)
    (hi2 : i < (meta_texture_tower_set_base_texture meta_texture_tower_new c
      (some texture)).1.n_levels) :
    (meta_texture_tower_set_base_texture meta_texture_tower_new c (some texture)).1.invalid i =
      ⟨0, 0, level_size texture.width i, level_size texture.height i⟩ := by
  obtain ⟨p, w, h⟩ := texture
  rw [(set_base_texture_installs _ c p w h (new_tower_no_base p)).1] at hi2
  rw [new_tower_set_base_invalid, if_pos ⟨hi1, hi2⟩]
  rw [guint16_zero, zero_add, zero_add, guint16_of_le _ hw2, guint16_of_le _ hh2,
    candidate_full _ _ hw1 hh1]

theorem log2_5 : max (int_log2 5) (int_log2 3) = 2 := by
  rw [int_log2_max_exact 5 3 (by decide) (by decide)]
  apply Nat.log_eq_of_pow_le_of_lt_pow <;> norm_num

/-- Claim C2 at a 5 × 3 base texture and level 1. -/
theorem set_base_texture_dirty_full_witness :
    (meta_texture_tower_set_base_texture meta_texture_tower_new ⟨0, [], [], [], []⟩
      (some ⟨7, 5, 3⟩)).1.invalid 1 = ⟨0, 0, level_size 5 1, level_size 3 1⟩ :=
  set_base_texture_dirty_full ⟨0, [], [], [], []⟩ ⟨7, 5, 3⟩ (by decide) (by decide) (by decide) (by decide) 1 (by decide)
    (by
      rw [(set_base_texture_installs _ _ 7 5 3 (new_tower_no_base 7)).1, log2_5]
      decide)

/-- Claim C9. On a tower without base texture, `meta_texture_tower_get_paint_texture`
returns no texture and changes neither the tower nor the Cogl state, and
`meta_texture_tower_update_area` leaves the tower unchanged, for every transform and
every rectangle. -/
theorem no_base_texture_noop (paint_level : Int → Int → Int) (alloc : Nat → Bool)
    (t : MetaTextureTower) (c : Cogl) (x y width height : Int)
    (hbase : t.textures 0 = none) :
    meta_texture_tower_get_paint_texture paint_level alloc t c = (none, t, c) ∧
      meta_texture_tower_update_area t x y width height = t := by
  unfold meta_texture_tower_get_paint_texture meta_texture_tower_update_area
  rw [hbase]
  exact ⟨rfl, rfl⟩

/-- Claim C10. `meta_texture_tower_set_base_texture` called with the texture installed
at level 0 (`NULL` on a tower without base) leaves the tower and the Cogl state
unchanged: level count, derived textures, framebuffers and dirty rectangles. -/
theorem set_base_texture_same_noop (t : MetaTextureTower) (c : Cogl) :
    meta_texture_tower_set_base_texture t c (t.textures 0) = (t, c) := by
  unfold meta_texture_tower_set_base_texture
  rw [if_pos rfl]

theorem ceil_half_step (a n : Nat) :
    ((a + 2 ^ n - 1) / 2 ^ n + 1) / 2 = (a + 2 ^ (n + 1) - 1) / 2 ^ (n + 1) := by
  have hm : 0 < 2 ^ n := Nat.two_pow_pos n
  rw [← Nat.add_div_right _ hm, Nat.div_div_eq_div_mul, pow_succ]
  congr 1
  omega

theorem floor_half_step (a n : Nat) : a / 2 ^ n / 2 = a / 2 ^ (n + 1) := by
  rw [Nat.div_div_eq_div_mul, pow_succ]

theorem min_half_step (l c : Nat) (hl : 1 ≤ l) :
    min (max 1 (l / 2)) ((min l c + 1) / 2) = min (max 1 (l / 2)) ((c + 1) / 2) := by
  omega

theorem candidate_closed (w h : Nat) (hw : 1 ≤ w) (hh : 1 ≤ h) (r : Rect) (i : Nat) :
    candidate w h ⟨r.x, r.y, r.x + r.width, r.y + r.height⟩ (i + 1) =
      footprint w h r (i + 1) := by
  induction i with
  | zero =>
    simp only [candidate, halve_box, footprint, level_size, Box.mk.injEq, pow_one, zero_add]
    refine ⟨trivial, trivial, by omega, by omega⟩
  | succ n ih =>
    have h1 := level_size_pos w hw (n + 1)
    have h2 := level_size_pos h hh (n + 1)
    have c1 := ceil_half_step (r.x + r.width) (n + 1)
    have c2 := ceil_half_step (r.y + r.height) (n + 1)
    have e1 : level_size w (n + 1 + 1) = max 1 (level_size w (n + 1) / 2) := rfl
    have e2 : level_size h (n + 1 + 1) = max 1 (level_size h (n + 1) / 2) := rfl
    rw [candidate, ih]
    simp only [halve_box, footprint, Box.mk.injEq, floor_half_step, true_and]
    rw [e1, e2, min_half_step _ _ h1, min_half_step _ _ h2, c1, c2]
    exact ⟨rfl, rfl⟩

theorem merge_box_covers_cand (cur cand : Box) : (merge_box cur cand).covers cand := by
  unfold merge_box Box.covers
  split
  · exact ⟨le_rfl, le_rfl, le_rfl, le_rfl⟩
  · exact ⟨min_le_right _ _, min_le_right _ _, le_max_right _ _, le_max_right _ _⟩

theorem merge_box_covers_cur (cur cand fp : Box) (h : cur.covers fp) (hfp : fp.nonempty) :
    (merge_box cur cand).covers fp := by
  unfold merge_box
  unfold Box.covers Box.nonempty at *
  split
  · omega
  · simp only
    omega

theorem update_area_keeps_cover (t : MetaTextureTower) (x y w h : Int) (i : Nat) (fp : Box)
    (hc : (t.invalid i).covers fp) (hfp : fp.nonempty) :
    ((meta_texture_tower_update_area t x y w h).invalid i).covers fp := by
  cases hb : t.textures 0 with
  | none =>
    unfold meta_texture_tower_update_area
    rw [hb]
    exact hc
  | some base =>
    rw [update_area_invalid t base hb]
    split
    · exact merge_box_covers_cur _ _ _ hc hfp
    · exact hc

theorem mark_all_keeps_cover (rs : List Rect) :
    ∀ (t : MetaTextureTower) (i : Nat) (fp : Box),
      (t.invalid i).covers fp → fp.nonempty → ((mark_all t rs).invalid i).covers fp := by
  induction rs with
  | nil => intro t i fp hc _; exact hc
  | cons r rest ih =>
    intro t i fp hc hfp
    exact ih _ i fp (update_area_keeps_cover t _ _ _ _ i fp hc hfp) hfp

theorem footprint_nonempty_pos (w h : Nat) (r : Rect) (hin : r.inside w h) (i : Nat)
    (hfp : (footprint w h r i).nonempty) : 1 ≤ w ∧ 1 ≤ h := by
  unfold Rect.inside at hin
  unfold footprint Box.nonempty at hfp
  simp only at hfp
  have hm : 0 < 2 ^ i := Nat.two_pow_pos i
  constructor
  · by_contra hcon
    have e : r.x + r.width + 2 ^ i - 1 < 2 ^ i := by omega
    rw [Nat.div_eq_of_lt e, Nat.min_zero] at hfp
    exact Nat.not_lt_zero _ hfp.1
  · by_contra hcon
    have e : r.y + r.height + 2 ^ i - 1 < 2 ^ i := by omega
    rw [Nat.div_eq_of_lt e, Nat.min_zero] at hfp
    exact Nat.not_lt_zero _ hfp.2

/-- Claim C3, amended. For a base texture of width and height at most 65535 and every
finite sequence of `meta_texture_tower_update_area` calls with rectangles inside the
base image, applied to any tower state, every derived level `i` (`1 ≤ i < N`) ends
with a dirty rectangle that covers the level-`i` footprint of every marked rectangle
whose footprint at that level is non-empty. -/
theorem mark_containment (t : MetaTextureTower) (base : CoglTexture) (marks : List Rect)
    (hbase : t.textures 0 = some base)
    (hw : base.width ≤ 65535) (hh : base.height ≤ 65535)
    (hin : ∀ r ∈ marks, r.inside base.width base.height)
    (i : Nat) (hi1 : 1 ≤ i) (hi2 : i < t.n_levels)
    (r : Rect) (hr : r ∈ marks)
    (hfp : (footprint base.width base.height r i).nonempty) :
    ((mark_all t marks).invalid i).covers (footprint base.width base.height r i) := by
  induction marks generalizing t with
  | nil => simp at hr
  | cons r0 rest ih =>
    rcases List.mem_cons.mp hr with e | hmem
    · subst e
      apply mark_all_keeps_cover rest _ i _ _ hfp
      have hin0 := hin r (List.mem_cons_self _ _)
      obtain ⟨hw1, hh1⟩ := footprint_nonempty_pos _ _ r hin0 i hfp
      rw [update_area_invalid t base hbase, if_pos ⟨hi1, hi2⟩]
      have e0 : guint16 (r.x : Int) = r.x := guint16_of_le _ (by unfold Rect.inside at hin0; omega)
      have e1 : guint16 (r.y : Int) = r.y := guint16_of_le _ (by unfold Rect.inside at hin0; omega)
      have e2 := guint16_add_of_le r.x r.width (by unfold Rect.inside at hin0; omega)
      have e3 := guint16_add_of_le r.y r.height (by unfold Rect.inside at hin0; omega)
      rw [e0, e1, e2, e3]
      obtain ⟨k, rfl⟩ : ∃ k, i = k + 1 := ⟨i - 1, by omega⟩
      rw [candidate_closed _ _ hw1 hh1]
      exact merge_box_covers_cand _ _
    · exact ih (meta_texture_tower_update_area t r0.x r0.y r0.width r0.height)
        (by simp [hbase]) (fun r' hr' => hin r' (List.mem_cons_of_mem _ hr'))
        (by simpa using hi2) hmem

theorem log2_65538 : max (int_log2 65538) (int_log2 2) = 16 := by
  rw [int_log2_max_exact 65538 2 (by decide) (by decide)]
  apply Nat.log_eq_of_pow_le_of_lt_pow <;> norm_num

theorem wide_tower_n_levels : wide_tower.n_levels = 12 := by
  unfold wide_tower
  rw [(set_base_texture_installs _ _ 7 65538 2 (new_tower_no_base 7)).1, log2_65538]
  decide

theorem wide_tower_textures : wide_tower.textures 0 = some ⟨7, 65538, 2⟩ := by
  unfold wide_tower
  rw [(set_base_texture_installs _ _ 7 65538 2 (new_tower_no_base 7)).2]

theorem wide_candidate (j : Nat) (h1 : 1 ≤ j) (h2 : j < 12) :
    candidate 65538 2 ⟨0, 0, 2, 2⟩ j = ⟨0, 0, 1, 1⟩ := by
  interval_cases j <;> decide

theorem wide_tower_invalid (j : Nat) :
    wide_tower.invalid j = if 1 ≤ j ∧ j < 12 then ⟨0, 0, 1, 1⟩ else ⟨0, 0, 0, 0⟩ := by
  unfold wide_tower
  have e : min (1 + 16) 12 = 12 := by decide
  have g1 : guint16 (0 + ((65538 : Nat) : Int)) = 2 := by decide
  have g2 : guint16 (0 + ((2 : Nat) : Int)) = 2 := by decide
  rw [new_tower_set_base_invalid, log2_65538, e, guint16_zero, g1, g2]
  by_cases h : 1 ≤ j ∧ j < 12
  · rw [if_pos h, if_pos h, wide_candidate j h.1 h.2]
  · rw [if_neg h, if_neg h]

/-- Claim C3 as stated fails for a base wider than 65535 texels. The tower is a
newly created one after `meta_texture_tower_set_base_texture` with a 65538 × 2 texture:
its dirty rectangles are empty or well-formed inside their level, and level 1 is a
derived level. Marking the whole base `(0, 0, 65538, 2)`, a rectangle inside the base
image whose level-1 footprint `{0, 0, 32769, 1}` is non-empty, leaves level 1 with a
dirty rectangle that does not cover that footprint, because `x + width` is stored in a
`guint16`. -/
theorem mark_containment_fails_on_wide_base :
    wide_tower.textures 0 = some ⟨7, 65538, 2⟩ ∧
      wide_mark.inside 65538 2 ∧
      (∀ j, (wide_tower.invalid j).x1 = (wide_tower.invalid j).x2 ∨
        ((wide_tower.invalid j).nonempty ∧
          (wide_tower.invalid j).x2 ≤ level_size 65538 j ∧
          (wide_tower.invalid j).y2 ≤ level_size 2 j)) ∧
      1 < wide_tower.n_levels ∧
      (footprint 65538 2 wide_mark 1).nonempty ∧
      ¬ ((mark_all wide_tower [wide_mark]).invalid 1).covers (footprint 65538 2 wide_mark 1) := by
  refine ⟨wide_tower_textures, by unfold Rect.inside wide_mark; decide, ?_, ?_, ?_, ?_⟩
  · intro j
    rw [wide_tower_invalid]
    by_cases h : 1 ≤ j ∧ j < 12
    · right
      rw [if_pos h]
      obtain ⟨h1, h2⟩ := h
      unfold Box.nonempty
      interval_cases j <;> decide
    · left
      rw [if_neg h]
  · rw [wide_tower_n_levels]; decide
  · unfold Box.nonempty footprint wide_mark; decide
  · have e : (mark_all wide_tower [wide_mark]).invalid 1 = ⟨0, 0, 1, 1⟩ := by
      unfold mark_all wide_mark
      simp only [List.foldl]
      rw [update_area_invalid _ _ wide_tower_textures, wide_tower_n_levels,
        if_pos (by decide), wide_tower_invalid, if_pos (by decide)]
      decide
    rw [e]
    unfold Box.covers footprint wide_mark
    decide

theorem log2_8 : max (int_log2 8) (int_log2 8) = 2 :=
  int_log2_max_short 8 8 2 (by decide) (by decide) (by norm_num)

/-- Claim C3, amended, at an 8 × 8 base texture, the mark `(2, 2, 4, 4)` and level 1. -/
theorem mark_containment_witness :
    (footprint 8 8 ⟨2, 2, 4, 4⟩ 1).nonempty ∧
      ((mark_all (meta_texture_tower_set_base_texture meta_texture_tower_new ⟨0, [], [], [], []⟩
          (some ⟨7, 8, 8⟩)).1 [⟨2, 2, 4, 4⟩]).invalid 1).covers (footprint 8 8 ⟨2, 2, 4, 4⟩ 1) :=
  have hfp : (footprint 8 8 ⟨2, 2, 4, 4⟩ 1).nonempty := by
    unfold Box.nonempty footprint; decide
  ⟨hfp,
    mark_containment _ ⟨7, 8, 8⟩ [⟨2, 2, 4, 4⟩]
      (set_base_texture_installs _ _ 7 8 8 (new_tower_no_base 7)).2
      (by decide) (by decide)
      (by intro r hr; rw [List.mem_singleton] at hr; subst hr; unfold Rect.inside; decide)
      1 (by decide)
      (by
        rw [(set_base_texture_installs _ _ 7 8 8 (new_tower_no_base 7)).1, log2_8]
        decide)
      ⟨2, 2, 4, 4⟩ (List.mem_singleton.mpr rfl) hfp⟩

theorem create_loop_n_levels (count : Nat) :
    ∀ (i tw th : Nat) (t : MetaTextureTower) (c : Cogl),
      (create_loop count i tw th t c).1.n_levels = t.n_levels := by
  induction count with
  | zero => intro i tw th t c; rfl
  | succ n ih =>
    intro i tw th t c
    rw [create_loop, ih]
    cases t.textures i <;> rfl

theorem create_loop_textures_keep (count : Nat) :
    ∀ (i tw th : Nat) (t : MetaTextureTower) (c : Cogl) (j : Nat),
      (t.textures j ≠ none ∨ j < i ∨ i + count ≤ j) →
      (create_loop count i tw th t c).1.textures j = t.textures j := by
  induction count with
  | zero => intro i tw th t c j _; rfl
  | succ n ih =>
    intro i tw th t c j hj
    rw [create_loop]
    cases h : t.textures i with
    | none =>
      have hji : j ≠ i := by
        rintro rfl
        rcases hj with h1 | h1 | h1
        · exact h1 h
        · omega
        · omega
      have e : (texture_tower_create_texture t c i (max 1 (tw / 2)) (max 1 (th / 2))).1.textures j
          = t.textures j := by
        simp [texture_tower_create_texture, Function.update_noteq hji]
      rw [ih, e]
      rw [e]
      rcases hj with h1 | h1 | h1
      · left; exact h1
      · right; left; omega
      · right; right; omega
    | some d =>
      rw [ih]
      rcases hj with h1 | h1 | h1
      · left; exact h1
      · right; left; omega
      · by_cases hji : j = i
        · left; rw [hji, h]; simp
        · right; right; omega

theorem create_loop_textures_some (count : Nat) :
    ∀ (i tw th : Nat) (t : MetaTextureTower) (c : Cogl) (j : Nat),
      i ≤ j → j < i + count →
      (create_loop count i tw th t c).1.textures j ≠ none := by
  induction count with
  | zero => intro i tw th t c j h1 h2; omega
  | succ n ih =>
    intro i tw th t c j h1 h2
    rw [create_loop]
    by_cases hji : j = i
    · subst hji
      cases h : t.textures j with
      | none =>
        rw [create_loop_textures_keep]
        · simp [texture_tower_create_texture]
        · left; simp [texture_tower_create_texture]
      | some d =>
        rw [create_loop_textures_keep]
        · rw [h]; simp
        · left; rw [h]; simp
    · exact ih _ _ _ _ _ _ (by omega) (by omega)

theorem revalidate_some (alloc : Nat → Bool) (t : MetaTextureTower) (c : Cogl) (i : Nat)
    (s d : CoglTexture) (e1 : t.textures (i - 1) = some s) (e2 : t.textures i = some d) :
    texture_tower_revalidate alloc t c i =
      if alloc i = false then
        ({ t with fbos := Function.update t.fbos i (some ((t.fbos i).getD ⟨d⟩)) }, c)
      else
        ({ t with
           fbos := Function.update t.fbos i (some ((t.fbos i).getD ⟨d⟩))
           pipeline_template := true
           invalid := Function.update t.invalid i ⟨0, 0, 0, 0⟩ },
         { c with draws := c.draws ++
            [{ level := i
               fb := (t.fbos i).getD ⟨d⟩
               source := s
               x1 := (t.invalid i).x1
               y1 := (t.invalid i).y1
               x2 := (t.invalid i).x2
               y2 := (t.invalid i).y2
               tx1 := (2 * ((t.invalid i).x1 : ℚ)) / s.width
               ty1 := (2 * ((t.invalid i).y1 : ℚ)) / s.height
               tx2 := (2 * ((t.invalid i).x2 : ℚ)) / s.width
               ty2 := (2 * ((t.invalid i).y2 : ℚ)) / s.height }] }) := by
  unfold texture_tower_revalidate
  simp only [e1, e2]
  cases t.fbos i <;> rfl

theorem revalidate_none (alloc : Nat → Bool) (t : MetaTextureTower) (c : Cogl) (i : Nat)
    (h : t.textures (i - 1) = none ∨ t.textures i = none) :
    texture_tower_revalidate alloc t c i = (t, c) := by
  unfold texture_tower_revalidate
  cases e1 : t.textures (i - 1) with
  | none => rfl
  | some s =>
    cases e2 : t.textures i with
    | none => rfl
    | some d =>
      rcases h with h | h
      · rw [e1] at h; exact absurd h (by simp)
      · rw [e2] at h; exact absurd h (by simp)

theorem revalidate_textures (alloc : Nat → Bool) (t : MetaTextureTower) (c : Cogl) (i : Nat) :
    (texture_tower_revalidate alloc t c i).1.textures = t.textures := by
  cases e1 : t.textures (i - 1) with
  | none => rw [revalidate_none _ _ _ _ (Or.inl e1)]
  | some s =>
    cases e2 : t.textures i with
    | none => rw [revalidate_none _ _ _ _ (Or.inr e2)]
    | some d =>
      rw [revalidate_some _ _ _ _ s d e1 e2]
      split <;> rfl

theorem revalidate_n_levels (alloc : Nat → Bool) (t : MetaTextureTower) (c : Cogl) (i : Nat) :
    (texture_tower_revalidate alloc t c i).1.n_levels = t.n_levels := by
  cases e1 : t.textures (i - 1) with
  | none => rw [revalidate_none _ _ _ _ (Or.inl e1)]
  | some s =>
    cases e2 : t.textures i with
    | none => rw [revalidate_none _ _ _ _ (Or.inr e2)]
    | some d =>
      rw [revalidate_some _ _ _ _ s d e1 e2]
      split <;> rfl

theorem revalidate_invalid_other (alloc : Nat → Bool) (t : MetaTextureTower) (c : Cogl)
    (i j : Nat) (hji : j ≠ i) :
    (texture_tower_revalidate alloc t c i).1.invalid j = t.invalid j := by
  cases e1 : t.textures (i - 1) with
  | none => rw [revalidate_none _ _ _ _ (Or.inl e1)]
  | some s =>
    cases e2 : t.textures i with
    | none => rw [revalidate_none _ _ _ _ (Or.inr e2)]
    | some d =>
      rw [revalidate_some _ _ _ _ s d e1 e2]
      split
      · rfl
      · exact Function.update_noteq hji _ _

theorem revalidate_invalid_self (alloc : Nat → Bool) (t : MetaTextureTower) (c : Cogl)
    (i : Nat) (ha : alloc i = true) (h1 : t.textures (i - 1) ≠ none)
    (h2 : t.textures i ≠ none) :
    (texture_tower_revalidate alloc t c i).1.invalid i = ⟨0, 0, 0, 0⟩ := by
  cases e1 : t.textures (i - 1) with
  | none => exact absurd e1 h1
  | some s =>
    cases e2 : t.textures i with
    | none => exact absurd e2 h2
    | some d =>
      rw [revalidate_some _ _ _ _ s d e1 e2, if_neg (by rw [ha]; simp)]
      exact Function.update_same _ _ _

theorem revalidate_loop_textures (alloc : Nat → Bool) (level count : Nat) :
    ∀ (i : Nat) (t : MetaTextureTower) (c : Cogl),
      (revalidate_loop alloc level count i t c).1.textures = t.textures := by
  induction count with
  | zero => intro i t c; rfl
  | succ n ih =>
    intro i t c
    rw [revalidate_loop, ih]
    split
    · exact revalidate_textures _ _ _ _
    · rfl

theorem revalidate_loop_n_levels (alloc : Nat → Bool) (level count : Nat) :
    ∀ (i : Nat) (t : MetaTextureTower) (c : Cogl),
      (revalidate_loop alloc level count i t c).1.n_levels = t.n_levels := by
  induction count with
  | zero => intro i t c; rfl
  | succ n ih =>
    intro i t c
    rw [revalidate_loop, ih]
    split
    · exact revalidate_n_levels _ _ _ _
    · rfl

theorem revalidate_loop_clean (alloc : Nat → Bool) (level count : Nat) :
    ∀ (i : Nat) (t : MetaTextureTower) (c : Cogl),
      ¬ ((t.invalid level).x2 ≠ (t.invalid level).x1 ∧
          (t.invalid level).y2 ≠ (t.invalid level).y1) →
      revalidate_loop alloc level count i t c = (t, c) := by
  induction count with
  | zero => intro i t c _; rfl
  | succ n ih =>
    intro i t c h
    rw [revalidate_loop, if_neg h]
    exact ih _ _ _ h

theorem revalidate_loop_clears (level count : Nat) :
    ∀ (i : Nat) (t : MetaTextureTower) (c : Cogl),
      1 ≤ i → i + count = level + 1 → 1 ≤ count →
      (∀ j, j ≤ level → t.textures j ≠ none) →
      ¬ (((revalidate_loop (fun _ => true) level count i t c).1.invalid level).x2 ≠
            ((revalidate_loop (fun _ => true) level count i t c).1.invalid level).x1 ∧
          ((revalidate_loop (fun _ => true) level count i t c).1.invalid level).y2 ≠
            ((revalidate_loop (fun _ => true) level count i t c).1.invalid level).y1) := by
  induction count with
  | zero => intro i t c _ _ h; omega
  | succ n ih =>
    intro i t c hi hsum _ htex
    by_cases hd : (t.invalid level).x2 ≠ (t.invalid level).x1 ∧
        (t.invalid level).y2 ≠ (t.invalid level).y1
    · rw [revalidate_loop, if_pos hd]
      by_cases hn : n = 0
      · subst hn
        have hil : i = level := by omega
        subst hil
        simp only [revalidate_loop]
        rw [revalidate_invalid_self _ _ _ _ rfl (htex _ (by omega)) (htex _ le_rfl)]
        simp
      · apply ih
        · omega
        · omega
        · omega
        · intro j hj
          rw [revalidate_textures]
          exact htex j hj
    · rw [revalidate_loop_clean _ _ _ _ _ _ hd]
      exact hd

theorem get_paint_texture_base (paint_level : Int → Int → Int) (alloc : Nat → Bool)
    (t : MetaTextureTower) (c : Cogl) (base : CoglTexture) (hbase : t.textures 0 = some base)
    (hlevel : ¬ paint_level base.width base.height < 0) :
    meta_texture_tower_get_paint_texture paint_level alloc t c =
      paint_texture_at_level alloc
        (min (paint_level base.width base.height) ((t.n_levels : Int) - 1)).toNat
        base.width base.height t c := by
  unfold meta_texture_tower_get_paint_texture
  simp only [hbase, if_neg hlevel]

theorem paint_texture_at_level_zero (alloc : Nat → Bool) (w h : Nat)
    (t : MetaTextureTower) (c : Cogl) :
    paint_texture_at_level alloc 0 w h t c = (t.textures 0, t, c) := by
  unfold paint_texture_at_level
  split <;> rfl

theorem paint_texture_at_level_clean (alloc : Nat → Bool) (level w h : Nat)
    (t : MetaTextureTower) (c : Cogl) (h1 : t.textures level ≠ none)
    (h2 : ¬ ((t.invalid level).x2 ≠ (t.invalid level).x1 ∧
          (t.invalid level).y2 ≠ (t.invalid level).y1)) :
    paint_texture_at_level alloc level w h t c = (t.textures level, t, c) := by
  unfold paint_texture_at_level
  rw [if_neg]
  rintro (h3 | h3)
  · exact h1 h3
  · exact h2 h3

theorem paint_texture_at_level_textures_zero (alloc : Nat → Bool) (level w h : Nat)
    (t : MetaTextureTower) (c : Cogl) :
    (paint_texture_at_level alloc level w h t c).2.1.textures 0 = t.textures 0 := by
  unfold paint_texture_at_level
  split
  · simp only [revalidate_loop_textures]
    exact create_loop_textures_keep _ _ _ _ _ _ _ (Or.inr (Or.inl (by decide)))
  · rfl

theorem paint_texture_at_level_n_levels (alloc : Nat → Bool) (level w h : Nat)
    (t : MetaTextureTower) (c : Cogl) :
    (paint_texture_at_level alloc level w h t c).2.1.n_levels = t.n_levels := by
  unfold paint_texture_at_level
  split
  · simp only [revalidate_loop_n_levels, create_loop_n_levels]
  · rfl

theorem paint_texture_at_level_result (alloc : Nat → Bool) (level w h : Nat)
    (t : MetaTextureTower) (c : Cogl) :
    (paint_texture_at_level alloc level w h t c).1 =
      (paint_texture_at_level alloc level w h t c).2.1.textures level := by
  unfold paint_texture_at_level
  split <;> rfl

theorem paint_texture_at_level_some (alloc : Nat → Bool) (level w h : Nat)
    (t : MetaTextureTower) (c : Cogl) (hbase : t.textures 0 ≠ none) :
    (paint_texture_at_level alloc level w h t c).1 ≠ none := by
  unfold paint_texture_at_level
  split
  · simp only [revalidate_loop_textures]
    by_cases hj0 : level = 0
    · rw [hj0, create_loop_textures_keep _ _ _ _ _ _ _ (Or.inr (Or.inl (by decide)))]
      exact hbase
    · exact create_loop_textures_some _ _ _ _ _ _ _ (by omega) (by omega)
  · rename_i hc
    exact fun e => hc (Or.inl e)

theorem paint_texture_at_level_twice (alloc2 : Nat → Bool) (level w h : Nat)
    (t : MetaTextureTower) (c : Cogl) (hbase : t.textures 0 ≠ none) :
    paint_texture_at_level alloc2 level w h
        (paint_texture_at_level (fun _ => true) level w h t c).2.1
        (paint_texture_at_level (fun _ => true) level w h t c).2.2 =
      paint_texture_at_level (fun _ => true) level w h t c := by
  by_cases hl : level = 0
  · subst hl
    simp only [paint_texture_at_level_zero]
  · by_cases hc : t.textures level = none ∨
        ((t.invalid level).x2 ≠ (t.invalid level).x1 ∧
         (t.invalid level).y2 ≠ (t.invalid level).y1)
    · have e : paint_texture_at_level (fun _ => true) level w h t c =
          ((revalidate_loop (fun _ => true) level level 1
              (create_loop level 1 w h t c).1 (create_loop level 1 w h t c).2).1.textures level,
            (revalidate_loop (fun _ => true) level level 1
              (create_loop level 1 w h t c).1 (create_loop level 1 w h t c).2).1,
            (revalidate_loop (fun _ => true) level level 1
              (create_loop level 1 w h t c).1 (create_loop level 1 w h t c).2).2) := by
        unfold paint_texture_at_level
        rw [if_pos hc]
      rw [e]
      apply paint_texture_at_level_clean
      · rw [revalidate_loop_textures]
        exact create_loop_textures_some _ _ _ _ _ _ _ (by omega) (by omega)
      · apply revalidate_loop_clears level level 1 _ _ le_rfl (by omega) (by omega)
        intro j hj
        by_cases hj0 : j = 0
        · subst hj0
          rw [create_loop_textures_keep _ _ _ _ _ _ _ (Or.inr (Or.inl (by decide)))]
          exact hbase
        · exact create_loop_textures_some _ _ _ _ _ _ _ (by omega) (by omega)
    · have h1 : t.textures level ≠ none := fun e => hc (Or.inl e)
      have h2 : ¬ ((t.invalid level).x2 ≠ (t.invalid level).x1 ∧
          (t.invalid level).y2 ≠ (t.invalid level).y1) := fun e => hc (Or.inr e)
      rw [paint_texture_at_level_clean _ _ _ _ _ _ h1 h2]
      exact paint_texture_at_level_clean _ _ _ _ _ _ h1 h2

theorem get_paint_texture_twice (paint_level : Int → Int → Int) (alloc2 : Nat → Bool)
    (t : MetaTextureTower) (c : Cogl) :
    meta_texture_tower_get_paint_texture paint_level alloc2
        (meta_texture_tower_get_paint_texture paint_level (fun _ => true) t c).2.1
        (meta_texture_tower_get_paint_texture paint_level (fun _ => true) t c).2.2 =
      meta_texture_tower_get_paint_texture paint_level (fun _ => true) t c := by
  cases hb : t.textures 0 with
  | none =>
    have e : ∀ a, meta_texture_tower_get_paint_texture paint_level a t c = (none, t, c) := by
      intro a
      unfold meta_texture_tower_get_paint_texture
      rw [hb]
    rw [e, e]
  | some base =>
    by_cases hl : paint_level base.width base.height < 0
    · have e : ∀ a, meta_texture_tower_get_paint_texture paint_level a t c = (none, t, c) := by
        intro a
        unfold meta_texture_tower_get_paint_texture
        simp only [hb, if_pos hl]
      rw [e, e]
    · rw [get_paint_texture_base _ _ t c base hb hl]
      have hb2 := paint_texture_at_level_textures_zero (fun _ => true)
        (min (paint_level base.width base.height) ((t.n_levels : Int) - 1)).toNat
        base.width base.height t c
      rw [hb] at hb2
      rw [get_paint_texture_base _ _ _ _ base hb2 hl, paint_texture_at_level_n_levels]
      exact paint_texture_at_level_twice _ _ _ _ _ _ (by rw [hb]; simp)

/-- Claim C4. For every tower state and every paint transform (`paint_level`), when
the target allocations of a first `meta_texture_tower_get_paint_texture` call succeed,
a second call with the same transform and nothing in between records no draw, returns
the same texture and leaves the tower state as the first call left it, whatever its
own allocations would answer. -/
theorem get_paint_texture_idempotent (paint_level : Int → Int → Int) (alloc2 : Nat → Bool)
    (t : MetaTextureTower) (c : Cogl) :
    (meta_texture_tower_get_paint_texture paint_level alloc2
        (meta_texture_tower_get_paint_texture paint_level (fun _ => true) t c).2.1
        (meta_texture_tower_get_paint_texture paint_level (fun _ => true) t c).2.2).2.2.draws =
      (meta_texture_tower_get_paint_texture paint_level (fun _ => true) t c).2.2.draws ∧
    (meta_texture_tower_get_paint_texture paint_level alloc2
        (meta_texture_tower_get_paint_texture paint_level (fun _ => true) t c).2.1
        (meta_texture_tower_get_paint_texture paint_level (fun _ => true) t c).2.2).1 =
      (meta_texture_tower_get_paint_texture paint_level (fun _ => true) t c).1 ∧
    (meta_texture_tower_get_paint_texture paint_level alloc2
        (meta_texture_tower_get_paint_texture paint_level (fun _ => true) t c).2.1
        (meta_texture_tower_get_paint_texture paint_level (fun _ => true) t c).2.2).2.1 =
      (meta_texture_tower_get_paint_texture paint_level (fun _ => true) t c).2.1 := by
  rw [get_paint_texture_twice]
  exact ⟨rfl, rfl, rfl⟩

/-- Claim C8. For a tower with a base texture (so `1 ≤ n_levels`) and an estimated
level `e ≥ 0`, `meta_texture_tower_get_paint_texture` returns the texture stored at
level `min (e, N - 1)` after the call, which exists; when that level is 0 the result
is the base texture and the tower and the Cogl state are unchanged (no level created,
no draw recorded). -/
theorem get_paint_texture_clamped_level (paint_level : Int → Int → Int) (alloc : Nat → Bool)
    (t : MetaTextureTower) (c : Cogl) (base : CoglTexture)
    (hbase : t.textures 0 = some base)
    (he : 0 ≤ paint_level base.width base.height)
    (_hn : 1 ≤ t.n_levels) :
    (meta_texture_tower_get_paint_texture paint_level alloc t c).1 =
        (meta_texture_tower_get_paint_texture paint_level alloc t c).2.1.textures
          (min (paint_level base.width base.height) ((t.n_levels : Int) - 1)).toNat ∧
      (meta_texture_tower_get_paint_texture paint_level alloc t c).1 ≠ none ∧
      (min (paint_level base.width base.height) ((t.n_levels : Int) - 1) = 0 →
        meta_texture_tower_get_paint_texture paint_level alloc t c = (some base, t, c)) := by
  rw [get_paint_texture_base _ _ t c base hbase (by omega)]
  refine ⟨paint_texture_at_level_result _ _ _ _ _ _,
    paint_texture_at_level_some _ _ _ _ _ _ (by rw [hbase]; simp), ?_⟩
  intro h0
  rw [h0, Int.toNat_zero, paint_texture_at_level_zero, hbase]

theorem log2_512 : max (int_log2 512) (int_log2 512) = 9 := by
  rw [int_log2_max_exact 512 512 (by decide) (by decide)]
  apply Nat.log_eq_of_pow_le_of_lt_pow <;> norm_num

theorem new_tower_set_base_fields (c : Cogl) (p w h : Nat) :
    (meta_texture_tower_set_base_texture meta_texture_tower_new c (some ⟨p, w, h⟩)).1.textures =
        Function.update (fun _ => none) 0 (some ⟨p, w, h⟩) ∧
      (meta_texture_tower_set_base_texture meta_texture_tower_new c (some ⟨p, w, h⟩)).1.fbos =
        (fun _ => none) ∧
      (meta_texture_tower_set_base_texture meta_texture_tower_new c (some ⟨p, w, h⟩)).2 =
        { c with refs := c.refs ++ [⟨p, w, h⟩] } := by
  unfold meta_texture_tower_set_base_texture
  simp only [meta_texture_tower_new, Option.map_some', Option.map_none']
  rw [if_neg (by simp)]
  simp only [update_area_textures, update_area_fbos]
  exact ⟨trivial, trivial, trivial⟩

theorem scenario_paint (alloc : Nat → Bool) (t : MetaTextureTower) (c : Cogl) (p : Nat)
    (h0 : t.textures 0 = some ⟨p, 512, 512⟩) (h1 : t.textures 1 = none)
    (h2 : t.textures 2 = none) (f1 : t.fbos 1 = none) (f2 : t.fbos 2 = none)
    (ha1 : alloc 1 = true) (ha2 : alloc 2 = true) :
    (paint_texture_at_level alloc 2 512 512 t c).2.1.textures 1 =
        some ⟨c.next_ptr, 256, 256⟩ ∧
      (paint_texture_at_level alloc 2 512 512 t c).2.1.textures 2 =
        some ⟨c.next_ptr + 1, 128, 128⟩ ∧
      (paint_texture_at_level alloc 2 512 512 t c).2.2.draws = c.draws ++
        [⟨1, ⟨⟨c.next_ptr, 256, 256⟩⟩, ⟨p, 512, 512⟩, 0, 0, 256, 256, 0, 0, 1, 1⟩,
         ⟨2, ⟨⟨c.next_ptr + 1, 128, 128⟩⟩, ⟨c.next_ptr, 256, 256⟩, 0, 0, 128, 128, 0, 0, 1, 1⟩] ∧
      (paint_texture_at_level alloc 2 512 512 t c).2.1.invalid 1 = ⟨0, 0, 0, 0⟩ ∧
      (paint_texture_at_level alloc 2 512 512 t c).2.1.invalid 2 = ⟨0, 0, 0, 0⟩ ∧
      (paint_texture_at_level alloc 2 512 512 t c).1 = some ⟨c.next_ptr + 1, 128, 128⟩ := by
  have g1 : guint16 256 = 256 := by decide
  have g2 : guint16 128 = 128 := by decide
  simp [paint_texture_at_level, create_loop, revalidate_loop, texture_tower_create_texture,
    texture_tower_revalidate, h0, h1, h2, f1, f2, ha1, ha2, g1, g2]
  norm_num

/-- Claim C7. On a newly created tower, `meta_texture_tower_set_base_texture` with a
512 × 512 texture (10 levels), then `meta_texture_tower_update_area (0, 0, 64, 64)`,
then a `meta_texture_tower_get_paint_texture` whose estimated level is 2 and whose
target allocations for levels 1 and 2 succeed: levels 1 and 2, absent before, are
created at 256 × 256 and 128 × 128; exactly two draws are recorded, level 1 from
level 0 and then level 2 from level 1; the dirty rectangles of levels 1 and 2 are
empty afterwards; and the 128 × 128 level-2 texture is returned. -/
theorem scenario_512 (paint_level : Int → Int → Int) (alloc : Nat → Bool) (c : Cogl) (p : Nat)
    (hl : paint_level 512 512 = 2) (ha1 : alloc 1 = true) (ha2 : alloc 2 = true) :
    (meta_texture_tower_set_base_texture meta_texture_tower_new c
        (some ⟨p, 512, 512⟩)).1.n_levels = 10 ∧
      (meta_texture_tower_update_area
        (meta_texture_tower_set_base_texture meta_texture_tower_new c (some ⟨p, 512, 512⟩)).1
        0 0 64 64).textures 1 = none ∧
      (meta_texture_tower_update_area
        (meta_texture_tower_set_base_texture meta_texture_tower_new c (some ⟨p, 512, 512⟩)).1
        0 0 64 64).textures 2 = none ∧
      (meta_texture_tower_get_paint_texture paint_level alloc
        (meta_texture_tower_update_area
          (meta_texture_tower_set_base_texture meta_texture_tower_new c (some ⟨p, 512, 512⟩)).1
          0 0 64 64)
        (meta_texture_tower_set_base_texture meta_texture_tower_new c
          (some ⟨p, 512, 512⟩)).2).2.1.textures 1 = some ⟨c.next_ptr, 256, 256⟩ ∧
      (meta_texture_tower_get_paint_texture paint_level alloc
        (meta_texture_tower_update_area
          (meta_texture_tower_set_base_texture meta_texture_tower_new c (some ⟨p, 512, 512⟩)).1
          0 0 64 64)
        (meta_texture_tower_set_base_texture meta_texture_tower_new c
          (some ⟨p, 512, 512⟩)).2).2.1.textures 2 = some ⟨c.next_ptr + 1, 128, 128⟩ ∧
      (meta_texture_tower_get_paint_texture paint_level alloc
        (meta_texture_tower_update_area
          (meta_texture_tower_set_base_texture meta_texture_tower_new c (some ⟨p, 512, 512⟩)).1
          0 0 64 64)
        (meta_texture_tower_set_base_texture meta_texture_tower_new c
          (some ⟨p, 512, 512⟩)).2).2.2.draws = c.draws ++
        [⟨1, ⟨⟨c.next_ptr, 256, 256⟩⟩, ⟨p, 512, 512⟩, 0, 0, 256, 256, 0, 0, 1, 1⟩,
         ⟨2, ⟨⟨c.next_ptr + 1, 128, 128⟩⟩, ⟨c.next_ptr, 256, 256⟩, 0, 0, 128, 128, 0, 0, 1, 1⟩] ∧
      (meta_texture_tower_get_paint_texture paint_level alloc
        (meta_texture_tower_update_area
          (meta_texture_tower_set_base_texture meta_texture_tower_new c (some ⟨p, 512, 512⟩)).1
          0 0 64 64)
        (meta_texture_tower_set_base_texture meta_texture_tower_new c
          (some ⟨p, 512, 512⟩)).2).2.1.invalid 1 = ⟨0, 0, 0, 0⟩ ∧
      (meta_texture_tower_get_paint_texture paint_level alloc
        (meta_texture_tower_update_area
          (meta_texture_tower_set_base_texture meta_texture_tower_new c (some ⟨p, 512, 512⟩)).1
          0 0 64 64)
        (meta_texture_tower_set_base_texture meta_texture_tower_new c
          (some ⟨p, 512, 512⟩)).2).2.1.invalid 2 = ⟨0, 0, 0, 0⟩ ∧
      (meta_texture_tower_get_paint_texture paint_level alloc
        (meta_texture_tower_update_area
          (meta_texture_tower_set_base_texture meta_texture_tower_new c (some ⟨p, 512, 512⟩)).1
          0 0 64 64)
        (meta_texture_tower_set_base_texture meta_texture_tower_new c
          (some ⟨p, 512, 512⟩)).2).1 = some ⟨c.next_ptr + 1, 128, 128⟩ := by
  obtain ⟨ht, hf, hc⟩ := new_tower_set_base_fields c p 512 512
  have hn : (meta_texture_tower_set_base_texture meta_texture_tower_new c
      (some ⟨p, 512, 512⟩)).1.n_levels = 10 := by
    rw [(set_base_texture_installs _ c p 512 512 (new_tower_no_base p)).1, log2_512]
    decide
  have h0 : (meta_texture_tower_update_area
      (meta_texture_tower_set_base_texture meta_texture_tower_new c (some ⟨p, 512, 512⟩)).1
      0 0 64 64).textures 0 = some ⟨p, 512, 512⟩ := by
    rw [update_area_textures, ht]; rfl
  have h1 : (meta_texture_tower_update_area
      (meta_texture_tower_set_base_texture meta_texture_tower_new c (some ⟨p, 512, 512⟩)).1
      0 0 64 64).textures 1 = none := by
    rw [update_area_textures, ht]; rfl
  have h2 : (meta_texture_tower_update_area
      (meta_texture_tower_set_base_texture meta_texture_tower_new c (some ⟨p, 512, 512⟩)).1
      0 0 64 64).textures 2 = none := by
    rw [update_area_textures, ht]; rfl
  have f1 : (meta_texture_tower_update_area
      (meta_texture_tower_set_base_texture meta_texture_tower_new c (some ⟨p, 512, 512⟩)).1
      0 0 64 64).fbos 1 = none := by
    rw [update_area_fbos, hf]
  have f2 : (meta_texture_tower_update_area
      (meta_texture_tower_set_base_texture meta_texture_tower_new c (some ⟨p, 512, 512⟩)).1
      0 0 64 64).fbos 2 = none := by
    rw [update_area_fbos, hf]
  have hl' : ¬ paint_level ((512 : Nat) : Int) ((512 : Nat) : Int) < 0 := by
    rw [Nat.cast_ofNat, hl]; decide
  have hlv : (min (paint_level ((512 : Nat) : Int) ((512 : Nat) : Int))
      (((10 : Nat) : Int) - 1)).toNat = 2 := by
    rw [Nat.cast_ofNat, hl]; decide
  have e := get_paint_texture_base paint_level alloc _ 
    (meta_texture_tower_set_base_texture meta_texture_tower_new c (some ⟨p, 512, 512⟩)).2
    ⟨p, 512, 512⟩ h0 hl'
  simp only [] at e
  rw [update_area_n_levels, hn] at e
  rw [hlv] at e
  rw [e, hn, hc]
  obtain ⟨r1, r2, r3, r4, r5, r6⟩ := scenario_paint alloc
    (meta_texture_tower_update_area
      (meta_texture_tower_set_base_texture meta_texture_tower_new c (some ⟨p, 512, 512⟩)).1
      0 0 64 64)
    { c with refs := c.refs ++ [⟨p, 512, 512⟩] } p h0 h1 h2 f1 f2 ha1 ha2
  refine ⟨rfl, h1, h2, r1, r2, r3, r4, r5, r6⟩

/-- Claim C7 with a constant estimate, allocations that succeed and an empty Cogl state. -/
theorem scenario_512_witness :
    (meta_texture_tower_get_paint_texture (fun _ _ => 2) (fun _ => true)
        (meta_texture_tower_update_area
          (meta_texture_tower_set_base_texture meta_texture_tower_new ⟨0, [], [], [], []⟩
            (some ⟨7, 512, 512⟩)).1 0 0 64 64)
        (meta_texture_tower_set_base_texture meta_texture_tower_new ⟨0, [], [], [], []⟩
          (some ⟨7, 512, 512⟩)).2).1 = some ⟨1, 128, 128⟩ :=
  (scenario_512 (fun _ _ => 2) (fun _ => true) ⟨0, [], [], [], []⟩ 7 rfl rfl rfl).2.2.2.2.2.2.2.2

theorem new_tower_set_base_512 (c : Cogl) (p : Nat) :
    (meta_texture_tower_set_base_texture meta_texture_tower_new c
      (some ⟨p, 512, 512⟩)).1.n_levels = 10 := by
  rw [(set_base_texture_installs _ c p 512 512 (new_tower_no_base p)).1, log2_512]
  decide

/-- Claim C8 at a 512 × 512 base and the estimated level 0. -/
theorem get_paint_texture_clamped_level_witness :
    meta_texture_tower_get_paint_texture (fun _ _ => 0) (fun _ => true)
        (meta_texture_tower_set_base_texture meta_texture_tower_new ⟨0, [], [], [], []⟩
          (some ⟨7, 512, 512⟩)).1 ⟨0, [], [], [], []⟩ =
      (some ⟨7, 512, 512⟩,
        (meta_texture_tower_set_base_texture meta_texture_tower_new ⟨0, [], [], [], []⟩
          (some ⟨7, 512, 512⟩)).1, ⟨0, [], [], [], []⟩) :=
  (get_paint_texture_clamped_level (fun _ _ => 0) (fun _ => true) _ ⟨0, [], [], [], []⟩ ⟨7, 512, 512⟩
    (set_base_texture_installs _ _ 7 512 512 (new_tower_no_base 7)).2 (le_refl 0)
    (by rw [new_tower_set_base_512]; decide)).2.2
    (by rw [new_tower_set_base_512]; decide)

/-- Claim C9 at the newly created tower. -/
theorem no_base_texture_noop_witness :
    meta_texture_tower_get_paint_texture (fun _ _ => 3) (fun _ => true)
        meta_texture_tower_new ⟨0, [], [], [], []⟩ =
      (none, meta_texture_tower_new, ⟨0, [], [], [], []⟩) ∧
    meta_texture_tower_update_area meta_texture_tower_new 0 0 5 5 = meta_texture_tower_new :=
  no_base_texture_noop (fun _ _ => 3) (fun _ => true) meta_texture_tower_new ⟨0, [], [], [], []⟩ 0 0 5 5 rfl

theorem scaled_multiply (s : ℝ) (m p : graphene_matrix_t) (j : Fin 4) :
    graphene_matrix_multiply (graphene_matrix_multiply (graphene_matrix_init_scale s s s) m) p 0 j
        = s * graphene_matrix_multiply m p 0 j ∧
      graphene_matrix_multiply (graphene_matrix_multiply (graphene_matrix_init_scale s s s) m) p 1 j
        = s * graphene_matrix_multiply m p 1 j ∧
      graphene_matrix_multiply (graphene_matrix_multiply (graphene_matrix_init_scale s s s) m) p 3 j
        = graphene_matrix_multiply m p 3 j := by
  simp [graphene_matrix_multiply, graphene_matrix_init_scale]
  constructor <;> ring

theorem paint_jacobian_scaled (pc : ClutterPaintContext) (s : ℝ) (w h : Int)
    (hxw : graphene_matrix_multiply pc.modelview pc.projection 0 3 = 0)
    (hyw : graphene_matrix_multiply pc.modelview pc.projection 1 3 = 0) :
    paint_jacobian (scale_modelview pc s) w h =
      { dxdu_ := s * (0.5 * pc.viewport 2 * graphene_matrix_multiply pc.modelview pc.projection 0 0)
        dxdv_ := s * (0.5 * pc.viewport 2 * graphene_matrix_multiply pc.modelview pc.projection 1 0)
        dydu_ := s * (0.5 * pc.viewport 3 * graphene_matrix_multiply pc.modelview pc.projection 0 1)
        dydv_ := s * (0.5 * pc.viewport 3 * graphene_matrix_multiply pc.modelview pc.projection 1 1)
        wc := graphene_matrix_multiply pc.modelview pc.projection 3 3 } := by
  unfold paint_jacobian scale_modelview
  simp only [scaled_multiply, hxw, hyw]
  congr 1 <;> ring

theorem paint_det_scaled (a b c d wc s : ℝ) :
    paint_det ⟨s * a, s * b, s * c, s * d, wc⟩ = s ^ 2 * paint_det ⟨a, b, c, d, wc⟩ := by
  unfold paint_det
  ring

theorem paint_lambda_scaled (a b c d wc s : ℝ) (hs : 0 < s)
    (hdet : paint_det ⟨a, b, c, d, wc⟩ ≠ 0) :
    paint_lambda ⟨s * a, s * b, s * c, s * d, wc⟩ =
      0.5 * M_LOG2E * Real.log
        (max (d * d + c * c) (b * b + a * a) * wc * wc /
          (paint_det ⟨a, b, c, d, wc⟩ * paint_det ⟨a, b, c, d, wc⟩) / s ^ 2) + LOD_BIAS := by
  unfold paint_lambda
  rw [paint_det_scaled]
  simp only
  have e1 : s * d * (s * d) + s * c * (s * c) = s ^ 2 * (d * d + c * c) := by ring
  have e2 : s * b * (s * b) + s * a * (s * a) = s ^ 2 * (b * b + a * a) := by ring
  rw [e1, e2, ← mul_max_of_nonneg _ _ (sq_nonneg s)]
  congr 3
  have hs' : s ≠ 0 := ne_of_gt hs
  field_simp
  ring

theorem rho_sq_pos (a b c d wc : ℝ) (hdet : paint_det ⟨a, b, c, d, wc⟩ ≠ 0) :
    0 < max (d * d + c * c) (b * b + a * a) := by
  by_contra hcon
  push_neg at hcon
  have h1 : d * d + c * c ≤ 0 := le_trans (le_max_left _ _) hcon
  have h2 : b * b + a * a ≤ 0 := le_trans (le_max_right _ _) hcon
  have hd : d = 0 := by nlinarith [mul_self_nonneg d, mul_self_nonneg c]
  have hb : b = 0 := by nlinarith [mul_self_nonneg b, mul_self_nonneg a]
  apply hdet
  unfold paint_det
  simp only [hd, hb]
  ring

theorem level_mono (l1 l2 : ℝ) (h : l1 ≤ l2) :
    (if l1 ≤ 0 then (0 : Int) else ⌊0.5 + l1⌋) ≤ (if l2 ≤ 0 then (0 : Int) else ⌊0.5 + l2⌋) := by
  by_cases h1 : l1 ≤ 0
  · rw [if_pos h1]
    split
    · exact le_rfl
    · rename_i h2
      push_neg at h2
      exact Int.floor_nonneg.mpr (by linarith)
  · have h2 : ¬ l2 ≤ 0 := by push_neg at h1 ⊢; linarith
    rw [if_neg h1, if_neg h2]
    exact Int.floor_le_floor (by linarith)

theorem level_of_scaled_mono (a b c d wc s1 s2 : ℝ) (hwc : wc ≠ 0)
    (hs1 : 0 < s1) (hs : s1 ≤ s2) :
    level_of_jacobian ⟨s2 * a, s2 * b, s2 * c, s2 * d, wc⟩ ≤
      level_of_jacobian ⟨s1 * a, s1 * b, s1 * c, s1 * d, wc⟩ := by
  have hs2 : 0 < s2 := lt_of_lt_of_le hs1 hs
  unfold level_of_jacobian
  simp only [mul_self_eq_zero]
  rw [paint_det_scaled, paint_det_scaled]
  by_cases hdet : paint_det ⟨a, b, c, d, wc⟩ = 0
  · rw [hdet, mul_zero, mul_zero, if_pos rfl, if_pos rfl]
  · rw [if_neg (mul_ne_zero (pow_ne_zero _ (ne_of_gt hs1)) hdet),
      if_neg (mul_ne_zero (pow_ne_zero _ (ne_of_gt hs2)) hdet)]
    apply level_mono
    rw [paint_lambda_scaled _ _ _ _ _ s1 hs1 hdet, paint_lambda_scaled _ _ _ _ _ s2 hs2 hdet]
    have hlog2 : 0 < Real.log 2 := Real.log_pos (by norm_num)
    have hM : 0 ≤ 0.5 * M_LOG2E := by
      unfold M_LOG2E
      positivity
    have hsq : s1 ^ 2 ≤ s2 ^ 2 := pow_le_pow_left₀ (le_of_lt hs1) hs 2
    have hA : 0 < max (d * d + c * c) (b * b + a * a) * wc * wc /
        (paint_det ⟨a, b, c, d, wc⟩ * paint_det ⟨a, b, c, d, wc⟩) := by
      apply div_pos _ (mul_self_pos.mpr hdet)
      rw [mul_assoc]
      exact mul_pos (rho_sq_pos _ _ _ _ _ hdet) (mul_self_pos.mpr hwc)
    have hlog := Real.log_le_log (div_pos hA (pow_pos hs2 2))
      (div_le_div_of_nonneg_left (le_of_lt hA) (pow_pos hs1 2) hsq)
    have := mul_le_mul_of_nonneg_left hlog hM
    linarith

/-- Claim C5. For a fixed base size, viewport and projection, when the product of
model-view and projection has no perspective terms (`xw = yw = 0`, `ww ≠ 0`), scaling
the model-view uniformly by `0 < s1 ≤ s2` gives levels with
`get_paint_level` at `s2` at most `get_paint_level` at `s1`: painting smaller never
decreases the level (over the reals). -/
theorem paint_level_antitone_in_scale (pc : ClutterPaintContext) (width height : Int) (s1 s2 : ℝ)
    (hxw : graphene_matrix_multiply pc.modelview pc.projection 0 3 = 0)
    (hyw : graphene_matrix_multiply pc.modelview pc.projection 1 3 = 0)
    (hww : graphene_matrix_multiply pc.modelview pc.projection 3 3 ≠ 0)
    (hs1 : 0 < s1) (hs : s1 ≤ s2) :
    get_paint_level (scale_modelview pc s2) width height ≤
      get_paint_level (scale_modelview pc s1) width height := by
  unfold get_paint_level
  rw [paint_jacobian_scaled pc s1 width height hxw hyw,
    paint_jacobian_scaled pc s2 width height hxw hyw]
  exact level_of_scaled_mono _ _ _ _ _ s1 s2 hww hs1 hs

/-- Claim C5 at identity matrices, a 4 × 4 base and the scales 1 and 2. -/
theorem paint_level_antitone_in_scale_witness :
    get_paint_level (scale_modelview unit_paint_context 2) 4 4 ≤
      get_paint_level (scale_modelview unit_paint_context 1) 4 4 :=
  paint_level_antitone_in_scale unit_paint_context 4 4 1 2
    (by simp [unit_paint_context, graphene_matrix_multiply, graphene_matrix_init_scale])
    (by simp [unit_paint_context, graphene_matrix_multiply, graphene_matrix_init_scale])
    (by simp [unit_paint_context, graphene_matrix_multiply, graphene_matrix_init_scale])
    (by norm_num) (by norm_num)

theorem guint16_le (n : Nat) : guint16 (n : Int) ≤ n := by
  unfold guint16
  omega

theorem candidate_far_le (w h : Nat) (b : Box) (i : Nat) :
    (candidate w h b (i + 1)).x2 ≤ level_size w (i + 1) ∧
      (candidate w h b (i + 1)).y2 ≤ level_size h (i + 1) := by
  rw [candidate]
  exact ⟨min_le_left _ _, min_le_left _ _⟩

theorem merge_box_far_le (cur cand : Box) (mx my : Nat)
    (h1 : cur.x2 ≤ mx ∧ cur.y2 ≤ my) (h2 : cand.x2 ≤ mx ∧ cand.y2 ≤ my) :
    (merge_box cur cand).x2 ≤ mx ∧ (merge_box cur cand).y2 ≤ my := by
  unfold merge_box
  split
  · exact h2
  · exact ⟨max_le h1.1 h2.1, max_le h1.2 h2.2⟩

theorem update_area_inv (t : MetaTextureTower) (x y w h : Int) (hinv : TowerInv t) :
    TowerInv (meta_texture_tower_update_area t x y w h) := by
  refine ⟨?_, ?_, ?_, ?_, ?_, ?_, ?_, ?_, by simpa using hinv.levels_eq⟩
  · simpa using hinv.levels_zero
  · simpa using hinv.levels_le
  · simpa using hinv.above
  · simpa using hinv.fbo_zero
  · simpa using hinv.fbo_bound
  · simpa using hinv.base_pos
  · simpa using hinv.sizes
  · intro base hbase i hi htex
    rw [update_area_textures] at hbase htex
    rw [update_area_invalid t base hbase]
    split
    · obtain ⟨k, rfl⟩ : ∃ k, i = k + 1 := ⟨i - 1, by omega⟩
      exact merge_box_far_le _ _ _ _ (hinv.dirty_le base hbase _ hi htex)
        (candidate_far_le _ _ _ k)
    · exact hinv.dirty_le base hbase i hi htex

theorem clear_levels_loop_textures (count : Nat) :
    ∀ (i : Nat) (t : MetaTextureTower) (c : Cogl) (j : Nat),
      (clear_levels_loop count i t c).1.textures j =
        if i ≤ j ∧ j < i + count then none else t.textures j := by
  induction count with
  | zero =>
    intro i t c j
    have h : ¬ (i ≤ j ∧ j < i + 0) := by omega
    rw [clear_levels_loop, if_neg h]
  | succ n ih =>
    intro i t c j
    rw [clear_levels_loop, ih]
    by_cases hj : j = i
    · subst hj
      simp
    · by_cases h1 : i + 1 ≤ j ∧ j < i + 1 + n
      · rw [if_pos h1, if_pos (by omega)]
      · rw [if_neg h1, if_neg (by omega)]
        exact Function.update_noteq hj _ _

theorem clear_levels_loop_fbos (count : Nat) :
    ∀ (i : Nat) (t : MetaTextureTower) (c : Cogl) (j : Nat),
      (clear_levels_loop count i t c).1.fbos j =
        if i ≤ j ∧ j < i + count then none else t.fbos j := by
  induction count with
  | zero =>
    intro i t c j
    have h : ¬ (i ≤ j ∧ j < i + 0) := by omega
    rw [clear_levels_loop, if_neg h]
  | succ n ih =>
    intro i t c j
    rw [clear_levels_loop, ih]
    by_cases hj : j = i
    · subst hj
      simp
    · by_cases h1 : i + 1 ≤ j ∧ j < i + 1 + n
      · rw [if_pos h1, if_pos (by omega)]
      · rw [if_neg h1, if_neg (by omega)]
        exact Function.update_noteq hj _ _

theorem clear_levels_loop_draws (count : Nat) :
    ∀ (i : Nat) (t : MetaTextureTower) (c : Cogl),
      (clear_levels_loop count i t c).2.draws = c.draws ∧
      (clear_levels_loop count i t c).2.next_ptr = c.next_ptr ∧
      (clear_levels_loop count i t c).2.refs = c.refs := by
  induction count with
  | zero => intro i t c; exact ⟨rfl, rfl, rfl⟩
  | succ n ih =>
    intro i t c
    rw [clear_levels_loop]
    cases t.fbos i <;> cases t.textures i <;> exact ih _ _ _

theorem clear_levels_loop_unrefs (count : Nat) :
    ∀ (i : Nat) (t : MetaTextureTower) (c : Cogl),
      ∃ derived, (clear_levels_loop count i t c).2.unrefs = c.unrefs ++ derived ∧
        ∀ d ∈ derived, ∃ j, i ≤ j ∧ j < i + count ∧ t.textures j = some d := by
  induction count with
  | zero =>
    intro i t c
    exact ⟨[], by rw [clear_levels_loop, List.append_nil], by simp⟩
  | succ n ih =>
    intro i t c
    rw [clear_levels_loop]
    have hkeep : ∀ (d : CoglTexture) (j : Nat), i + 1 ≤ j →
        Function.update t.textures i none j = some d → t.textures j = some d := by
      intro d j hj h
      rwa [Function.update_noteq (by omega)] at h
    cases hf : t.fbos i <;> cases ht : t.textures i
    · obtain ⟨ds, h1, h2⟩ := ih (i + 1)
        { t with
          textures := Function.update t.textures i none
          fbos := Function.update t.fbos i none } c
      refine ⟨ds, h1, ?_⟩
      intro d hd
      obtain ⟨j, hj1, hj2, hj3⟩ := h2 d hd
      exact ⟨j, by omega, by omega, hkeep d j hj1 hj3⟩
    · rename_i tex
      obtain ⟨ds, h1, h2⟩ := ih (i + 1)
        { t with
          textures := Function.update t.textures i none
          fbos := Function.update t.fbos i none } { c with unrefs := c.unrefs ++ [tex] }
      refine ⟨tex :: ds, by rw [h1]; simp, ?_⟩
      intro d hd
      rcases List.mem_cons.mp hd with e | hd
      · exact ⟨i, le_rfl, by omega, by rw [ht, e]⟩
      · obtain ⟨j, hj1, hj2, hj3⟩ := h2 d hd
        exact ⟨j, by omega, by omega, hkeep d j hj1 hj3⟩
    · rename_i f
      obtain ⟨ds, h1, h2⟩ := ih (i + 1)
        { t with
          textures := Function.update t.textures i none
          fbos := Function.update t.fbos i none } { c with fbo_unrefs := c.fbo_unrefs ++ [f] }
      refine ⟨ds, h1, ?_⟩
      intro d hd
      obtain ⟨j, hj1, hj2, hj3⟩ := h2 d hd
      exact ⟨j, by omega, by omega, hkeep d j hj1 hj3⟩
    · rename_i f tex
      obtain ⟨ds, h1, h2⟩ := ih (i + 1)
        { t with
          textures := Function.update t.textures i none
          fbos := Function.update t.fbos i none }
        { c with unrefs := c.unrefs ++ [tex], fbo_unrefs := c.fbo_unrefs ++ [f] }
      refine ⟨tex :: ds, by rw [h1]; simp, ?_⟩
      intro d hd
      rcases List.mem_cons.mp hd with e | hd
      · exact ⟨i, le_rfl, by omega, by rw [ht, e]⟩
      · obtain ⟨j, hj1, hj2, hj3⟩ := h2 d hd
        exact ⟨j, by omega, by omega, hkeep d j hj1 hj3⟩


theorem set_base_texture_none (t : MetaTextureTower) (c : Cogl) (old : CoglTexture)
    (h0 : t.textures 0 = some old) :
    meta_texture_tower_set_base_texture t c none =
      ({ (clear_levels_loop (t.n_levels - 1) 1 t c).1 with
          textures := Function.update (clear_levels_loop (t.n_levels - 1) 1 t c).1.textures 0 none
          n_levels := 0 },
        { (clear_levels_loop (t.n_levels - 1) 1 t c).2 with
          unrefs := (clear_levels_loop (t.n_levels - 1) 1 t c).2.unrefs ++ [old] }) := by
  unfold meta_texture_tower_set_base_texture
  rw [h0, if_neg (by simp)]

theorem set_base_texture_some_of_none (t : MetaTextureTower) (c : Cogl) (b : CoglTexture)
    (h0 : t.textures 0 = none) :
    meta_texture_tower_set_base_texture t c (some b) =
      (meta_texture_tower_update_area
          { t with
            textures := Function.update t.textures 0 (some b)
            n_levels := min (1 + max (int_log2 b.width) (int_log2 b.height)) MAX_TEXTURE_LEVELS }
          0 0 b.width b.height,
        { c with refs := c.refs ++ [b] }) := by
  unfold meta_texture_tower_set_base_texture
  rw [h0, if_neg (by simp)]

theorem set_base_texture_some_of_some (t : MetaTextureTower) (c : Cogl) (b old : CoglTexture)
    (h0 : t.textures 0 = some old) (hdiff : b.ptr ≠ old.ptr) :
    meta_texture_tower_set_base_texture t c (some b) =
      (meta_texture_tower_update_area
          { (clear_levels_loop (t.n_levels - 1) 1 t c).1 with
            textures :=
              Function.update (clear_levels_loop (t.n_levels - 1) 1 t c).1.textures 0 (some b)
            n_levels := min (1 + max (int_log2 b.width) (int_log2 b.height)) MAX_TEXTURE_LEVELS }
          0 0 b.width b.height,
        { (clear_levels_loop (t.n_levels - 1) 1 t c).2 with
          unrefs := (clear_levels_loop (t.n_levels - 1) 1 t c).2.unrefs ++ [old]
          refs := (clear_levels_loop (t.n_levels - 1) 1 t c).2.refs ++ [b] }) := by
  unfold meta_texture_tower_set_base_texture
  rw [h0, if_neg (by simpa using hdiff)]

theorem set_base_texture_textures (t : MetaTextureTower) (c : Cogl)
    (texture : Option CoglTexture)
    (hdiff : texture.map CoglTexture.ptr ≠ (t.textures 0).map CoglTexture.ptr) (j : Nat) :
    (meta_texture_tower_set_base_texture t c texture).1.textures j =
        (if j = 0 then texture
          else if t.textures 0 ≠ none ∧ j < t.n_levels then none else t.textures j) ∧
      (meta_texture_tower_set_base_texture t c texture).1.fbos j =
        (if t.textures 0 ≠ none ∧ 1 ≤ j ∧ j < t.n_levels then none else t.fbos j) := by
  have hrange : (1 ≤ j ∧ j < 1 + (t.n_levels - 1)) ↔ (1 ≤ j ∧ j < t.n_levels) := by omega
  cases h0 : t.textures 0 with
  | none =>
    cases texture with
    | none => rw [h0] at hdiff; exact absurd rfl hdiff
    | some b =>
      rw [set_base_texture_some_of_none t c b h0, update_area_textures, update_area_fbos]
      by_cases hj : j = 0
      · subst hj; simp
      · simp [hj, Function.update_noteq hj]
  | some old =>
    cases texture with
    | none =>
      rw [set_base_texture_none t c old h0]
      simp only [clear_levels_loop_textures, clear_levels_loop_fbos, Function.update_apply,
        hrange]
      by_cases hj : j = 0
      · subst hj; simp
      · have : 1 ≤ j := by omega
        simp [hj, this]
    | some b =>
      have hd : b.ptr ≠ old.ptr := by
        intro e; apply hdiff; rw [h0]; simp [e]
      rw [set_base_texture_some_of_some t c b old h0 hd, update_area_textures,
        update_area_fbos]
      simp only [clear_levels_loop_textures, clear_levels_loop_fbos, Function.update_apply,
        hrange]
      by_cases hj : j = 0
      · subst hj; simp
      · have : 1 ≤ j := by omega
        simp [hj, this]

theorem set_base_texture_n_levels (t : MetaTextureTower) (c : Cogl)
    (texture : Option CoglTexture)
    (hdiff : texture.map CoglTexture.ptr ≠ (t.textures 0).map CoglTexture.ptr) :
    (texture = none → (meta_texture_tower_set_base_texture t c texture).1.n_levels = 0) ∧
      (∀ b, texture = some b →
        (meta_texture_tower_set_base_texture t c texture).1.n_levels =
          min (1 + max (int_log2 b.width) (int_log2 b.height)) 12) := by
  constructor
  · intro e
    subst e
    cases h0 : t.textures 0 with
    | none => rw [h0] at hdiff; exact absurd rfl hdiff
    | some old => rw [set_base_texture_none t c old h0]
  · intro b e
    subst e
    cases h0 : t.textures 0 with
    | none =>
      rw [set_base_texture_some_of_none t c b h0, update_area_n_levels]
      rfl
    | some old =>
      have hd : b.ptr ≠ old.ptr := by
        intro e; apply hdiff; rw [h0]; simp [e]
      rw [set_base_texture_some_of_some t c b old h0 hd, update_area_n_levels]
      rfl

theorem set_base_texture_draws (t : MetaTextureTower) (c : Cogl)
    (texture : Option CoglTexture) :
    (meta_texture_tower_set_base_texture t c texture).2.draws = c.draws := by
  by_cases hsame : texture.map CoglTexture.ptr = (t.textures 0).map CoglTexture.ptr
  · unfold meta_texture_tower_set_base_texture
    rw [if_pos hsame]
  · cases h0 : t.textures 0 with
    | none =>
      cases texture with
      | none => rw [h0] at hsame; exact absurd rfl hsame
      | some b => rw [set_base_texture_some_of_none t c b h0]
    | some old =>
      cases texture with
      | none =>
        rw [set_base_texture_none t c old h0]
        exact (clear_levels_loop_draws _ _ _ _).1
      | some b =>
        have hd : b.ptr ≠ old.ptr := by
          intro e; apply hsame; rw [h0]; simp [e]
        rw [set_base_texture_some_of_some t c b old h0 hd]
        exact (clear_levels_loop_draws _ _ _ _).1


theorem set_base_texture_clears (t : MetaTextureTower) (c : Cogl)
    (texture : Option CoglTexture) (hinv : TowerInv t)
    (hdiff : texture.map CoglTexture.ptr ≠ (t.textures 0).map CoglTexture.ptr) :
    (meta_texture_tower_set_base_texture t c texture).1.textures 0 = texture ∧
      (∀ j, 1 ≤ j → (meta_texture_tower_set_base_texture t c texture).1.textures j = none) ∧
      (∀ j, (meta_texture_tower_set_base_texture t c texture).1.fbos j = none) := by
  refine ⟨?_, ?_, ?_⟩
  · rw [(set_base_texture_textures t c texture hdiff 0).1, if_pos rfl]
  · intro j hj
    rw [(set_base_texture_textures t c texture hdiff j).1, if_neg (by omega)]
    split
    · rfl
    · rename_i hc
      apply hinv.above
      by_contra hlt
      have hn : t.n_levels ≠ 0 := by omega
      exact hc ⟨fun e => hn (hinv.levels_zero.mpr e), by omega⟩
  · intro j
    rw [(set_base_texture_textures t c texture hdiff j).2]
    split
    · rfl
    · rename_i hc
      cases hf : t.fbos j with
      | none => rfl
      | some f =>
        exfalso
        have htex := hinv.fbo_bound j f hf
        have hj : 1 ≤ j := by
          by_contra h0
          have : j = 0 := by omega
          subst this
          rw [hinv.fbo_zero] at hf
          exact absurd hf (by simp)
        have hlt : j < t.n_levels := by
          by_contra hge
          rw [hinv.above j (by omega)] at htex
          exact absurd htex (by simp)
        have hn : t.n_levels ≠ 0 := by omega
        exact hc ⟨fun e => hn (hinv.levels_zero.mpr e), hj, hlt⟩

theorem set_base_texture_inv (t : MetaTextureTower) (c : Cogl)
    (texture : Option CoglTexture) (hinv : TowerInv t)
    (hpos : ∀ b, texture = some b → 1 ≤ b.width ∧ 1 ≤ b.height) :
    TowerInv (meta_texture_tower_set_base_texture t c texture).1 := by
  by_cases hsame : texture.map CoglTexture.ptr = (t.textures 0).map CoglTexture.ptr
  · unfold meta_texture_tower_set_base_texture
    rw [if_pos hsame]
    exact hinv
  · obtain ⟨h0, h1, h2⟩ := set_base_texture_clears t c texture hinv hsame
    obtain ⟨n0, n1⟩ := set_base_texture_n_levels t c texture hsame
    refine ⟨?_, ?_, ?_, h2 0, ?_, ?_, ?_, ?_, ?_⟩
    · rw [h0]
      cases texture with
      | none => simp [n0 rfl]
      | some b =>
        rw [n1 b rfl]
        simp only [reduceCtorEq, iff_false]
        omega
    · cases texture with
      | none => rw [n0 rfl]; omega
      | some b => rw [n1 b rfl]; exact min_le_right _ _
    · intro i hi
      by_cases hi0 : i = 0
      · subst hi0
        rw [h0]
        cases texture with
        | none => rfl
        | some b =>
          rw [n1 b rfl] at hi
          omega
      · exact h1 i (by omega)
    · intro i f hf
      rw [h2 i] at hf
      exact absurd hf (by simp)
    · intro base hbase
      rw [h0] at hbase
      exact hpos base hbase
    · intro base _ i tex hi htex
      rw [h1 i hi] at htex
      exact absurd htex (by simp)
    · intro base _ i hi htex
      exact absurd (h1 i hi) htex
    · intro base hbase
      rw [h0] at hbase
      exact n1 base hbase

theorem create_texture_textures_ne (t : MetaTextureTower) (c : Cogl) (level w h j : Nat)
    (hj : j ≠ level) :
    (texture_tower_create_texture t c level w h).1.textures j = t.textures j :=
  Function.update_noteq hj _ _

theorem create_texture_invalid_ne (t : MetaTextureTower) (c : Cogl) (level w h j : Nat)
    (hj : j ≠ level) :
    (texture_tower_create_texture t c level w h).1.invalid j = t.invalid j :=
  Function.update_noteq hj _ _

theorem create_texture_textures_same (t : MetaTextureTower) (c : Cogl) (level w h : Nat) :
    (texture_tower_create_texture t c level w h).1.textures level =
      some ⟨c.next_ptr, w, h⟩ :=
  Function.update_same _ _ _

theorem create_texture_invalid_same (t : MetaTextureTower) (c : Cogl) (level w h : Nat) :
    (texture_tower_create_texture t c level w h).1.invalid level =
      ⟨0, 0, guint16 w, guint16 h⟩ :=
  Function.update_same _ _ _

theorem create_texture_inv (t : MetaTextureTower) (c : Cogl) (base : CoglTexture) (k : Nat)
    (hinv : TowerInv t) (hbase : t.textures 0 = some base) (hk : k + 1 < t.n_levels)
    (hnone : t.textures (k + 1) = none) :
    TowerInv (texture_tower_create_texture t c (k + 1) (level_size base.width (k + 1))
      (level_size base.height (k + 1))).1 := by
  have hne : ∀ j, j ≠ k + 1 →
      (texture_tower_create_texture t c (k + 1) (level_size base.width (k + 1))
        (level_size base.height (k + 1))).1.textures j = t.textures j := by
    intro j hj
    exact Function.update_noteq hj _ _
  have hnei : ∀ j, j ≠ k + 1 →
      (texture_tower_create_texture t c (k + 1) (level_size base.width (k + 1))
        (level_size base.height (k + 1))).1.invalid j = t.invalid j := by
    intro j hj
    exact Function.update_noteq hj _ _
  have hb : (texture_tower_create_texture t c (k + 1) (level_size base.width (k + 1))
      (level_size base.height (k + 1))).1.textures 0 = some base := by
    rw [hne 0 (by omega), hbase]
  refine ⟨?_, hinv.levels_le, ?_, hinv.fbo_zero, ?_, ?_, ?_, ?_, ?_⟩
  · rw [hb, ← hbase]
    exact hinv.levels_zero
  · intro i hi
    have hn : (texture_tower_create_texture t c (k + 1) (level_size base.width (k + 1))
        (level_size base.height (k + 1))).1.n_levels = t.n_levels := rfl
    rw [hn] at hi
    rw [hne i (by omega)]
    exact hinv.above i hi
  · intro i f hf
    have hf' : t.fbos i = some f := hf
    have htex := hinv.fbo_bound i f hf'
    have hi : i ≠ k + 1 := by
      rintro rfl
      rw [hnone] at htex
      exact absurd htex (by simp)
    rw [hne i hi]
    exact htex
  · intro b hb'
    rw [hb] at hb'
    rw [← Option.some.inj hb']
    exact hinv.base_pos base hbase
  · intro b hb' i tex hi htex
    rw [hb] at hb'
    have e := Option.some.inj hb'
    subst e
    by_cases hik : i = k + 1
    · subst hik
      have e2 : (texture_tower_create_texture t c (k + 1) (level_size base.width (k + 1))
          (level_size base.height (k + 1))).1.textures (k + 1) =
          some ⟨c.next_ptr, level_size base.width (k + 1), level_size base.height (k + 1)⟩ :=
        Function.update_same _ _ _
      rw [e2] at htex
      rw [← Option.some.inj htex]
      exact ⟨rfl, rfl⟩
    · rw [hne i hik] at htex
      exact hinv.sizes base hbase i tex hi htex
  · intro b hb' i hi htex
    rw [hb] at hb'
    have e := Option.some.inj hb'
    subst e
    by_cases hik : i = k + 1
    · subst hik
      have e2 : (texture_tower_create_texture t c (k + 1) (level_size base.width (k + 1))
          (level_size base.height (k + 1))).1.invalid (k + 1) =
          ⟨0, 0, guint16 (level_size base.width (k + 1)),
            guint16 (level_size base.height (k + 1))⟩ :=
        Function.update_same _ _ _
      rw [e2]
      exact ⟨guint16_le _, guint16_le _⟩
    · rw [hne i hik] at htex
      rw [hnei i hik]
      exact hinv.dirty_le base hbase i hi htex
  · intro b hb'
    rw [hb] at hb'
    rw [← Option.some.inj hb']
    exact hinv.levels_eq base hbase

theorem create_loop_inv (count : Nat) :
    ∀ (k : Nat) (t : MetaTextureTower) (c : Cogl) (base : CoglTexture),
      TowerInv t → t.textures 0 = some base → k + count < t.n_levels →
      TowerInv (create_loop count (k + 1) (level_size base.width k)
        (level_size base.height k) t c).1 := by
  induction count with
  | zero => intro k t c base hinv _ _; exact hinv
  | succ n ih =>
    intro k t c base hinv hbase hk
    cases hnone : t.textures (k + 1) with
    | none =>
      have key := ih (k + 1)
        (texture_tower_create_texture t c (k + 1) (level_size base.width (k + 1))
          (level_size base.height (k + 1))).1
        (texture_tower_create_texture t c (k + 1) (level_size base.width (k + 1))
          (level_size base.height (k + 1))).2 base
        (create_texture_inv t c base k hinv hbase (by omega) hnone)
        ((create_texture_textures_ne t c (k + 1) _ _ 0 (by omega)).trans hbase)
        (show k + 1 + n < t.n_levels by omega)
      rw [create_loop, hnone]
      exact key
    | some d =>
      have key := ih (k + 1) t c base hinv hbase (by omega)
      rw [create_loop, hnone]
      exact key

theorem revalidate_inv (alloc : Nat → Bool) (t : MetaTextureTower) (c : Cogl) (i : Nat)
    (hi : 1 ≤ i) (hinv : TowerInv t) :
    TowerInv (texture_tower_revalidate alloc t c i).1 := by
  cases e1 : t.textures (i - 1) with
  | none => rw [revalidate_none _ _ _ _ (Or.inl e1)]; exact hinv
  | some s =>
    cases e2 : t.textures i with
    | none => rw [revalidate_none _ _ _ _ (Or.inr e2)]; exact hinv
    | some d =>
      have hfb : ∀ j f, Function.update t.fbos i (some ((t.fbos i).getD ⟨d⟩)) j = some f →
          t.textures j = some f.texture := by
        intro j f hf
        by_cases hji : j = i
        · subst hji
          rw [Function.update_same] at hf
          cases hfo : t.fbos j with
          | none =>
            rw [hfo] at hf
            rw [← Option.some.inj hf, e2]
            rfl
          | some f' =>
            rw [hfo] at hf
            have : f' = f := Option.some.inj hf
            subst this
            exact hinv.fbo_bound j f' hfo
        · rw [Function.update_noteq hji] at hf
          exact hinv.fbo_bound j f hf
      have hf0 : Function.update t.fbos i (some ((t.fbos i).getD ⟨d⟩)) 0 = none := by
        rw [Function.update_noteq (by omega)]
        exact hinv.fbo_zero
      rw [revalidate_some _ _ _ _ s d e1 e2]
      split
      · exact ⟨hinv.levels_zero, hinv.levels_le, hinv.above, hf0, hfb, hinv.base_pos,
          hinv.sizes, hinv.dirty_le, hinv.levels_eq⟩
      · refine ⟨hinv.levels_zero, hinv.levels_le, hinv.above, hf0, hfb, hinv.base_pos,
          hinv.sizes, ?_, hinv.levels_eq⟩
        intro base hbase j hj htex
        by_cases hji : j = i
        · subst hji
          show (Function.update t.invalid j ⟨0, 0, 0, 0⟩ j).x2 ≤ _ ∧
            (Function.update t.invalid j ⟨0, 0, 0, 0⟩ j).y2 ≤ _
          rw [Function.update_same]
          exact ⟨Nat.zero_le _, Nat.zero_le _⟩
        · show (Function.update t.invalid i ⟨0, 0, 0, 0⟩ j).x2 ≤ _ ∧
            (Function.update t.invalid i ⟨0, 0, 0, 0⟩ j).y2 ≤ _
          rw [Function.update_noteq hji]
          exact hinv.dirty_le base hbase j hj htex

theorem revalidate_loop_induct (P : MetaTextureTower → Prop) (alloc : Nat → Bool)
    (level : Nat)
    (hstep : ∀ t c i, 1 ≤ i → P t → P (texture_tower_revalidate alloc t c i).1)
    (count : Nat) :
    ∀ (i : Nat) (t : MetaTextureTower) (c : Cogl), 1 ≤ i → P t →
      P (revalidate_loop alloc level count i t c).1 := by
  induction count with
  | zero => intro i t c _ h; exact h
  | succ n ih =>
    intro i t c hi h
    rw [revalidate_loop]
    apply ih (i + 1) _ _ (by omega)
    split
    · exact hstep t c i hi h
    · exact h

theorem create_loop_induct (P : MetaTextureTower → Prop)
    (hstep : ∀ t c i w h, 1 ≤ i → t.textures i = none → P t →
      P (texture_tower_create_texture t c i w h).1)
    (count : Nat) :
    ∀ (i tw th : Nat) (t : MetaTextureTower) (c : Cogl), 1 ≤ i → P t →
      P (create_loop count i tw th t c).1 := by
  induction count with
  | zero => intro i tw th t c _ h; exact h
  | succ n ih =>
    intro i tw th t c hi h
    rw [create_loop]
    apply ih (i + 1) _ _ _ _ (by omega)
    cases hnone : t.textures i with
    | none => exact hstep t c i _ _ hi hnone h
    | some d => exact h

theorem paint_texture_at_level_inv (alloc : Nat → Bool) (level : Nat)
    (t : MetaTextureTower) (c : Cogl) (base : CoglTexture) (hinv : TowerInv t)
    (hbase : t.textures 0 = some base) (hl : level < t.n_levels) :
    TowerInv (paint_texture_at_level alloc level base.width base.height t c).2.1 := by
  unfold paint_texture_at_level
  split
  · apply revalidate_loop_induct TowerInv alloc level
      (fun t c i hi h => revalidate_inv alloc t c i hi h) level 1 _ _ le_rfl
    exact create_loop_inv level 0 t c base hinv hbase (by omega)
  · exact hinv

theorem clamp_lt (e : Int) (n : Nat) (hn : 1 ≤ n) : (min e ((n : Int) - 1)).toNat < n := by
  omega

theorem get_paint_texture_inv (paint_level : Int → Int → Int) (alloc : Nat → Bool)
    (t : MetaTextureTower) (c : Cogl) (hinv : TowerInv t) :
    TowerInv (meta_texture_tower_get_paint_texture paint_level alloc t c).2.1 := by
  cases hb : t.textures 0 with
  | none =>
    unfold meta_texture_tower_get_paint_texture
    rw [hb]
    exact hinv
  | some base =>
    by_cases hl : paint_level base.width base.height < 0
    · unfold meta_texture_tower_get_paint_texture
      simp only [hb, if_pos hl]
      exact hinv
    · rw [get_paint_texture_base _ _ t c base hb hl]
      apply paint_texture_at_level_inv alloc _ t c base hinv hb
      apply clamp_lt
      have : t.n_levels ≠ 0 := fun e => by
        have := hinv.levels_zero.mp e
        rw [hb] at this
        exact absurd this (by simp)
      omega

theorem new_tower_inv : TowerInv meta_texture_tower_new := by
  refine ⟨?_, ?_, ?_, rfl, ?_, ?_, ?_, ?_, ?_⟩ <;> simp [meta_texture_tower_new]

theorem reachable_inv (t : MetaTextureTower) (c : Cogl) (h : Reachable t c) : TowerInv t := by
  induction h with
  | new c => exact new_tower_inv
  | set_base_texture t c texture _ hpos ih => exact set_base_texture_inv t c texture ih hpos
  | update_area t c x y w h _ ih => exact update_area_inv t x y w h ih
  | get_paint_texture pl alloc t c _ ih => exact get_paint_texture_inv pl alloc t c ih

theorem reachable_of_within (bound : Nat) (t : MetaTextureTower) (c : Cogl)
    (h : ReachableWithin bound t c) : Reachable t c := by
  induction h with
  | new c => exact Reachable.new c
  | set_base_texture t c texture _ hpos ih =>
    exact Reachable.set_base_texture t c texture ih
      (fun b hb => ⟨(hpos b hb).1, (hpos b hb).2.2.1⟩)
  | update_area t c r _ _ ih => exact Reachable.update_area t c _ _ _ _ ih
  | get_paint_texture pl alloc t c _ ih => exact Reachable.get_paint_texture pl alloc t c ih

theorem level_size_le (w : Nat) (hw : 1 ≤ w) (i : Nat) : level_size w i ≤ w := by
  induction i with
  | zero => exact le_rfl
  | succ n ih =>
    rw [level_size]
    omega

theorem level_size_succ_le_half (w : Nat) (hw : 1 ≤ w) (i : Nat) :
    level_size w (i + 1) ≤ max 1 (w / 2) := by
  have := level_size_le w hw i
  rw [level_size]
  omega

theorem set_base_texture_unrefs (t : MetaTextureTower) (c : Cogl)
    (texture : Option CoglTexture) (old : CoglTexture) (h0 : t.textures 0 = some old)
    (hdiff : texture.map CoglTexture.ptr ≠ (t.textures 0).map CoglTexture.ptr) :
    ∃ derived, (meta_texture_tower_set_base_texture t c texture).2.unrefs =
        c.unrefs ++ derived ++ [old] ∧
      ∀ d ∈ derived, ∃ j, 1 ≤ j ∧ j < t.n_levels ∧ t.textures j = some d := by
  obtain ⟨ds, h1, h2⟩ := clear_levels_loop_unrefs (t.n_levels - 1) 1 t c
  refine ⟨ds, ?_, ?_⟩
  · cases texture with
    | none => rw [set_base_texture_none t c old h0]; simp only []; rw [h1]
    | some b =>
      have hd : b.ptr ≠ old.ptr := by
        intro e; apply hdiff; rw [h0]; simp [e]
      rw [set_base_texture_some_of_some t c b old h0 hd]; simp only []; rw [h1]
  · intro d hd
    obtain ⟨j, hj1, hj2, hj3⟩ := h2 d hd
    exact ⟨j, hj1, by omega, hj3⟩

theorem base_not_derived (t : MetaTextureTower) (hinv : TowerInv t) (old : CoglTexture)
    (h0 : t.textures 0 = some old) (j : Nat) (hj1 : 1 ≤ j) (hj2 : j < t.n_levels) :
    t.textures j ≠ some old := by
  intro hj
  obtain ⟨hw, hh⟩ := hinv.base_pos old h0
  obtain ⟨sw, sh⟩ := hinv.sizes old h0 j old hj1 hj
  obtain ⟨k, rfl⟩ : ∃ k, j = k + 1 := ⟨j - 1, by omega⟩
  have bw := level_size_succ_le_half old.width hw k
  have bh := level_size_succ_le_half old.height hh k
  have ew : old.width = 1 := by omega
  have eh : old.height = 1 := by omega
  have hn := hinv.levels_eq old h0
  rw [ew, eh, int_log2_one] at hn
  simp at hn
  omega

/-- Claim C11. In every reachable tower state, `meta_texture_tower_set_base_texture`
with a texture at another address than the installed one (or with `NULL` when one is
installed) leaves every level `i ≥ 1` without texture and without framebuffer, stores
the new texture at level 0, and sets `n_levels` to 0 for `NULL` and otherwise to the
recomputed level count, `min (12, 1 + max (int_log2 (W), int_log2 (H)))`. It records
no draw, and it appends to the unref log the textures of derived levels followed by the
previous base texture, which is not among them: the previous base is unreferenced, and
nothing is drawn into it. -/
theorem set_base_texture_discards_levels (t : MetaTextureTower) (c : Cogl) (texture : Option CoglTexture)
    (hr : Reachable t c)
    (hdiff : texture.map CoglTexture.ptr ≠ (t.textures 0).map CoglTexture.ptr) :
    (∀ i, 1 ≤ i →
        (meta_texture_tower_set_base_texture t c texture).1.textures i = none ∧
        (meta_texture_tower_set_base_texture t c texture).1.fbos i = none) ∧
      (meta_texture_tower_set_base_texture t c texture).1.textures 0 = texture ∧
      (texture = none → (meta_texture_tower_set_base_texture t c texture).1.n_levels = 0) ∧
      (∀ b, texture = some b →
        (meta_texture_tower_set_base_texture t c texture).1.n_levels =
          min 12 (1 + max (int_log2 b.width) (int_log2 b.height))) ∧
      (meta_texture_tower_set_base_texture t c texture).2.draws = c.draws ∧
      (∀ old, t.textures 0 = some old →
        ∃ derived, (meta_texture_tower_set_base_texture t c texture).2.unrefs =
            c.unrefs ++ derived ++ [old] ∧
          old ∉ derived ∧
          ∀ d ∈ derived, ∃ j, 1 ≤ j ∧ j < t.n_levels ∧ t.textures j = some d) := by
  have hinv := reachable_inv t c hr
  obtain ⟨h0, h1, h2⟩ := set_base_texture_clears t c texture hinv hdiff
  obtain ⟨n0, n1⟩ := set_base_texture_n_levels t c texture hdiff
  refine ⟨fun i hi => ⟨h1 i hi, h2 i⟩, h0, n0, ?_, set_base_texture_draws t c texture, ?_⟩
  · intro b hb
    rw [n1 b hb, min_comm]
  · intro old hold
    obtain ⟨ds, e, hds⟩ := set_base_texture_unrefs t c texture old hold hdiff
    refine ⟨ds, e, ?_, hds⟩
    intro hmem
    obtain ⟨j, hj1, hj2, hj3⟩ := hds old hmem
    exact base_not_derived t hinv old hold j hj1 hj2 hj3

/-- Claim C12. In every state reachable from `meta_texture_tower_new` by
`meta_texture_tower_set_base_texture` (with textures of size at least 1 × 1),
`meta_texture_tower_update_area` and `meta_texture_tower_get_paint_texture`, the
level count `n_levels` is 0 exactly when no base texture is set, and
`1 ≤ n_levels ≤ 12` when one is set. -/
theorem level_count_zero_iff_no_base (t : MetaTextureTower) (c : Cogl) (hr : Reachable t c) :
    (t.n_levels = 0 ↔ t.textures 0 = none) ∧
      (t.textures 0 ≠ none → 1 ≤ t.n_levels ∧ t.n_levels ≤ 12) := by
  have hinv := reachable_inv t c hr
  refine ⟨hinv.levels_zero, fun hb => ⟨?_, hinv.levels_le⟩⟩
  have : t.n_levels ≠ 0 := fun e => hb (hinv.levels_zero.mp e)
  omega

/-- Claim C16. For a tower with a base texture `W × H`, `W, H ≤ 65535`, and a
rectangle with `0 ≤ x`, `0 ≤ y`, `x + w ≤ W`, `y + h ≤ H`,
`meta_texture_tower_update_area` sets the dirty rectangle of every level `i`,
`1 ≤ i < n_levels`, to the candidate `c_i` when the old rectangle is empty and to the
bounding box of the old rectangle and `c_i` otherwise, where `c_0 = {x, y, x + w, y + h}`
and `c_(i+1)` halves `c_i` (`x1 / 2`, `y1 / 2`, `min (w_(i+1), (x2 + 1) / 2)`,
`min (h_(i+1), (y2 + 1) / 2)`); textures, framebuffers, the level count, the pipeline
template and the rectangles of level 0 and of levels from `n_levels` on are unchanged. -/
theorem update_area_per_level (t : MetaTextureTower) (base : CoglTexture) (x y w h : Nat)
    (hbase : t.textures 0 = some base)
    (hW : base.width ≤ 65535) (hH : base.height ≤ 65535)
    (hx : x + w ≤ base.width) (hy : y + h ≤ base.height) :
    (∀ i, 1 ≤ i → i < t.n_levels →
      ((t.invalid i).is_empty →
        (meta_texture_tower_update_area t x y w h).invalid i =
          candidate base.width base.height ⟨x, y, x + w, y + h⟩ i) ∧
      (¬ (t.invalid i).is_empty →
        (meta_texture_tower_update_area t x y w h).invalid i =
          ⟨min (t.invalid i).x1 (candidate base.width base.height ⟨x, y, x + w, y + h⟩ i).x1,
            min (t.invalid i).y1 (candidate base.width base.height ⟨x, y, x + w, y + h⟩ i).y1,
            max (t.invalid i).x2 (candidate base.width base.height ⟨x, y, x + w, y + h⟩ i).x2,
            max (t.invalid i).y2
              (candidate base.width base.height ⟨x, y, x + w, y + h⟩ i).y2⟩)) ∧
    candidate base.width base.height ⟨x, y, x + w, y + h⟩ 0 = ⟨x, y, x + w, y + h⟩ ∧
    (∀ i, candidate base.width base.height ⟨x, y, x + w, y + h⟩ (i + 1) =
      ⟨(candidate base.width base.height ⟨x, y, x + w, y + h⟩ i).x1 / 2,
        (candidate base.width base.height ⟨x, y, x + w, y + h⟩ i).y1 / 2,
        min (level_size base.width (i + 1))
          (((candidate base.width base.height ⟨x, y, x + w, y + h⟩ i).x2 + 1) / 2),
        min (level_size base.height (i + 1))
          (((candidate base.width base.height ⟨x, y, x + w, y + h⟩ i).y2 + 1) / 2)⟩) ∧
    (meta_texture_tower_update_area t x y w h).textures = t.textures ∧
    (meta_texture_tower_update_area t x y w h).fbos = t.fbos ∧
    (meta_texture_tower_update_area t x y w h).n_levels = t.n_levels ∧
    (meta_texture_tower_update_area t x y w h).pipeline_template = t.pipeline_template ∧
    (∀ i, i = 0 ∨ t.n_levels ≤ i →
      (meta_texture_tower_update_area t x y w h).invalid i = t.invalid i) := by
  have e0 : guint16 (x : Int) = x := guint16_of_le _ (by omega)
  have e1 : guint16 (y : Int) = y := guint16_of_le _ (by omega)
  have e2 := guint16_add_of_le x w (by omega)
  have e3 := guint16_add_of_le y h (by omega)
  refine ⟨?_, rfl, fun i => rfl, update_area_textures _ _ _ _ _, update_area_fbos _ _ _ _ _,
    update_area_n_levels _ _ _ _ _, update_area_pipeline_template _ _ _ _ _, ?_⟩
  · intro i hi1 hi2
    rw [update_area_invalid t base hbase, if_pos ⟨hi1, hi2⟩, e0, e1, e2, e3]
    unfold merge_box Box.is_empty
    constructor
    · intro he
      rw [if_pos he]
    · intro hne
      rw [if_neg hne]
  · intro i hi
    rw [update_area_invalid t base hbase, if_neg (by omega)]

/-- Claim C16 at an 8 × 8 base texture and the rectangle `(2, 2, 4, 4)`. -/
theorem update_area_per_level_witness :
    (meta_texture_tower_update_area
        (meta_texture_tower_set_base_texture meta_texture_tower_new ⟨0, [], [], [], []⟩
          (some ⟨7, 8, 8⟩)).1 2 2 4 4).textures =
      (meta_texture_tower_set_base_texture meta_texture_tower_new ⟨0, [], [], [], []⟩
          (some ⟨7, 8, 8⟩)).1.textures :=
  (update_area_per_level (meta_texture_tower_set_base_texture meta_texture_tower_new ⟨0, [], [], [], []⟩
      (some ⟨7, 8, 8⟩)).1 ⟨7, 8, 8⟩ 2 2 4 4
    (set_base_texture_installs _ _ 7 8 8 (new_tower_no_base 7)).2
    (by decide) (by decide) (by decide) (by decide)).2.2.2.1

theorem candidate_ordered (w h : Nat) (b : Box)
    (hx : b.x1 ≤ b.x2 ∧ b.x2 ≤ w) (hy : b.y1 ≤ b.y2 ∧ b.y2 ≤ h) (i : Nat) :
    ((candidate w h b i).x1 ≤ (candidate w h b i).x2 ∧
        (candidate w h b i).x2 ≤ level_size w i) ∧
      ((candidate w h b i).y1 ≤ (candidate w h b i).y2 ∧
        (candidate w h b i).y2 ≤ level_size h i) := by
  induction i with
  | zero => exact ⟨hx, hy⟩
  | succ n ih =>
    obtain ⟨⟨a1, a2⟩, ⟨b1, b2⟩⟩ := ih
    rw [candidate]
    simp only [halve_box, level_size]
    refine ⟨⟨?_, ?_⟩, ⟨?_, ?_⟩⟩ <;> omega

theorem merge_box_ordered (cur cand : Box)
    (h1 : cur.x1 ≤ cur.x2 ∧ cur.y1 ≤ cur.y2) (h2 : cand.x1 ≤ cand.x2 ∧ cand.y1 ≤ cand.y2) :
    (merge_box cur cand).x1 ≤ (merge_box cur cand).x2 ∧
      (merge_box cur cand).y1 ≤ (merge_box cur cand).y2 := by
  unfold merge_box
  split
  · exact h2
  · simp only
    omega

theorem update_area_ordered (t : MetaTextureTower) (base : CoglTexture) (r : Rect)
    (hbase : t.textures 0 = some base)
    (hW : base.width ≤ 65535) (hH : base.height ≤ 65535)
    (hin : r.inside base.width base.height) (hord : DirtyOrdered t) :
    DirtyOrdered (meta_texture_tower_update_area t r.x r.y r.width r.height) := by
  intro i hi htex
  rw [update_area_textures] at htex
  rw [update_area_invalid t base hbase]
  unfold Rect.inside at hin
  split
  · have e0 : guint16 (r.x : Int) = r.x := guint16_of_le _ (by omega)
    have e1 : guint16 (r.y : Int) = r.y := guint16_of_le _ (by omega)
    have e2 := guint16_add_of_le r.x r.width (by omega)
    have e3 := guint16_add_of_le r.y r.height (by omega)
    rw [e0, e1, e2, e3]
    have hc := candidate_ordered base.width base.height
      ⟨r.x, r.y, r.x + r.width, r.y + r.height⟩ ⟨by simp, by simp; omega⟩
      ⟨by simp, by simp; omega⟩ i
    exact merge_box_ordered _ _ (hord i hi htex) ⟨hc.1.1, hc.2.1⟩
  · exact hord i hi htex

theorem create_texture_ordered (t : MetaTextureTower) (c : Cogl) (i w h : Nat)
    (hord : DirtyOrdered t) : DirtyOrdered (texture_tower_create_texture t c i w h).1 := by
  intro j hj htex
  by_cases hji : j = i
  · subst hji
    rw [create_texture_invalid_same]
    exact ⟨Nat.zero_le _, Nat.zero_le _⟩
  · rw [create_texture_textures_ne _ _ _ _ _ _ hji] at htex
    rw [create_texture_invalid_ne _ _ _ _ _ _ hji]
    exact hord j hj htex

theorem revalidate_ordered (alloc : Nat → Bool) (t : MetaTextureTower) (c : Cogl) (i : Nat)
    (hord : DirtyOrdered t) : DirtyOrdered (texture_tower_revalidate alloc t c i).1 := by
  intro j hj htex
  rw [revalidate_textures] at htex
  by_cases hji : j = i
  · subst hji
    cases e1 : t.textures (j - 1) with
    | none => rw [revalidate_none _ _ _ _ (Or.inl e1)]; exact hord j hj htex
    | some s =>
      cases e2 : t.textures j with
      | none => exact absurd e2 htex
      | some d =>
        rw [revalidate_some _ _ _ _ s d e1 e2]
        split
        · exact hord j hj htex
        · simp only [Function.update_same]
          exact ⟨le_rfl, le_rfl⟩
  · rw [revalidate_invalid_other _ _ _ _ _ hji]
    exact hord j hj htex

theorem get_paint_texture_cases (paint_level : Int → Int → Int) (alloc : Nat → Bool)
    (t : MetaTextureTower) (c : Cogl) :
    meta_texture_tower_get_paint_texture paint_level alloc t c = (none, t, c) ∨
      ∃ base, t.textures 0 = some base ∧ ¬ paint_level base.width base.height < 0 ∧
        meta_texture_tower_get_paint_texture paint_level alloc t c =
          paint_texture_at_level alloc
            (min (paint_level base.width base.height) ((t.n_levels : Int) - 1)).toNat
            base.width base.height t c := by
  cases hb : t.textures 0 with
  | none =>
    left
    unfold meta_texture_tower_get_paint_texture
    rw [hb]
  | some base =>
    by_cases hl : paint_level base.width base.height < 0
    · left
      unfold meta_texture_tower_get_paint_texture
      simp only [hb, if_pos hl]
    · right
      exact ⟨base, rfl, hl, get_paint_texture_base _ _ t c base hb hl⟩

theorem paint_texture_at_level_ordered (alloc : Nat → Bool) (level w h : Nat)
    (t : MetaTextureTower) (c : Cogl) (hord : DirtyOrdered t) :
    DirtyOrdered (paint_texture_at_level alloc level w h t c).2.1 := by
  unfold paint_texture_at_level
  split
  · apply revalidate_loop_induct DirtyOrdered alloc _
      (fun t c i _ h => revalidate_ordered alloc t c i h) _ 1 _ _ le_rfl
    exact create_loop_induct DirtyOrdered
      (fun t c i w h _ _ hP => create_texture_ordered t c i w h hP) _ 1 _ _ _ _ le_rfl hord
  · exact hord

theorem get_paint_texture_ordered (paint_level : Int → Int → Int) (alloc : Nat → Bool)
    (t : MetaTextureTower) (c : Cogl) (hord : DirtyOrdered t) :
    DirtyOrdered (meta_texture_tower_get_paint_texture paint_level alloc t c).2.1 := by
  rcases get_paint_texture_cases paint_level alloc t c with e | ⟨base, _, _, e⟩
  · rw [e]; exact hord
  · rw [e]; exact paint_texture_at_level_ordered _ _ _ _ _ _ hord

theorem set_base_texture_ordered (t : MetaTextureTower) (c : Cogl)
    (texture : Option CoglTexture) (hinv : TowerInv t) (hord : DirtyOrdered t) :
    DirtyOrdered (meta_texture_tower_set_base_texture t c texture).1 := by
  by_cases hsame : texture.map CoglTexture.ptr = (t.textures 0).map CoglTexture.ptr
  · unfold meta_texture_tower_set_base_texture
    rw [if_pos hsame]
    exact hord
  · intro i hi htex
    exact absurd ((set_base_texture_clears t c texture hinv hsame).2.1 i hi) htex

theorem set_base_texture_base (t : MetaTextureTower) (c : Cogl)
    (texture : Option CoglTexture) :
    (meta_texture_tower_set_base_texture t c texture).1.textures 0 = t.textures 0 ∨
      (meta_texture_tower_set_base_texture t c texture).1.textures 0 = texture := by
  by_cases hsame : texture.map CoglTexture.ptr = (t.textures 0).map CoglTexture.ptr
  · left
    unfold meta_texture_tower_set_base_texture
    rw [if_pos hsame]
  · right
    rw [(set_base_texture_textures t c texture hsame 0).1, if_pos rfl]

theorem get_paint_texture_base_kept (paint_level : Int → Int → Int) (alloc : Nat → Bool)
    (t : MetaTextureTower) (c : Cogl) :
    (meta_texture_tower_get_paint_texture paint_level alloc t c).2.1.textures 0 =
      t.textures 0 := by
  rcases get_paint_texture_cases paint_level alloc t c with e | ⟨base, _, _, e⟩
  · rw [e]
  · rw [e]; exact paint_texture_at_level_textures_zero _ _ _ _ _ _

theorem get_paint_texture_n_levels (paint_level : Int → Int → Int) (alloc : Nat → Bool)
    (t : MetaTextureTower) (c : Cogl) :
    (meta_texture_tower_get_paint_texture paint_level alloc t c).2.1.n_levels =
      t.n_levels := by
  rcases get_paint_texture_cases paint_level alloc t c with e | ⟨base, _, _, e⟩
  · rw [e]
  · rw [e]; exact paint_texture_at_level_n_levels _ _ _ _ _ _

theorem within_ordered (bound : Nat) (hb : bound ≤ 65535) (t : MetaTextureTower) (c : Cogl)
    (h : ReachableWithin bound t c) :
    DirtyOrdered t ∧
      ∀ base, t.textures 0 = some base → base.width ≤ bound ∧ base.height ≤ bound := by
  induction h with
  | new c =>
    refine ⟨?_, ?_⟩
    · intro i _ htex
      exact absurd rfl htex
    · intro base hbase
      exact absurd hbase (by simp [meta_texture_tower_new])
  | set_base_texture t c texture hr hpos ih =>
    refine ⟨set_base_texture_ordered t c texture
      (reachable_inv t c (reachable_of_within bound t c hr)) ih.1, ?_⟩
    intro base hbase
    rcases set_base_texture_base t c texture with e | e
    · rw [e] at hbase
      exact ih.2 base hbase
    · rw [e] at hbase
      exact ⟨(hpos base hbase).2.1, (hpos base hbase).2.2.2⟩
  | update_area t c r _ hin ih =>
    refine ⟨?_, by simpa using ih.2⟩
    cases hbase : t.textures 0 with
    | none =>
      have e : meta_texture_tower_update_area t r.x r.y r.width r.height = t := by
        unfold meta_texture_tower_update_area
        rw [hbase]
      rw [e]
      exact ih.1
    | some base =>
      exact update_area_ordered t base r hbase (le_trans (ih.2 base hbase).1 hb)
        (le_trans (ih.2 base hbase).2 hb) (hin base hbase) ih.1
  | get_paint_texture pl alloc t c _ ih =>
    refine ⟨get_paint_texture_ordered pl alloc t c ih.1, ?_⟩
    intro base hbase
    rw [get_paint_texture_base_kept] at hbase
    exact ih.2 base hbase

/-- Claim C13, amended. In every state reachable with base textures of width and
height at most 65535 and with marked rectangles inside the current base image, every
derived level `i` (`1 ≤ i < n_levels`) that has a texture has a dirty rectangle that is
empty (`x1 = x2` or `y1 = y2`) or satisfies `x1 < x2 ≤ w_i` and `y1 < y2 ≤ h_i` for the
size `w_i × h_i` of the level. -/
theorem dirty_rectangle_well_formed (t : MetaTextureTower) (c : Cogl) (h : ReachableWithin 65535 t c)
    (base : CoglTexture) (hbase : t.textures 0 = some base)
    (i : Nat) (hi1 : 1 ≤ i) (_hi2 : i < t.n_levels) (htex : t.textures i ≠ none) :
    (t.invalid i).is_empty ∨
      ((t.invalid i).x1 < (t.invalid i).x2 ∧ (t.invalid i).x2 ≤ level_size base.width i ∧
        (t.invalid i).y1 < (t.invalid i).y2 ∧
        (t.invalid i).y2 ≤ level_size base.height i) := by
  have hord := (within_ordered 65535 le_rfl t c h).1 i hi1 htex
  have hle := (reachable_inv t c (reachable_of_within _ t c h)).dirty_le base hbase i hi1 htex
  unfold Box.is_empty
  by_cases he : (t.invalid i).x1 = (t.invalid i).x2 ∨ (t.invalid i).y1 = (t.invalid i).y2
  · left; exact he
  · right
    push_neg at he
    refine ⟨?_, hle.1, ?_, hle.2⟩
    · exact lt_of_le_of_ne hord.1 he.1
    · exact lt_of_le_of_ne hord.2 he.2

theorem set_base_texture_invalid (t : MetaTextureTower) (c : Cogl) (p w h : Nat)
    (hnew : (t.textures 0).map CoglTexture.ptr ≠ some p) (i : Nat) :
    (meta_texture_tower_set_base_texture t c (some ⟨p, w, h⟩)).1.invalid i =
      if 1 ≤ i ∧ i < min (1 + max (int_log2 w) (int_log2 h)) 12 then
        merge_box (t.invalid i)
          (candidate w h ⟨guint16 0, guint16 0, guint16 (0 + w), guint16 (0 + h)⟩ i)
      else t.invalid i := by
  cases h0 : t.textures 0 with
  | none =>
    rw [set_base_texture_some_of_none t c ⟨p, w, h⟩ h0,
      update_area_invalid _ ⟨p, w, h⟩ (by simp)]
    simp only [MAX_TEXTURE_LEVELS]
  | some old =>
    have hd : (⟨p, w, h⟩ : CoglTexture).ptr ≠ old.ptr := by
      intro e; apply hnew; rw [h0]; simp [← e]
    rw [set_base_texture_some_of_some t c ⟨p, w, h⟩ old h0 hd,
      update_area_invalid _ ⟨p, w, h⟩ (by simp)]
    simp only [MAX_TEXTURE_LEVELS, clear_levels_loop_invalid]

theorem log2_64 : max (int_log2 64) (int_log2 64) = 5 :=
  int_log2_max_short 64 64 5 (by decide) (by decide) (by norm_num)

theorem log2_70000 : max (int_log2 70000) (int_log2 2) = 16 := by
  rw [int_log2_max_exact 70000 2 (by decide) (by decide)]
  apply Nat.log_eq_of_pow_le_of_lt_pow <;> norm_num

theorem first_base_no_second :
    ((meta_texture_tower_set_base_texture meta_texture_tower_new ⟨0, [], [], [], []⟩
      (some ⟨7, 512, 512⟩)).1.textures 0).map CoglTexture.ptr ≠ some 8 := by
  rw [(set_base_texture_installs _ _ 7 512 512 (new_tower_no_base 7)).2]
  decide

theorem replaced_state_facts :
    replaced_state.1.textures 0 = some ⟨8, 64, 64⟩ ∧ replaced_state.1.n_levels = 6 ∧
      replaced_state.1.invalid 1 = ⟨0, 0, 256, 256⟩ := by
  rw [replaced_state]
  refine ⟨(set_base_texture_installs _ _ 8 64 64 first_base_no_second).2, ?_, ?_⟩
  · rw [(set_base_texture_installs _ _ 8 64 64 first_base_no_second).1, log2_64]
    decide
  · rw [set_base_texture_invalid _ _ 8 64 64 first_base_no_second, log2_64,
      new_tower_set_base_invalid, log2_512]
    decide

theorem replaced_state_reachable : ReachableWithin 65535 replaced_state.1 replaced_state.2 := by
  rw [replaced_state]
  apply ReachableWithin.set_base_texture
  · apply ReachableWithin.set_base_texture
    · exact ReachableWithin.new _
    · intro b hb
      rw [← Option.some.inj hb]
      decide
  · intro b hb
    rw [← Option.some.inj hb]
    decide


theorem get_paint_texture_at (paint_level : Int → Int → Int) (alloc : Nat → Bool)
    (t : MetaTextureTower) (c : Cogl) (p w h n level : Nat)
    (hbase : t.textures 0 = some ⟨p, w, h⟩) (hn : t.n_levels = n)
    (hl : ¬ paint_level w h < 0)
    (hlevel : (min (paint_level w h) ((n : Int) - 1)).toNat = level) :
    meta_texture_tower_get_paint_texture paint_level alloc t c =
      paint_texture_at_level alloc level w h t c := by
  have e := get_paint_texture_base paint_level alloc t c ⟨p, w, h⟩ hbase hl
  dsimp only at e
  rw [e, hn, hlevel]

theorem paint_texture_at_level_clean_after (level w h : Nat) (t : MetaTextureTower) (c : Cogl)
    (hl : 1 ≤ level) (hbase : t.textures 0 ≠ none) :
    ¬ (((paint_texture_at_level (fun _ => true) level w h t c).2.1.invalid level).x2 ≠
          ((paint_texture_at_level (fun _ => true) level w h t c).2.1.invalid level).x1 ∧
        ((paint_texture_at_level (fun _ => true) level w h t c).2.1.invalid level).y2 ≠
          ((paint_texture_at_level (fun _ => true) level w h t c).2.1.invalid level).y1) := by
  unfold paint_texture_at_level
  split
  · apply revalidate_loop_clears level level 1 _ _ le_rfl (by omega) (by omega)
    intro j hj
    by_cases hj0 : j = 0
    · subst hj0
      rw [create_loop_textures_keep _ _ _ _ _ _ _ (Or.inr (Or.inl (by decide)))]
      exact hbase
    · exact create_loop_textures_some _ _ _ _ _ _ _ (by omega) (by omega)
  · rename_i hc
    exact fun e => hc (Or.inr e)

theorem wide_base_facts :
    (meta_texture_tower_set_base_texture meta_texture_tower_new ⟨0, [], [], [], []⟩
        (some ⟨7, 70000, 2⟩)).1.textures 0 = some ⟨7, 70000, 2⟩ ∧
      (meta_texture_tower_set_base_texture meta_texture_tower_new ⟨0, [], [], [], []⟩
        (some ⟨7, 70000, 2⟩)).1.n_levels = 12 := by
  refine ⟨(set_base_texture_installs _ _ 7 70000 2 (new_tower_no_base 7)).2, ?_⟩
  rw [(set_base_texture_installs _ _ 7 70000 2 (new_tower_no_base 7)).1, log2_70000]
  decide

theorem wide_painted_state_eq :
    wide_painted_state = paint_texture_at_level (fun _ => true) 1 70000 2
      (meta_texture_tower_set_base_texture meta_texture_tower_new ⟨0, [], [], [], []⟩
        (some ⟨7, 70000, 2⟩)).1
      (meta_texture_tower_set_base_texture meta_texture_tower_new ⟨0, [], [], [], []⟩
        (some ⟨7, 70000, 2⟩)).2 := by
  rw [wide_painted_state]
  exact get_paint_texture_at _ _ _ _ 7 70000 2 12 1 wide_base_facts.1 wide_base_facts.2
    (by decide) (by decide)

theorem wide_painted_state_facts :
    wide_painted_state.2.1.textures 0 = some ⟨7, 70000, 2⟩ ∧
      wide_painted_state.2.1.n_levels = 12 ∧
      wide_painted_state.2.1.textures 1 ≠ none ∧
      (wide_painted_state.2.1.invalid 1).is_empty := by
  have hb : (meta_texture_tower_set_base_texture meta_texture_tower_new ⟨0, [], [], [], []⟩
      (some ⟨7, 70000, 2⟩)).1.textures 0 ≠ none := by
    rw [wide_base_facts.1]; simp
  rw [wide_painted_state_eq]
  refine ⟨?_, ?_, ?_, ?_⟩
  · rw [paint_texture_at_level_textures_zero, wide_base_facts.1]
  · rw [paint_texture_at_level_n_levels, wide_base_facts.2]
  · rw [← paint_texture_at_level_result]
    exact paint_texture_at_level_some _ _ _ _ _ _ hb
  · have h := paint_texture_at_level_clean_after 1 70000 2 _
      (meta_texture_tower_set_base_texture meta_texture_tower_new ⟨0, [], [], [], []⟩
        (some ⟨7, 70000, 2⟩)).2 le_rfl hb
    unfold Box.is_empty
    by_contra hcon
    push_neg at hcon
    exact h ⟨fun e => hcon.1 e.symm, fun e => hcon.2 e.symm⟩

theorem update_area_invalid_at (t : MetaTextureTower) (p w h : Nat)
    (hbase : t.textures 0 = some ⟨p, w, h⟩) (x y width height : Int) (j : Nat)
    (h1 : 1 ≤ j) (h2 : j < t.n_levels) :
    (meta_texture_tower_update_area t x y width height).invalid j =
      merge_box (t.invalid j)
        (candidate w h ⟨guint16 x, guint16 y, guint16 (x + width), guint16 (y + height)⟩ j) := by
  rw [update_area_invalid t ⟨p, w, h⟩ hbase, if_pos ⟨h1, h2⟩]

theorem merge_box_empty (cur cand : Box) (h : cur.is_empty) : merge_box cur cand = cand := by
  unfold merge_box
  exact if_pos h

theorem wrapped_candidate :
    candidate 70000 2 ⟨guint16 (wrapped_mark.x : Int), guint16 (wrapped_mark.y : Int),
      guint16 ((wrapped_mark.x : Int) + (wrapped_mark.width : Int)),
      guint16 ((wrapped_mark.y : Int) + (wrapped_mark.height : Int))⟩ 1 = ⟨30000, 0, 232, 1⟩ := by
  have g1 : guint16 ((60000 : Nat) : Int) = 60000 := by decide
  have g2 : guint16 (((60000 : Nat) : Int) + ((6000 : Nat) : Int)) = 464 := by decide
  unfold wrapped_mark
  simp only []
  rw [g1, g2]
  decide

theorem wrapped_tower_facts :
    wrapped_tower.textures 0 = some ⟨7, 70000, 2⟩ ∧ wrapped_tower.n_levels = 12 ∧
      wrapped_tower.textures 1 ≠ none ∧ wrapped_tower.invalid 1 = ⟨30000, 0, 232, 1⟩ := by
  obtain ⟨h0, hn, h1, he⟩ := wide_painted_state_facts
  rw [wrapped_tower]
  refine ⟨by rw [update_area_textures, h0], by rw [update_area_n_levels, hn],
    by rw [update_area_textures]; exact h1, ?_⟩
  rw [update_area_invalid_at _ 7 70000 2 h0 _ _ _ _ 1 le_rfl (by rw [hn]; decide),
    merge_box_empty _ _ he]
  exact wrapped_candidate

theorem wrapped_tower_reachable : ReachableWithin 70000 wrapped_tower wide_painted_state.2.2 := by
  rw [wrapped_tower]
  apply ReachableWithin.update_area
  · unfold wide_painted_state
    apply ReachableWithin.get_paint_texture
    apply ReachableWithin.set_base_texture
    · exact ReachableWithin.new _
    · intro b hb
      rw [← Option.some.inj hb]
      decide
  · intro b hb
    rw [wide_painted_state_facts.1] at hb
    rw [← Option.some.inj hb]
    unfold Rect.inside wrapped_mark
    decide

/-- Claim C13 as stated fails in two reachable states. After a 512 × 512 base
texture is replaced by a 64 × 64 one, level 1, which has no texture, keeps the
rectangle `{0, 0, 256, 256}`, which is not empty and exceeds `w_1 = 32`:
`meta_texture_tower_set_base_texture` does not reset `invalid`. On a 70000 × 2 base
painted once at level 1, marking `(60000, 0, 6000, 1)`, a rectangle inside the base
image, leaves level 1, which has a texture, with `{30000, 0, 232, 1}`, which is not
empty and has `x1 > x2`: `x + width` is stored in a `guint16`. -/
theorem dirty_rectangle_ill_formed :
    (ReachableWithin 65535 replaced_state.1 replaced_state.2 ∧
      replaced_state.1.textures 0 = some ⟨8, 64, 64⟩ ∧
      1 < replaced_state.1.n_levels ∧
      ¬ (replaced_state.1.invalid 1).is_empty ∧
      ¬ (replaced_state.1.invalid 1).x2 ≤ level_size 64 1) ∧
    (ReachableWithin 70000 wrapped_tower wide_painted_state.2.2 ∧
      wrapped_tower.textures 0 = some ⟨7, 70000, 2⟩ ∧
      1 < wrapped_tower.n_levels ∧
      wrapped_tower.textures 1 ≠ none ∧
      ¬ (wrapped_tower.invalid 1).is_empty ∧
      ¬ (wrapped_tower.invalid 1).x1 < (wrapped_tower.invalid 1).x2) := by
  obtain ⟨a0, an, ai⟩ := replaced_state_facts
  obtain ⟨b0, bn, b1, bi⟩ := wrapped_tower_facts
  refine ⟨⟨replaced_state_reachable, a0, by rw [an]; decide, ?_, ?_⟩,
    ⟨wrapped_tower_reachable, b0, by rw [bn]; decide, b1, ?_, ?_⟩⟩
  · rw [ai]; unfold Box.is_empty; decide
  · rw [ai]; decide
  · rw [bi]; unfold Box.is_empty; decide
  · rw [bi]; decide

theorem revalidate_loop_snoc (alloc : Nat → Bool) (level count : Nat) :
    ∀ (i : Nat) (t : MetaTextureTower) (c : Cogl),
      revalidate_loop alloc level (count + 1) i t c =
        if ((revalidate_loop alloc level count i t c).1.invalid level).x2 ≠
              ((revalidate_loop alloc level count i t c).1.invalid level).x1 ∧
            ((revalidate_loop alloc level count i t c).1.invalid level).y2 ≠
              ((revalidate_loop alloc level count i t c).1.invalid level).y1 then
          texture_tower_revalidate alloc (revalidate_loop alloc level count i t c).1
            (revalidate_loop alloc level count i t c).2 (i + count)
        else revalidate_loop alloc level count i t c := by
  induction count with
  | zero =>
    intro i t c
    rw [revalidate_loop]
    simp only [revalidate_loop, Nat.add_zero]
  | succ n ih =>
    intro i t c
    rw [revalidate_loop, ih]
    have e : i + 1 + n = i + (n + 1) := by omega
    rw [e]
    conv_rhs => rw [revalidate_loop]

theorem revalidate_draw_some (t : MetaTextureTower) (i : Nat) (s d : CoglTexture)
    (e1 : t.textures (i - 1) = some s) (e2 : t.textures i = some d) :
    revalidate_draw t i = some
      { level := i
        fb := (t.fbos i).getD ⟨d⟩
        source := s
        x1 := (t.invalid i).x1
        y1 := (t.invalid i).y1
        x2 := (t.invalid i).x2
        y2 := (t.invalid i).y2
        tx1 := (2 * ((t.invalid i).x1 : ℚ)) / s.width
        ty1 := (2 * ((t.invalid i).y1 : ℚ)) / s.height
        tx2 := (2 * ((t.invalid i).x2 : ℚ)) / s.width
        ty2 := (2 * ((t.invalid i).y2 : ℚ)) / s.height } := by
  unfold revalidate_draw
  rw [e1, e2]

theorem revalidate_draw_none (t : MetaTextureTower) (i : Nat)
    (h : t.textures (i - 1) = none ∨ t.textures i = none) : revalidate_draw t i = none := by
  unfold revalidate_draw
  cases e1 : t.textures (i - 1) with
  | none => rfl
  | some s =>
    cases e2 : t.textures i with
    | none => rfl
    | some d =>
      rcases h with h | h
      · rw [e1] at h; exact absurd h (by simp)
      · rw [e2] at h; exact absurd h (by simp)

theorem revalidate_draw_inv (t : MetaTextureTower) (i : Nat) (d : Draw)
    (h : revalidate_draw t i = some d) :
    ∃ s dst, t.textures (i - 1) = some s ∧ t.textures i = some dst ∧
      d = { level := i
            fb := (t.fbos i).getD ⟨dst⟩
            source := s
            x1 := (t.invalid i).x1
            y1 := (t.invalid i).y1
            x2 := (t.invalid i).x2
            y2 := (t.invalid i).y2
            tx1 := (2 * ((t.invalid i).x1 : ℚ)) / s.width
            ty1 := (2 * ((t.invalid i).y1 : ℚ)) / s.height
            tx2 := (2 * ((t.invalid i).x2 : ℚ)) / s.width
            ty2 := (2 * ((t.invalid i).y2 : ℚ)) / s.height } := by
  cases e1 : t.textures (i - 1) with
  | none => rw [revalidate_draw_none t i (Or.inl e1)] at h; exact absurd h (by simp)
  | some s =>
    cases e2 : t.textures i with
    | none => rw [revalidate_draw_none t i (Or.inr e2)] at h; exact absurd h (by simp)
    | some dst =>
      rw [revalidate_draw_some t i s dst e1 e2] at h
      exact ⟨s, dst, rfl, rfl, (Option.some.inj h).symm⟩

theorem revalidate_alloc_fails (alloc : Nat → Bool) (t : MetaTextureTower) (c : Cogl) (i : Nat)
    (ha : alloc i = false) :
    (texture_tower_revalidate alloc t c i).2 = c ∧
      (texture_tower_revalidate alloc t c i).1.invalid = t.invalid ∧
      (texture_tower_revalidate alloc t c i).1.textures = t.textures ∧
      (texture_tower_revalidate alloc t c i).1.n_levels = t.n_levels := by
  cases e1 : t.textures (i - 1) with
  | none => rw [revalidate_none _ _ _ _ (Or.inl e1)]; exact ⟨rfl, rfl, rfl, rfl⟩
  | some s =>
    cases e2 : t.textures i with
    | none => rw [revalidate_none _ _ _ _ (Or.inr e2)]; exact ⟨rfl, rfl, rfl, rfl⟩
    | some d =>
      rw [revalidate_some _ _ _ _ s d e1 e2, if_pos ha]
      exact ⟨rfl, rfl, rfl, rfl⟩

theorem revalidate_no_draw (alloc : Nat → Bool) (t : MetaTextureTower) (c : Cogl) (i : Nat)
    (h : alloc i = false ∨ revalidate_draw t i = none) :
    (texture_tower_revalidate alloc t c i).2 = c ∧
      (texture_tower_revalidate alloc t c i).1.invalid = t.invalid := by
  rcases h with h | h
  · exact ⟨(revalidate_alloc_fails alloc t c i h).1, (revalidate_alloc_fails alloc t c i h).2.1⟩
  · cases e1 : t.textures (i - 1) with
    | none => rw [revalidate_none _ _ _ _ (Or.inl e1)]; exact ⟨rfl, rfl⟩
    | some s =>
      cases e2 : t.textures i with
      | none => rw [revalidate_none _ _ _ _ (Or.inr e2)]; exact ⟨rfl, rfl⟩
      | some d =>
        rw [revalidate_draw_some t i s d e1 e2] at h
        exact absurd h (by simp)

theorem revalidate_draws (alloc : Nat → Bool) (t : MetaTextureTower) (c : Cogl) (i : Nat)
    (d : Draw) (ha : alloc i = true) (hd : revalidate_draw t i = some d) :
    (texture_tower_revalidate alloc t c i).2 = { c with draws := c.draws ++ [d] } ∧
      (texture_tower_revalidate alloc t c i).1.invalid i = ⟨0, 0, 0, 0⟩ := by
  obtain ⟨s, dst, e1, e2, rfl⟩ := revalidate_draw_inv t i d hd
  rw [revalidate_some _ _ _ _ s dst e1 e2, if_neg (by rw [ha]; simp)]
  exact ⟨rfl, Function.update_same _ _ _⟩

theorem revalidate_loop_draws (alloc : Nat → Bool) (level count : Nat) :
    ∀ (i : Nat) (t : MetaTextureTower) (c : Cogl),
      ∃ ds, (revalidate_loop alloc level count i t c).2.draws = c.draws ++ ds ∧
        ∀ d ∈ ds, ∃ k, k < count ∧
          StepDraws alloc level (revalidate_loop alloc level k i t c).1 (i + k) d := by
  induction count with
  | zero =>
    intro i t c
    exact ⟨[], by simp [revalidate_loop], by simp⟩
  | succ n ih =>
    intro i t c
    obtain ⟨ds, hds, hall⟩ := ih i t c
    have hall2 : ∀ d ∈ ds, ∃ k, k < n + 1 ∧
        StepDraws alloc level (revalidate_loop alloc level k i t c).1 (i + k) d := by
      intro d hd
      obtain ⟨k, hk, hs⟩ := hall d hd
      exact ⟨k, by omega, hs⟩
    rw [revalidate_loop_snoc]
    by_cases hdirty : ((revalidate_loop alloc level n i t c).1.invalid level).x2 ≠
          ((revalidate_loop alloc level n i t c).1.invalid level).x1 ∧
        ((revalidate_loop alloc level n i t c).1.invalid level).y2 ≠
          ((revalidate_loop alloc level n i t c).1.invalid level).y1
    · rw [if_pos hdirty]
      cases ha : alloc (i + n) with
      | false =>
        rw [(revalidate_no_draw alloc _ _ _ (Or.inl ha)).1]
        exact ⟨ds, hds, hall2⟩
      | true =>
        cases hd : revalidate_draw (revalidate_loop alloc level n i t c).1 (i + n) with
        | none =>
          rw [(revalidate_no_draw alloc _ _ _ (Or.inr hd)).1]
          exact ⟨ds, hds, hall2⟩
        | some d =>
          rw [(revalidate_draws alloc _ _ _ d ha hd).1]
          refine ⟨ds ++ [d], by simp [hds], ?_⟩
          intro d2 hd2
          rcases List.mem_append.mp hd2 with h | h
          · exact hall2 d2 h
          · rw [List.mem_singleton] at h
            subst h
            exact ⟨n, by omega, hdirty, ha, hd⟩
    · rw [if_neg hdirty]
      exact ⟨ds, hds, hall2⟩

theorem create_loop_draws (count : Nat) :
    ∀ (i tw th : Nat) (t : MetaTextureTower) (c : Cogl),
      (create_loop count i tw th t c).2.draws = c.draws := by
  induction count with
  | zero => intro i tw th t c; rfl
  | succ n ih =>
    intro i tw th t c
    rw [create_loop, ih]
    cases t.textures i <;> rfl

theorem paint_texture_at_level_draws (alloc : Nat → Bool) (level w h : Nat)
    (t : MetaTextureTower) (c : Cogl) :
    ∃ ds, (paint_texture_at_level alloc level w h t c).2.2.draws = c.draws ++ ds ∧
      ∀ d ∈ ds, ∃ k, k < level ∧
        StepDraws alloc level
          (regeneration_state alloc level k (create_loop level 1 w h t c).1
            (create_loop level 1 w h t c).2).1 (k + 1) d := by
  unfold paint_texture_at_level
  split
  · obtain ⟨ds, hds, hall⟩ := revalidate_loop_draws alloc level level 1
      (create_loop level 1 w h t c).1 (create_loop level 1 w h t c).2
    refine ⟨ds, ?_, ?_⟩
    · show (revalidate_loop alloc level level 1 _ _).2.draws = _
      rw [hds, create_loop_draws]
    · intro d hd
      obtain ⟨k, hk, hs⟩ := hall d hd
      rw [Nat.add_comm 1 k] at hs
      exact ⟨k, hk, hs⟩
  · exact ⟨[], by simp, by simp⟩

theorem get_paint_texture_at_clamped (paint_level : Int → Int → Int) (alloc : Nat → Bool)
    (t : MetaTextureTower) (c : Cogl) (base : CoglTexture) (hbase : t.textures 0 = some base)
    (hl : ¬ paint_level base.width base.height < 0) :
    meta_texture_tower_get_paint_texture paint_level alloc t c =
      paint_texture_at_level alloc (clamped_level paint_level t base)
        base.width base.height t c :=
  get_paint_texture_base paint_level alloc t c base hbase hl

theorem get_paint_texture_negative (paint_level : Int → Int → Int) (alloc : Nat → Bool)
    (t : MetaTextureTower) (c : Cogl) (base : CoglTexture) (hbase : t.textures 0 = some base)
    (hl : paint_level base.width base.height < 0) :
    meta_texture_tower_get_paint_texture paint_level alloc t c = (none, t, c) := by
  unfold meta_texture_tower_get_paint_texture
  simp only [hbase, if_pos hl]

theorem get_paint_texture_no_base (paint_level : Int → Int → Int) (alloc : Nat → Bool)
    (t : MetaTextureTower) (c : Cogl) (hbase : t.textures 0 = none) :
    meta_texture_tower_get_paint_texture paint_level alloc t c = (none, t, c) := by
  unfold meta_texture_tower_get_paint_texture
  rw [hbase]

theorem draw_moment_succ (paint_level : Int → Int → Int) (alloc : Nat → Bool)
    (t : MetaTextureTower) (c : Cogl) (base : CoglTexture) (k : Nat) :
    draw_moment paint_level alloc t c base (k + 1) =
      if (((draw_moment paint_level alloc t c base k).1.invalid
              (clamped_level paint_level t base)).x2 ≠
            ((draw_moment paint_level alloc t c base k).1.invalid
              (clamped_level paint_level t base)).x1 ∧
          ((draw_moment paint_level alloc t c base k).1.invalid
              (clamped_level paint_level t base)).y2 ≠
            ((draw_moment paint_level alloc t c base k).1.invalid
              (clamped_level paint_level t base)).y1) then
        texture_tower_revalidate alloc (draw_moment paint_level alloc t c base k).1
          (draw_moment paint_level alloc t c base k).2 (k + 1)
      else draw_moment paint_level alloc t c base k := by
  unfold draw_moment regeneration_state
  rw [revalidate_loop_snoc, Nat.add_comm 1 k]

theorem draw_moment_textures (paint_level : Int → Int → Int) (alloc : Nat → Bool)
    (t : MetaTextureTower) (c : Cogl) (base : CoglTexture) (k : Nat) :
    (draw_moment paint_level alloc t c base k).1.textures =
      (create_loop (clamped_level paint_level t base) 1 base.width base.height t c).1.textures := by
  unfold draw_moment regeneration_state
  exact revalidate_loop_textures _ _ _ _ _ _

theorem draw_moment_base (paint_level : Int → Int → Int) (alloc : Nat → Bool)
    (t : MetaTextureTower) (c : Cogl) (base : CoglTexture) (hbase : t.textures 0 = some base)
    (k : Nat) :
    (draw_moment paint_level alloc t c base k).1.textures 0 = some base := by
  rw [draw_moment_textures,
    create_loop_textures_keep _ _ _ _ _ _ _ (Or.inr (Or.inl (by decide))), hbase]

theorem draw_moment_textures_some (paint_level : Int → Int → Int) (alloc : Nat → Bool)
    (t : MetaTextureTower) (c : Cogl) (base : CoglTexture) (hbase : t.textures 0 = some base)
    (k j : Nat) (hj : j ≤ clamped_level paint_level t base) :
    (draw_moment paint_level alloc t c base k).1.textures j ≠ none := by
  by_cases hj0 : j = 0
  · subst hj0
    rw [draw_moment_base _ _ _ _ _ hbase]
    simp
  · rw [draw_moment_textures]
    exact create_loop_textures_some _ _ _ _ _ _ _ (by omega) (by omega)

theorem clamped_level_lt (paint_level : Int → Int → Int) (t : MetaTextureTower)
    (base : CoglTexture) (hinv : TowerInv t) (hbase : t.textures 0 = some base) :
    clamped_level paint_level t base < t.n_levels := by
  have h1 : t.n_levels ≠ 0 := by
    intro h0
    rw [hinv.levels_zero.mp h0] at hbase
    exact absurd hbase (by simp)
  exact clamp_lt _ _ (by omega)

theorem draw_moment_inv (paint_level : Int → Int → Int) (alloc : Nat → Bool)
    (t : MetaTextureTower) (c : Cogl) (base : CoglTexture) (hinv : TowerInv t)
    (hbase : t.textures 0 = some base) (k : Nat) :
    TowerInv (draw_moment paint_level alloc t c base k).1 := by
  unfold draw_moment regeneration_state
  apply revalidate_loop_induct TowerInv alloc _
    (fun t c i hi h => revalidate_inv alloc t c i hi h) k 1 _ _ le_rfl
  exact create_loop_inv _ 0 t c base hinv hbase
    (by have := clamped_level_lt paint_level t base hinv hbase; omega)

theorem get_paint_texture_draws (paint_level : Int → Int → Int) (alloc : Nat → Bool)
    (t : MetaTextureTower) (c : Cogl) (base : CoglTexture) (hbase : t.textures 0 = some base) :
    ∃ ds, (meta_texture_tower_get_paint_texture paint_level alloc t c).2.2.draws =
        c.draws ++ ds ∧
      ∀ d ∈ ds, ∃ k, k < clamped_level paint_level t base ∧
        StepDraws alloc (clamped_level paint_level t base)
          (draw_moment paint_level alloc t c base k).1 (k + 1) d := by
  by_cases hl : paint_level base.width base.height < 0
  · rw [get_paint_texture_negative _ _ _ _ base hbase hl]
    exact ⟨[], by simp, by simp⟩
  · rw [get_paint_texture_at_clamped _ _ _ _ base hbase hl]
    exact paint_texture_at_level_draws alloc _ _ _ t c

theorem inv_level_size (t : MetaTextureTower) (base tex : CoglTexture) (hinv : TowerInv t)
    (hbase : t.textures 0 = some base) (k : Nat) (htex : t.textures k = some tex) :
    tex.width = level_size base.width k ∧ tex.height = level_size base.height k := by
  by_cases hk : k = 0
  · subst hk
    rw [hbase] at htex
    rw [← Option.some.inj htex]
    exact ⟨rfl, rfl⟩
  · exact hinv.sizes base hbase k tex (by omega) htex

theorem step_draw_facts (alloc : Nat → Bool) (level : Nat) (s : MetaTextureTower)
    (base : CoglTexture) (k : Nat) (d : Draw) (hinv : TowerInv s)
    (hbase : s.textures 0 = some base) (hs : StepDraws alloc level s (k + 1) d) :
    d.level = k + 1 ∧ s.textures k = some d.source ∧
      s.textures (k + 1) = some d.fb.texture ∧
      d.x1 = (s.invalid (k + 1)).x1 ∧ d.y1 = (s.invalid (k + 1)).y1 ∧
      d.x2 = (s.invalid (k + 1)).x2 ∧ d.y2 = (s.invalid (k + 1)).y2 ∧
      d.tx1 = (2 * (d.x1 : ℚ)) / d.source.width ∧
      d.ty1 = (2 * (d.y1 : ℚ)) / d.source.height ∧
      d.tx2 = (2 * (d.x2 : ℚ)) / d.source.width ∧
      d.ty2 = (2 * (d.y2 : ℚ)) / d.source.height ∧
      d.source.width = level_size base.width k ∧
      d.source.height = level_size base.height k ∧
      d.x2 ≤ level_size base.width (k + 1) ∧ d.y2 ≤ level_size base.height (k + 1) := by
  obtain ⟨_, _, hd⟩ := hs
  obtain ⟨src, dst, e1, e2, rfl⟩ := revalidate_draw_inv s (k + 1) d hd
  rw [Nat.add_sub_cancel] at e1
  have hfb : (s.fbos (k + 1)).getD ⟨dst⟩ = ⟨dst⟩ := by
    cases hf : s.fbos (k + 1) with
    | none => rfl
    | some f =>
      have := hinv.fbo_bound (k + 1) f hf
      rw [e2] at this
      have e3 : dst = f.texture := Option.some.inj this
      rw [Option.getD_some, e3]
  have hsz := inv_level_size s base src hinv hbase k e1
  have hle := hinv.dirty_le base hbase (k + 1) (by omega) (by rw [e2]; simp)
  refine ⟨rfl, e1, ?_, rfl, rfl, rfl, rfl, rfl, rfl, rfl, rfl, hsz.1, hsz.2, hle.1, hle.2⟩
  show s.textures (k + 1) = some ((s.fbos (k + 1)).getD ⟨dst⟩).texture
  rw [hfb, e2]

theorem draw_moment_dirty_pred (paint_level : Int → Int → Int) (alloc : Nat → Bool)
    (t : MetaTextureTower) (c : Cogl) (base : CoglTexture) (k : Nat)
    (h : ((draw_moment paint_level alloc t c base (k + 1)).1.invalid
              (clamped_level paint_level t base)).x2 ≠
            ((draw_moment paint_level alloc t c base (k + 1)).1.invalid
              (clamped_level paint_level t base)).x1 ∧
          ((draw_moment paint_level alloc t c base (k + 1)).1.invalid
              (clamped_level paint_level t base)).y2 ≠
            ((draw_moment paint_level alloc t c base (k + 1)).1.invalid
              (clamped_level paint_level t base)).y1) :
    draw_moment paint_level alloc t c base (k + 1) =
      texture_tower_revalidate alloc (draw_moment paint_level alloc t c base k).1
        (draw_moment paint_level alloc t c base k).2 (k + 1) := by
  by_cases hd : (((draw_moment paint_level alloc t c base k).1.invalid
              (clamped_level paint_level t base)).x2 ≠
            ((draw_moment paint_level alloc t c base k).1.invalid
              (clamped_level paint_level t base)).x1 ∧
          ((draw_moment paint_level alloc t c base k).1.invalid
              (clamped_level paint_level t base)).y2 ≠
            ((draw_moment paint_level alloc t c base k).1.invalid
              (clamped_level paint_level t base)).y1)
  · rw [draw_moment_succ, if_pos hd]
  · exfalso
    rw [draw_moment_succ, if_neg hd] at h
    exact hd h

theorem draw_moment_after_draw (paint_level : Int → Int → Int) (alloc : Nat → Bool)
    (t : MetaTextureTower) (c : Cogl) (base : CoglTexture) (k : Nat) (d : Draw)
    (hs : StepDraws alloc (clamped_level paint_level t base)
      (draw_moment paint_level alloc t c base k).1 (k + 1) d) :
    (draw_moment paint_level alloc t c base (k + 1)).1.invalid (k + 1) = ⟨0, 0, 0, 0⟩ ∧
      (draw_moment paint_level alloc t c base (k + 1)).2.draws =
        (draw_moment paint_level alloc t c base k).2.draws ++ [d] := by
  obtain ⟨hdirty, ha, hd⟩ := hs
  rw [draw_moment_succ, if_pos hdirty]
  have h := revalidate_draws alloc _ (draw_moment paint_level alloc t c base k).2 _ d ha hd
  exact ⟨h.2, by rw [h.1]⟩

theorem draw_moment_step_invalid (paint_level : Int → Int → Int) (alloc : Nat → Bool)
    (t : MetaTextureTower) (c : Cogl) (base : CoglTexture) (i : Nat) (ha : alloc i = false)
    (k : Nat) :
    (draw_moment paint_level alloc t c base (k + 1)).1.invalid i =
      (draw_moment paint_level alloc t c base k).1.invalid i := by
  rw [draw_moment_succ]
  split
  · by_cases hi : i = k + 1
    · subst hi
      rw [(revalidate_alloc_fails alloc _ _ _ ha).2.1]
    · exact revalidate_invalid_other alloc _ _ _ _ hi
  · rfl

theorem get_paint_texture_skips_failed (paint_level : Int → Int → Int) (alloc : Nat → Bool)
    (t : MetaTextureTower) (c : Cogl) (i : Nat) (ha : alloc i = false) :
    ∃ ds, (meta_texture_tower_get_paint_texture paint_level alloc t c).2.2.draws =
        c.draws ++ ds ∧ ∀ d ∈ ds, d.level ≠ i := by
  cases hb : t.textures 0 with
  | none =>
    rw [get_paint_texture_no_base _ _ _ _ hb]
    exact ⟨[], by simp, by simp⟩
  | some base =>
    obtain ⟨ds, hds, hall⟩ := get_paint_texture_draws paint_level alloc t c base hb
    refine ⟨ds, hds, ?_⟩
    intro d hd hlevel
    obtain ⟨k, _, _, hat, hdraw⟩ := hall d hd
    obtain ⟨_, _, _, _, rfl⟩ := revalidate_draw_inv _ _ d hdraw
    have hki : k + 1 = i := hlevel
    rw [hki, ha] at hat
    exact absurd hat (by simp)

/-- Claim C14. When `cogl_framebuffer_allocate` fails for level `i`:
`texture_tower_revalidate` for level `i` returns with the Cogl state (so the draw log),
the dirty rectangles and the textures as they were; a
`meta_texture_tower_get_paint_texture` call only extends the draw log, by draws none of
which has level `i` as destination; and on a tower with a base texture and a
non-negative estimated level the call returns a texture, not `NULL`, and every
iteration of its regeneration loop leaves the dirty rectangle of level `i` as it was
before that iteration. -/
theorem failed_allocation_skips_level (paint_level : Int → Int → Int) (alloc : Nat → Bool)
    (t : MetaTextureTower) (c : Cogl) (i : Nat) (ha : alloc i = false) :
    (∀ s cs, (texture_tower_revalidate alloc s cs i).2 = cs ∧
        (texture_tower_revalidate alloc s cs i).1.invalid = s.invalid ∧
        (texture_tower_revalidate alloc s cs i).1.textures = s.textures) ∧
      (∃ ds, (meta_texture_tower_get_paint_texture paint_level alloc t c).2.2.draws =
          c.draws ++ ds ∧ ∀ d ∈ ds, d.level ≠ i) ∧
      (∀ base, t.textures 0 = some base → ¬ paint_level base.width base.height < 0 →
        (meta_texture_tower_get_paint_texture paint_level alloc t c).1 ≠ none ∧
        ∀ k, (draw_moment paint_level alloc t c base (k + 1)).1.invalid i =
          (draw_moment paint_level alloc t c base k).1.invalid i) := by
  refine ⟨?_, ?_, ?_⟩
  · intro s cs
    have h := revalidate_alloc_fails alloc s cs i ha
    exact ⟨h.1, h.2.1, h.2.2.1⟩
  · exact get_paint_texture_skips_failed paint_level alloc t c i ha
  · intro base hbase hl
    refine ⟨?_, fun k => draw_moment_step_invalid paint_level alloc t c base i ha k⟩
    rw [get_paint_texture_at_clamped _ _ _ _ base hbase hl]
    exact paint_texture_at_level_some _ _ _ _ _ _ (by rw [hbase]; simp)

/-- Claim C15, amended. In a reachable state with a base texture `W × H`, when the
clamped level `L` is at least 1 and the framebuffer allocation for level `L` fails,
`meta_texture_tower_get_paint_texture` returns the texture stored at level `L` itself,
of size `w_L × h_L`, and records no draw into level `L`: the caller receives the
level-`L` texture that was not regenerated, not the texture of the previous level. -/
theorem failed_allocation_returns_requested_level (paint_level : Int → Int → Int) (alloc : Nat → Bool)
    (t : MetaTextureTower) (c : Cogl) (hr : Reachable t c) (base : CoglTexture)
    (hbase : t.textures 0 = some base) (hl : ¬ paint_level base.width base.height < 0)
    (h1 : 1 ≤ clamped_level paint_level t base)
    (ha : alloc (clamped_level paint_level t base) = false) :
    ∃ tex, (meta_texture_tower_get_paint_texture paint_level alloc t c).1 = some tex ∧
      (meta_texture_tower_get_paint_texture paint_level alloc t c).2.1.textures
        (clamped_level paint_level t base) = some tex ∧
      tex.width = level_size base.width (clamped_level paint_level t base) ∧
      tex.height = level_size base.height (clamped_level paint_level t base) ∧
      ∃ ds, (meta_texture_tower_get_paint_texture paint_level alloc t c).2.2.draws =
          c.draws ++ ds ∧ ∀ d ∈ ds, d.level ≠ clamped_level paint_level t base := by
  have hinv := get_paint_texture_inv paint_level alloc t c (reachable_inv t c hr)
  have hb2 : (meta_texture_tower_get_paint_texture paint_level alloc t c).2.1.textures 0 =
      some base := by
    rw [get_paint_texture_base_kept, hbase]
  have hres : (meta_texture_tower_get_paint_texture paint_level alloc t c).1 =
      (meta_texture_tower_get_paint_texture paint_level alloc t c).2.1.textures
        (clamped_level paint_level t base) := by
    rw [get_paint_texture_at_clamped _ _ _ _ base hbase hl]
    exact paint_texture_at_level_result _ _ _ _ _ _
  have hsome : (meta_texture_tower_get_paint_texture paint_level alloc t c).1 ≠ none := by
    rw [get_paint_texture_at_clamped _ _ _ _ base hbase hl]
    exact paint_texture_at_level_some _ _ _ _ _ _ (by rw [hbase]; simp)
  cases hx : (meta_texture_tower_get_paint_texture paint_level alloc t c).1 with
  | none => exact absurd hx hsome
  | some tex =>
    rw [hx] at hres
    have hsz := hinv.sizes base hb2 _ tex h1 hres.symm
    exact ⟨tex, rfl, hres.symm, hsz.1, hsz.2,
      get_paint_texture_skips_failed paint_level alloc t c _ ha⟩


theorem draw_moment_ordered (paint_level : Int → Int → Int) (alloc : Nat → Bool)
    (t : MetaTextureTower) (c : Cogl) (base : CoglTexture) (hord : DirtyOrdered t) (k : Nat) :
    DirtyOrdered (draw_moment paint_level alloc t c base k).1 := by
  unfold draw_moment regeneration_state
  apply revalidate_loop_induct DirtyOrdered alloc _
    (fun t c i _ h => revalidate_ordered alloc t c i h) _ 1 _ _ le_rfl
  exact create_loop_induct DirtyOrdered
    (fun t c i w h _ _ hP => create_texture_ordered t c i w h hP) _ 1 _ _ _ _ le_rfl hord

/-- Claim C17. In a reachable state, `meta_texture_tower_set_base_texture` records
no draw, `meta_texture_tower_get_paint_texture` records none without a base texture,
and with a base texture it only extends the draw log; every draw it adds has a
destination level `k + 1 ≥ 1`, samples the texture stored at level `k` and renders to the
framebuffer of the texture stored at level `k + 1`, at the moment the regeneration loop
reaches level `k + 1`; its destination rectangle is the dirty rectangle of level `k + 1`
at that moment, its source rectangle is `(2 x1 / pw, 2 y1 / ph, 2 x2 / pw, 2 y2 / ph)`
for the size `pw × ph` of the sampled texture, and after that iteration the dirty
rectangle of level `k + 1` is `{0, 0, 0, 0}`. -/
theorem draw_targets_derived_level (paint_level : Int → Int → Int) (alloc : Nat → Bool)
    (t : MetaTextureTower) (c : Cogl) (hr : Reachable t c) :
    (∀ texture, (meta_texture_tower_set_base_texture t c texture).2.draws = c.draws) ∧
      (t.textures 0 = none →
        (meta_texture_tower_get_paint_texture paint_level alloc t c).2.2.draws = c.draws) ∧
      (∀ base, t.textures 0 = some base →
        ∃ ds, (meta_texture_tower_get_paint_texture paint_level alloc t c).2.2.draws =
            c.draws ++ ds ∧
          ∀ d ∈ ds, ∃ k, d.level = k + 1 ∧
            (draw_moment paint_level alloc t c base k).1.textures k = some d.source ∧
            (draw_moment paint_level alloc t c base k).1.textures (k + 1) =
              some d.fb.texture ∧
            d.x1 = ((draw_moment paint_level alloc t c base k).1.invalid (k + 1)).x1 ∧
            d.y1 = ((draw_moment paint_level alloc t c base k).1.invalid (k + 1)).y1 ∧
            d.x2 = ((draw_moment paint_level alloc t c base k).1.invalid (k + 1)).x2 ∧
            d.y2 = ((draw_moment paint_level alloc t c base k).1.invalid (k + 1)).y2 ∧
            d.tx1 = (2 * (d.x1 : ℚ)) / d.source.width ∧
            d.ty1 = (2 * (d.y1 : ℚ)) / d.source.height ∧
            d.tx2 = (2 * (d.x2 : ℚ)) / d.source.width ∧
            d.ty2 = (2 * (d.y2 : ℚ)) / d.source.height ∧
            (draw_moment paint_level alloc t c base (k + 1)).1.invalid (k + 1) =
              ⟨0, 0, 0, 0⟩) := by
  have hinv := reachable_inv t c hr
  refine ⟨fun texture => set_base_texture_draws t c texture, ?_, ?_⟩
  · intro hb
    rw [get_paint_texture_no_base _ _ _ _ hb]
  · intro base hbase
    obtain ⟨ds, hds, hall⟩ := get_paint_texture_draws paint_level alloc t c base hbase
    refine ⟨ds, hds, ?_⟩
    intro d hd
    obtain ⟨k, _, hs⟩ := hall d hd
    have hf := step_draw_facts alloc _ _ base k d
      (draw_moment_inv paint_level alloc t c base hinv hbase k)
      (draw_moment_base paint_level alloc t c base hbase k) hs
    obtain ⟨f1, f2, f3, f4, f5, f6, f7, f8, f9, f10, f11, _⟩ := hf
    exact ⟨k, f1, f2, f3, f4, f5, f6, f7, f8, f9, f10, f11,
      (draw_moment_after_draw paint_level alloc t c base k d hs).1⟩

theorem far_edge_bound (x p : Nat) (h : x ≤ level_size p 1) :
    2 * x ≤ max 2 p ∧ (2 ≤ p → 2 * x ≤ p) := by
  have e : level_size p 1 = max 1 (p / 2) := rfl
  rw [e] at h
  omega

theorem level_size_succ (w k : Nat) :
    level_size w (k + 1) = level_size (level_size w k) 1 := rfl

/-- Claim C18, amended. For every draw that `meta_texture_tower_get_paint_texture`
records from a reachable state, with `pw × ph` the size of the sampled texture: the
source coordinates are `2 x1 / pw`, `2 y1 / ph`, `2 x2 / pw`, `2 y2 / ph`, all of them
non-negative; `2 x2 ≤ max (2, pw)` and `2 y2 ≤ max (2, ph)`; where `pw ≥ 2` the far edge
satisfies `2 x2 ≤ pw`, so `2 x2 / pw ≤ 1`, and likewise for `ph`; and where the dirty
rectangles of the tower are ordered (`x1 ≤ x2`, `y1 ≤ y2`) the near coordinates do not
exceed the far ones. -/
theorem draw_source_far_edges (paint_level : Int → Int → Int) (alloc : Nat → Bool)
    (t : MetaTextureTower) (c : Cogl) (hr : Reachable t c) :
    ∃ ds, (meta_texture_tower_get_paint_texture paint_level alloc t c).2.2.draws =
        c.draws ++ ds ∧
      ∀ d ∈ ds,
        (d.tx1 = (2 * (d.x1 : ℚ)) / d.source.width ∧
          d.ty1 = (2 * (d.y1 : ℚ)) / d.source.height ∧
          d.tx2 = (2 * (d.x2 : ℚ)) / d.source.width ∧
          d.ty2 = (2 * (d.y2 : ℚ)) / d.source.height) ∧
        (1 ≤ d.source.width ∧ 1 ≤ d.source.height) ∧
        (2 * d.x2 ≤ max 2 d.source.width ∧ 2 * d.y2 ≤ max 2 d.source.height) ∧
        (2 ≤ d.source.width → 2 * d.x2 ≤ d.source.width ∧ d.tx2 ≤ 1) ∧
        (2 ≤ d.source.height → 2 * d.y2 ≤ d.source.height ∧ d.ty2 ≤ 1) ∧
        (0 ≤ d.tx1 ∧ 0 ≤ d.ty1 ∧ 0 ≤ d.tx2 ∧ 0 ≤ d.ty2) ∧
        (DirtyOrdered t → d.x1 ≤ d.x2 ∧ d.y1 ≤ d.y2 ∧ d.tx1 ≤ d.tx2 ∧ d.ty1 ≤ d.ty2) := by
  have hinv := reachable_inv t c hr
  cases hb : t.textures 0 with
  | none =>
    rw [get_paint_texture_no_base _ _ _ _ hb]
    exact ⟨[], by simp, by simp⟩
  | some base =>
    obtain ⟨ds, hds, hall⟩ := get_paint_texture_draws paint_level alloc t c base hb
    refine ⟨ds, hds, ?_⟩
    intro d hd
    obtain ⟨k, hk, hs⟩ := hall d hd
    have hminv := draw_moment_inv paint_level alloc t c base hinv hb k
    have hf := step_draw_facts alloc _ _ base k d hminv
      (draw_moment_base paint_level alloc t c base hb k) hs
    obtain ⟨f1, f2, f3, f4, f5, f6, f7, f8, f9, f10, f11, f12, f13, f14, f15⟩ := hf
    have hpos := hinv.base_pos base hb
    have hw : 1 ≤ d.source.width := by rw [f12]; exact level_size_pos _ hpos.1 k
    have hh : 1 ≤ d.source.height := by rw [f13]; exact level_size_pos _ hpos.2 k
    rw [level_size_succ, ← f12] at f14
    rw [level_size_succ, ← f13] at f15
    have bx := far_edge_bound _ _ f14
    have bY := far_edge_bound _ _ f15
    have hwq : (0 : ℚ) < (d.source.width : ℚ) := by exact_mod_cast hw
    have hhq : (0 : ℚ) < (d.source.height : ℚ) := by exact_mod_cast hh
    refine ⟨⟨f8, f9, f10, f11⟩, ⟨hw, hh⟩, ⟨bx.1, bY.1⟩, ?_, ?_, ?_, ?_⟩
    · intro h2
      refine ⟨bx.2 h2, ?_⟩
      rw [f10, div_le_one hwq]
      exact_mod_cast bx.2 h2
    · intro h2
      refine ⟨bY.2 h2, ?_⟩
      rw [f11, div_le_one hhq]
      exact_mod_cast bY.2 h2
    · rw [f8, f9, f10, f11]
      exact ⟨by positivity, by positivity, by positivity, by positivity⟩
    · intro hord
      have ho := draw_moment_ordered paint_level alloc t c base hord k (k + 1) (by omega)
        (by rw [f3]; simp)
      rw [← f4, ← f5, ← f6, ← f7] at ho
      refine ⟨ho.1, ho.2, ?_, ?_⟩
      · rw [f8, f10]
        apply div_le_div_of_nonneg_right _ hwq.le
        exact_mod_cast Nat.mul_le_mul_left 2 ho.1
      · rw [f9, f11]
        apply div_le_div_of_nonneg_right _ hhq.le
        exact_mod_cast Nat.mul_le_mul_left 2 ho.2

/-- Claim C20, amended. On a tower with a base texture, for every draw that
`meta_texture_tower_get_paint_texture` records into a level `i ≥ 2`: at the moment the
regeneration loop reaches level `i` the texture of level `i - 1` exists, and when the
framebuffer allocation for level `i - 1` succeeded in that call the dirty rectangle of
level `i - 1` is `{0, 0, 0, 0}`. -/
theorem parent_current_when_allocated (paint_level : Int → Int → Int) (alloc : Nat → Bool)
    (t : MetaTextureTower) (c : Cogl) (base : CoglTexture)
    (hbase : t.textures 0 = some base) :
    ∃ ds, (meta_texture_tower_get_paint_texture paint_level alloc t c).2.2.draws =
        c.draws ++ ds ∧
      ∀ d ∈ ds, 2 ≤ d.level →
        (draw_moment paint_level alloc t c base (d.level - 1)).1.textures (d.level - 1) ≠
            none ∧
          (alloc (d.level - 1) = true →
            (draw_moment paint_level alloc t c base (d.level - 1)).1.invalid (d.level - 1) =
              ⟨0, 0, 0, 0⟩) := by
  obtain ⟨ds, hds, hall⟩ := get_paint_texture_draws paint_level alloc t c base hbase
  refine ⟨ds, hds, ?_⟩
  intro d hd h2
  obtain ⟨k, hk, hs⟩ := hall d hd
  obtain ⟨_, _, _, _, e⟩ := revalidate_draw_inv _ _ d hs.2.2
  have hlev : d.level = k + 1 := by rw [e]
  rw [hlev, Nat.add_sub_cancel]
  obtain ⟨j, rfl⟩ : ∃ j, k = j + 1 := ⟨k - 1, by omega⟩
  refine ⟨draw_moment_textures_some paint_level alloc t c base hbase _ _ (by omega), ?_⟩
  intro hat
  rw [draw_moment_dirty_pred paint_level alloc t c base j hs.1]
  exact revalidate_invalid_self alloc _ _ _ hat
    (by rw [Nat.add_sub_cancel]
        exact draw_moment_textures_some paint_level alloc t c base hbase _ _ (by omega))
    (draw_moment_textures_some paint_level alloc t c base hbase _ _ (by omega))

theorem paint_first_level_success (alloc : Nat → Bool) (t : MetaTextureTower) (c : Cogl)
    (p w h a b : Nat) (h0 : t.textures 0 = some ⟨p, w, h⟩) (h1 : t.textures 1 = none)
    (f1 : t.fbos 1 = none) (ha : alloc 1 = true)
    (ga : guint16 (max 1 ((w : Int) / 2)) = a) (gb : guint16 (max 1 ((h : Int) / 2)) = b)
    (ha0 : a ≠ 0) (hb0 : b ≠ 0) :
    (paint_texture_at_level alloc 1 w h t c).1 =
        some ⟨c.next_ptr, max 1 (w / 2), max 1 (h / 2)⟩ ∧
      (paint_texture_at_level alloc 1 w h t c).2.1.textures =
        Function.update t.textures 1 (some ⟨c.next_ptr, max 1 (w / 2), max 1 (h / 2)⟩) ∧
      (paint_texture_at_level alloc 1 w h t c).2.1.invalid =
        Function.update t.invalid 1 ⟨0, 0, 0, 0⟩ ∧
      (paint_texture_at_level alloc 1 w h t c).2.1.fbos =
        Function.update t.fbos 1 (some ⟨⟨c.next_ptr, max 1 (w / 2), max 1 (h / 2)⟩⟩) ∧
      (paint_texture_at_level alloc 1 w h t c).2.1.n_levels = t.n_levels ∧
      (paint_texture_at_level alloc 1 w h t c).2.2.draws = c.draws ++
        [⟨1, ⟨⟨c.next_ptr, max 1 (w / 2), max 1 (h / 2)⟩⟩, ⟨p, w, h⟩, 0, 0, a, b,
          0, 0, (2 * (a : ℚ)) / w, (2 * (b : ℚ)) / h⟩] ∧
      (paint_texture_at_level alloc 1 w h t c).2.2.next_ptr = c.next_ptr + 1 := by
  have ha0' : ¬ a = 0 := ha0
  have hb0' : ¬ b = 0 := hb0
  simp [paint_texture_at_level, create_loop, revalidate_loop, texture_tower_create_texture,
    texture_tower_revalidate, h0, h1, f1, ha, ga, gb, ha0', hb0']

theorem paint_first_level_failure (alloc : Nat → Bool) (t : MetaTextureTower) (c : Cogl)
    (p w h : Nat) (h0 : t.textures 0 = some ⟨p, w, h⟩) (h1 : t.textures 1 = none)
    (ha : alloc 1 = false) :
    (paint_texture_at_level alloc 1 w h t c).1 =
        some ⟨c.next_ptr, max 1 (w / 2), max 1 (h / 2)⟩ ∧
      (paint_texture_at_level alloc 1 w h t c).2.1.textures 0 = some ⟨p, w, h⟩ ∧
      (paint_texture_at_level alloc 1 w h t c).2.1.invalid 1 =
        ⟨0, 0, guint16 (max 1 (w / 2) : Nat), guint16 (max 1 (h / 2) : Nat)⟩ ∧
      (paint_texture_at_level alloc 1 w h t c).2.2.draws = c.draws := by
  have hres := paint_texture_at_level_result alloc 1 w h t c
  have htz := paint_texture_at_level_textures_zero alloc 1 w h t c
  rw [hres, htz, h0]
  unfold paint_texture_at_level
  rw [if_pos (Or.inl h1)]
  simp only [revalidate_loop_textures]
  have hc : create_loop 1 1 w h t c =
      texture_tower_create_texture t c 1 (max 1 (w / 2)) (max 1 (h / 2)) := by
    simp [create_loop, h1]
  rw [hc]
  refine ⟨create_texture_textures_same _ _ _ _ _, trivial, ?_, ?_⟩
  · rw [revalidate_loop]
    simp only [revalidate_loop]
    split
    · rw [(revalidate_alloc_fails alloc _ _ 1 ha).2.1]
      exact create_texture_invalid_same _ _ _ _ _
    · exact create_texture_invalid_same _ _ _ _ _
  · rw [revalidate_loop]
    simp only [revalidate_loop]
    split
    · rw [(revalidate_alloc_fails alloc _ _ 1 ha).1]
      rfl
    · rfl

theorem paint_second_level_redraws (alloc : Nat → Bool) (t : MetaTextureTower) (c : Cogl)
    (p q : Nat) (h0 : t.textures 0 = some ⟨p, 512, 512⟩)
    (h1 : t.textures 1 = some ⟨q, 256, 256⟩) (h2 : t.textures 2 = none)
    (i1 : t.invalid 1 = ⟨0, 0, 0, 0⟩) (f1 : t.fbos 1 = some ⟨⟨q, 256, 256⟩⟩)
    (f2 : t.fbos 2 = none) (ha1 : alloc 1 = true) (ha2 : alloc 2 = true) :
    (paint_texture_at_level alloc 2 512 512 t c).2.2.draws = c.draws ++
        [⟨1, ⟨⟨q, 256, 256⟩⟩, ⟨p, 512, 512⟩, 0, 0, 0, 0, 0, 0, 0, 0⟩,
         ⟨2, ⟨⟨c.next_ptr, 128, 128⟩⟩, ⟨q, 256, 256⟩, 0, 0, 128, 128, 0, 0, 1, 1⟩] ∧
      (regeneration_state alloc 2 0 (create_loop 2 1 512 512 t c).1
        (create_loop 2 1 512 512 t c).2).1.invalid 1 = ⟨0, 0, 0, 0⟩ := by
  have g2 : guint16 128 = 128 := by decide
  simp [paint_texture_at_level, regeneration_state, create_loop, revalidate_loop,
    texture_tower_create_texture, texture_tower_revalidate, h0, h1, h2, i1, f1, f2, ha1, ha2, g2]
  norm_num

theorem paint_second_level_stale_parent (alloc : Nat → Bool) (t : MetaTextureTower) (c : Cogl)
    (p : Nat) (h0 : t.textures 0 = some ⟨p, 512, 512⟩) (h1 : t.textures 1 = none)
    (h2 : t.textures 2 = none) (f2 : t.fbos 2 = none)
    (ha1 : alloc 1 = false) (ha2 : alloc 2 = true) :
    (paint_texture_at_level alloc 2 512 512 t c).2.2.draws = c.draws ++
        [⟨2, ⟨⟨c.next_ptr + 1, 128, 128⟩⟩, ⟨c.next_ptr, 256, 256⟩,
          0, 0, 128, 128, 0, 0, 1, 1⟩] ∧
      (regeneration_state alloc 2 1 (create_loop 2 1 512 512 t c).1
        (create_loop 2 1 512 512 t c).2).1.invalid 1 = ⟨0, 0, 256, 256⟩ := by
  have g1 : guint16 256 = 256 := by decide
  have g2 : guint16 128 = 128 := by decide
  simp [paint_texture_at_level, regeneration_state, create_loop, revalidate_loop,
    texture_tower_create_texture, texture_tower_revalidate, h0, h1, h2, f2, ha1, ha2, g1, g2]
  norm_num

theorem paint_existing_first_level (alloc : Nat → Bool) (t : MetaTextureTower) (c : Cogl)
    (p q : Nat) (h0 : t.textures 0 = some ⟨p, 4, 4⟩) (h1 : t.textures 1 = some ⟨q, 2, 2⟩)
    (i1 : t.invalid 1 = ⟨50, 0, 2, 1⟩) (f1 : t.fbos 1 = some ⟨⟨q, 2, 2⟩⟩)
    (ha1 : alloc 1 = true) :
    (paint_texture_at_level alloc 1 4 4 t c).2.2.draws = c.draws ++
      [⟨1, ⟨⟨q, 2, 2⟩⟩, ⟨p, 4, 4⟩, 50, 0, 2, 1, 25, 0, 1, 1 / 2⟩] := by
  simp [paint_texture_at_level, create_loop, revalidate_loop, texture_tower_create_texture,
    texture_tower_revalidate, h0, h1, i1, f1, ha1]
  norm_num

theorem new_tower_set_base_state (c : Cogl) (p w h n : Nat) (hw1 : 1 ≤ w) (hh1 : 1 ≤ h)
    (hw : w ≤ 65535) (hh : h ≤ 65535) (hn : min (1 + max (int_log2 w) (int_log2 h)) 12 = n) :
    (meta_texture_tower_set_base_texture meta_texture_tower_new c (some ⟨p, w, h⟩)).1.textures =
        Function.update (fun _ => none) 0 (some ⟨p, w, h⟩) ∧
      (meta_texture_tower_set_base_texture meta_texture_tower_new c (some ⟨p, w, h⟩)).1.fbos =
        (fun _ => none) ∧
      (meta_texture_tower_set_base_texture meta_texture_tower_new c (some ⟨p, w, h⟩)).2 =
        { c with refs := c.refs ++ [⟨p, w, h⟩] } ∧
      (meta_texture_tower_set_base_texture meta_texture_tower_new c (some ⟨p, w, h⟩)).1.n_levels =
        n ∧
      ∀ j, 1 ≤ j → j < n →
        (meta_texture_tower_set_base_texture meta_texture_tower_new c
          (some ⟨p, w, h⟩)).1.invalid j = ⟨0, 0, level_size w j, level_size h j⟩ := by
  obtain ⟨ht, hf, hc⟩ := new_tower_set_base_fields c p w h
  refine ⟨ht, hf, hc, ?_, ?_⟩
  · rw [(set_base_texture_installs _ c p w h (new_tower_no_base p)).1, hn]
  · intro j hj1 hj2
    rw [new_tower_set_base_invalid, hn, if_pos ⟨hj1, hj2⟩, guint16_zero, zero_add, zero_add,
      guint16_of_le w hw, guint16_of_le h hh, candidate_full w h hw1 hh1]

theorem base_512_facts :
    base_512_state.1.textures 0 = some ⟨7, 512, 512⟩ ∧
      base_512_state.1.textures 1 = none ∧
      base_512_state.1.textures 2 = none ∧
      base_512_state.1.fbos 1 = none ∧
      base_512_state.1.fbos 2 = none ∧
      base_512_state.1.n_levels = 10 ∧
      base_512_state.2 = ⟨0, [], [⟨7, 512, 512⟩], [], []⟩ := by
  obtain ⟨ht, hf, hc, hn, _⟩ := new_tower_set_base_state ⟨0, [], [], [], []⟩ 7 512 512 10
    (by decide) (by decide) (by decide) (by decide) (by rw [log2_512]; decide)
  rw [base_512_state]
  rw [ht, hf, hc, hn]
  exact ⟨rfl, rfl, rfl, rfl, rfl, rfl, rfl⟩

theorem base_512_reachable : Reachable base_512_state.1 base_512_state.2 := by
  rw [base_512_state]
  apply Reachable.set_base_texture _ _ _ (Reachable.new _)
  intro b hb
  rw [← Option.some.inj hb]
  decide

theorem clamped_level_eq (paint_level : Int → Int → Int) (t : MetaTextureTower)
    (p w h n level : Nat) (hn : t.n_levels = n)
    (hlevel : (min (paint_level w h) ((n : Int) - 1)).toNat = level) :
    clamped_level paint_level t ⟨p, w, h⟩ = level := by
  unfold clamped_level
  rw [hn]
  exact hlevel


theorem base_512_clamped (paint_level : Int → Int → Int) (level : Nat)
    (hlevel : (min (paint_level ((512 : Nat) : Int) ((512 : Nat) : Int))
      (((10 : Nat) : Int) - 1)).toNat = level) :
    clamped_level paint_level base_512_state.1 ⟨7, 512, 512⟩ = level :=
  clamped_level_eq paint_level _ 7 512 512 10 level base_512_facts.2.2.2.2.2.1 hlevel

/-- Claim C15 as stated fails on the newly created tower with a 512 × 512 base
texture, the estimated level 1 and failing framebuffer allocations: the call returns
the 256 × 256 texture it created for level 1, not the 512 × 512 texture of level 0,
and it records no draw. -/
theorem failed_allocation_not_previous_level :
    Reachable base_512_state.1 base_512_state.2 ∧
      base_512_state.1.textures 0 = some ⟨7, 512, 512⟩ ∧
      clamped_level (fun _ _ => 1) base_512_state.1 ⟨7, 512, 512⟩ = 1 ∧
      (meta_texture_tower_get_paint_texture (fun _ _ => 1) (fun _ => false)
        base_512_state.1 base_512_state.2).1 = some ⟨0, 256, 256⟩ ∧
      (meta_texture_tower_get_paint_texture (fun _ _ => 1) (fun _ => false)
        base_512_state.1 base_512_state.2).2.1.textures 0 = some ⟨7, 512, 512⟩ ∧
      (meta_texture_tower_get_paint_texture (fun _ _ => 1) (fun _ => false)
        base_512_state.1 base_512_state.2).2.1.textures 1 = some ⟨0, 256, 256⟩ ∧
      (meta_texture_tower_get_paint_texture (fun _ _ => 1) (fun _ => false)
        base_512_state.1 base_512_state.2).2.2.draws = [] := by
  obtain ⟨h0, h1, _, _, _, hn, hc⟩ := base_512_facts
  have hp : base_512_state.2.next_ptr = 0 := by rw [hc]
  have hd : base_512_state.2.draws = [] := by rw [hc]
  have e := get_paint_texture_at (fun _ _ => 1) (fun _ => false) base_512_state.1
    base_512_state.2 7 512 512 10 1 h0 hn (by decide) (by decide)
  obtain ⟨r1, r2, _, r4⟩ := paint_first_level_failure (fun _ => false) base_512_state.1
    base_512_state.2 7 512 512 h0 h1 rfl
  have r5 := paint_texture_at_level_result (fun _ => false) 1 512 512 base_512_state.1
    base_512_state.2
  refine ⟨base_512_reachable, h0, base_512_clamped _ 1 (by decide), ?_, ?_, ?_, ?_⟩
  · rw [e, r1, hp]; rfl
  · rw [e, r2]
  · rw [e, ← r5, r1, hp]; rfl
  · rw [e, r4, hd]

theorem log2_4 : max (int_log2 4) (int_log2 4) = 2 := by
  rw [int_log2_max_exact 4 4 (by decide) (by decide)]
  apply Nat.log_eq_of_pow_le_of_lt_pow <;> norm_num

theorem thin_base_facts :
    thin_base_state.1.textures 0 = some ⟨7, 1024, 1⟩ ∧
      thin_base_state.1.textures 1 = none ∧
      thin_base_state.1.fbos 1 = none ∧
      thin_base_state.1.n_levels = 11 ∧
      thin_base_state.2 = ⟨0, [], [⟨7, 1024, 1⟩], [], []⟩ := by
  obtain ⟨ht, hf, hc, hn, _⟩ := new_tower_set_base_state ⟨0, [], [], [], []⟩ 7 1024 1 11
    (by decide) (by decide) (by decide) (by decide) (by rw [log2_1024]; decide)
  rw [thin_base_state]
  rw [ht, hf, hc, hn]
  exact ⟨rfl, rfl, rfl, rfl, rfl⟩

theorem thin_base_reachable : Reachable thin_base_state.1 thin_base_state.2 := by
  rw [thin_base_state]
  apply Reachable.set_base_texture _ _ _ (Reachable.new _)
  intro b hb
  rw [← Option.some.inj hb]
  decide

theorem thin_base_draws :
    (meta_texture_tower_get_paint_texture (fun _ _ => 1) (fun _ => true)
      thin_base_state.1 thin_base_state.2).2.2.draws =
      [⟨1, ⟨⟨0, 512, 1⟩⟩, ⟨7, 1024, 1⟩, 0, 0, 512, 1, 0, 0, 1, 2⟩] := by
  obtain ⟨h0, h1, f1, hn, hc⟩ := thin_base_facts
  have hp : thin_base_state.2.next_ptr = 0 := by rw [hc]
  have hd : thin_base_state.2.draws = [] := by rw [hc]
  have e := get_paint_texture_at (fun _ _ => 1) (fun _ => true) thin_base_state.1
    thin_base_state.2 7 1024 1 11 1 h0 hn (by decide) (by decide)
  have r := (paint_first_level_success (fun _ => true) thin_base_state.1 thin_base_state.2
    7 1024 1 512 1 h0 h1 f1 rfl (by decide) (by decide) (by decide) (by decide)).2.2.2.2.2.1
  rw [e, r, hp, hd]
  norm_num


theorem painted_4_facts :
    painted_4_state.2.1.textures 0 = some ⟨7, 4, 4⟩ ∧
      painted_4_state.2.1.textures 1 = some ⟨0, 2, 2⟩ ∧
      painted_4_state.2.1.fbos 1 = some ⟨⟨0, 2, 2⟩⟩ ∧
      painted_4_state.2.1.invalid 1 = ⟨0, 0, 0, 0⟩ ∧
      painted_4_state.2.1.n_levels = 3 ∧
      painted_4_state.2.2.draws = [⟨1, ⟨⟨0, 2, 2⟩⟩, ⟨7, 4, 4⟩, 0, 0, 2, 2, 0, 0, 1, 1⟩] := by
  obtain ⟨ht, hf, hc, hn, _⟩ := new_tower_set_base_state ⟨0, [], [], [], []⟩ 7 4 4 3
    (by decide) (by decide) (by decide) (by decide) (by rw [log2_4]; decide)
  have h0 : (meta_texture_tower_set_base_texture meta_texture_tower_new ⟨0, [], [], [], []⟩
      (some ⟨7, 4, 4⟩)).1.textures 0 = some ⟨7, 4, 4⟩ := by rw [ht]; rfl
  have h1 : (meta_texture_tower_set_base_texture meta_texture_tower_new ⟨0, [], [], [], []⟩
      (some ⟨7, 4, 4⟩)).1.textures 1 = none := by rw [ht]; rfl
  have f1 : (meta_texture_tower_set_base_texture meta_texture_tower_new ⟨0, [], [], [], []⟩
      (some ⟨7, 4, 4⟩)).1.fbos 1 = none := by rw [hf]
  have hp : (meta_texture_tower_set_base_texture meta_texture_tower_new ⟨0, [], [], [], []⟩
      (some ⟨7, 4, 4⟩)).2.next_ptr = 0 := by rw [hc]
  have hd : (meta_texture_tower_set_base_texture meta_texture_tower_new ⟨0, [], [], [], []⟩
      (some ⟨7, 4, 4⟩)).2.draws = [] := by rw [hc]
  have e := get_paint_texture_at (fun _ _ => 1) (fun _ => true) _
    (meta_texture_tower_set_base_texture meta_texture_tower_new ⟨0, [], [], [], []⟩
      (some ⟨7, 4, 4⟩)).2 7 4 4 3 1 h0 hn (by decide) (by decide)
  obtain ⟨_, r2, r3, r4, r5, r6, _⟩ := paint_first_level_success (fun _ => true) _
    (meta_texture_tower_set_base_texture meta_texture_tower_new ⟨0, [], [], [], []⟩
      (some ⟨7, 4, 4⟩)).2 7 4 4 2 2 h0 h1 f1 rfl (by decide) (by decide) (by decide)
    (by decide)
  rw [painted_4_state, e, r2, r3, r4, r5, r6, hp, hd, hn]
  refine ⟨?_, ?_, ?_, ?_, rfl, ?_⟩
  · rw [Function.update_noteq (by decide), h0]
  · rw [Function.update_same]; rfl
  · rw [Function.update_same]; rfl
  · rw [Function.update_same]
  · norm_num

theorem outside_candidate :
    candidate 4 4 ⟨guint16 100, guint16 0, guint16 (100 + 1), guint16 (0 + 1)⟩ 1 =
      ⟨50, 0, 2, 1⟩ := by
  decide

theorem outside_marked_facts :
    outside_marked_tower.textures 0 = some ⟨7, 4, 4⟩ ∧
      outside_marked_tower.textures 1 = some ⟨0, 2, 2⟩ ∧
      outside_marked_tower.fbos 1 = some ⟨⟨0, 2, 2⟩⟩ ∧
      outside_marked_tower.invalid 1 = ⟨50, 0, 2, 1⟩ ∧
      outside_marked_tower.n_levels = 3 := by
  obtain ⟨h0, h1, f1, i1, hn, _⟩ := painted_4_facts
  rw [outside_marked_tower, update_area_textures, update_area_fbos, update_area_n_levels]
  refine ⟨h0, h1, f1, ?_, hn⟩
  rw [update_area_invalid_at _ 7 4 4 h0 _ _ _ _ 1 le_rfl (by rw [hn]; decide),
    merge_box_empty _ _ (by rw [i1]; exact Or.inl rfl)]
  exact outside_candidate

theorem outside_marked_reachable :
    Reachable outside_marked_tower painted_4_state.2.2 := by
  rw [outside_marked_tower, painted_4_state]
  apply Reachable.update_area
  apply Reachable.get_paint_texture
  apply Reachable.set_base_texture _ _ _ (Reachable.new _)
  intro b hb
  rw [← Option.some.inj hb]
  decide

/-- Claim C18 as stated fails at two reachable states. On the newly created tower
with a 1024 × 1 base texture and the estimated level 1, the one draw recorded has the
destination rectangle `{0, 0, 512, 1}` and samples a texture of height 1, so
`2 y2 = 2 > 1` and the far source coordinate is 2. On a 4 × 4 base painted once at
level 1, after the rectangle `(100, 0, 1, 1)` was marked, the draw recorded for level 1
has the destination rectangle `{50, 0, 2, 1}` and the near source coordinate 25.
Nothing in `texture_tower_revalidate` clips the source range. -/
theorem draw_source_exceeds_parent :
    (Reachable thin_base_state.1 thin_base_state.2 ∧
      thin_base_state.2.draws = [] ∧
      (meta_texture_tower_get_paint_texture (fun _ _ => 1) (fun _ => true)
        thin_base_state.1 thin_base_state.2).2.2.draws =
        [⟨1, ⟨⟨0, 512, 1⟩⟩, ⟨7, 1024, 1⟩, 0, 0, 512, 1, 0, 0, 1, 2⟩] ∧
      ∀ d ∈ (meta_texture_tower_get_paint_texture (fun _ _ => 1) (fun _ => true)
          thin_base_state.1 thin_base_state.2).2.2.draws,
        d.source.height = 1 ∧ ¬ 2 * d.y2 ≤ d.source.height ∧ ¬ d.ty2 ≤ 1) ∧
    (Reachable outside_marked_tower painted_4_state.2.2 ∧
      (meta_texture_tower_get_paint_texture (fun _ _ => 1) (fun _ => true)
        outside_marked_tower painted_4_state.2.2).2.2.draws =
        painted_4_state.2.2.draws ++
          [⟨1, ⟨⟨0, 2, 2⟩⟩, ⟨7, 4, 4⟩, 50, 0, 2, 1, 25, 0, 1, 1 / 2⟩]) := by
  refine ⟨⟨thin_base_reachable, by rw [thin_base_facts.2.2.2.2], thin_base_draws, ?_⟩,
    outside_marked_reachable, ?_⟩
  · intro d hd
    rw [thin_base_draws, List.mem_singleton] at hd
    subst hd
    refine ⟨rfl, by decide, ?_⟩
    norm_num
  · obtain ⟨h0, h1, f1, i1, hn⟩ := outside_marked_facts
    rw [get_paint_texture_at (fun _ _ => 1) (fun _ => true) outside_marked_tower
      painted_4_state.2.2 7 4 4 3 1 h0 hn (by decide) (by decide)]
    exact paint_existing_first_level _ _ _ 7 0 h0 h1 i1 f1 rfl


theorem draw_moment_eq (paint_level : Int → Int → Int) (alloc : Nat → Bool)
    (t : MetaTextureTower) (c : Cogl) (p w h level k : Nat)
    (hc : clamped_level paint_level t ⟨p, w, h⟩ = level) :
    draw_moment paint_level alloc t c ⟨p, w, h⟩ k =
      regeneration_state alloc level k (create_loop level 1 w h t c).1
        (create_loop level 1 w h t c).2 := by
  unfold draw_moment
  rw [hc]

theorem painted_512_facts :
    painted_512_state.2.1.textures 0 = some ⟨7, 512, 512⟩ ∧
      painted_512_state.2.1.textures 1 = some ⟨0, 256, 256⟩ ∧
      painted_512_state.2.1.textures 2 = none ∧
      painted_512_state.2.1.fbos 1 = some ⟨⟨0, 256, 256⟩⟩ ∧
      painted_512_state.2.1.fbos 2 = none ∧
      painted_512_state.2.1.invalid 1 = ⟨0, 0, 0, 0⟩ ∧
      painted_512_state.2.1.n_levels = 10 ∧
      painted_512_state.2.2.next_ptr = 1 ∧
      painted_512_state.2.2.draws =
        [⟨1, ⟨⟨0, 256, 256⟩⟩, ⟨7, 512, 512⟩, 0, 0, 256, 256, 0, 0, 1, 1⟩] := by
  obtain ⟨h0, h1, h2, f1, f2, hn, hc⟩ := base_512_facts
  have hp : base_512_state.2.next_ptr = 0 := by rw [hc]
  have hd : base_512_state.2.draws = [] := by rw [hc]
  have e := get_paint_texture_at (fun _ _ => 1) (fun _ => true) base_512_state.1
    base_512_state.2 7 512 512 10 1 h0 hn (by decide) (by decide)
  obtain ⟨_, r2, r3, r4, r5, r6, r7⟩ := paint_first_level_success (fun _ => true)
    base_512_state.1 base_512_state.2 7 512 512 256 256 h0 h1 f1 rfl (by decide) (by decide)
    (by decide) (by decide)
  rw [painted_512_state, e, r2, r3, r4, r5, r6, r7, hp, hd, hn]
  refine ⟨?_, ?_, ?_, ?_, ?_, ?_, rfl, rfl, ?_⟩
  · rw [Function.update_noteq (by decide), h0]
  · rw [Function.update_same]; rfl
  · rw [Function.update_noteq (by decide), h2]
  · rw [Function.update_same]; rfl
  · rw [Function.update_noteq (by decide), f2]
  · rw [Function.update_same]
  · norm_num

/-- Claim C19, evaluated on the tower with a 512 × 512 base texture after one paint
at level 1. The dirty rectangle of level 1 is `{0, 0, 0, 0}` when the regeneration loop
of a following call for level 2 reaches level 1, and that call nevertheless records a
draw for level 1, with the empty rectangle, before the draw for level 2: the loop tests
`invalid[level]`, the rectangle of the requested level, and not `invalid[i]`. -/
theorem regeneration_redraws_clean_level :
    painted_512_state.2.1.textures 0 = some ⟨7, 512, 512⟩ ∧
      clamped_level (fun _ _ => 2) painted_512_state.2.1 ⟨7, 512, 512⟩ = 2 ∧
      (draw_moment (fun _ _ => 2) (fun _ => true) painted_512_state.2.1
        painted_512_state.2.2 ⟨7, 512, 512⟩ 0).1.invalid 1 = ⟨0, 0, 0, 0⟩ ∧
      (meta_texture_tower_get_paint_texture (fun _ _ => 2) (fun _ => true)
        painted_512_state.2.1 painted_512_state.2.2).2.2.draws =
        painted_512_state.2.2.draws ++
          [⟨1, ⟨⟨0, 256, 256⟩⟩, ⟨7, 512, 512⟩, 0, 0, 0, 0, 0, 0, 0, 0⟩,
           ⟨2, ⟨⟨1, 128, 128⟩⟩, ⟨0, 256, 256⟩, 0, 0, 128, 128, 0, 0, 1, 1⟩] := by
  obtain ⟨h0, h1, h2, f1, f2, i1, hn, hp, _⟩ := painted_512_facts
  have hcl : clamped_level (fun _ _ => 2) painted_512_state.2.1 ⟨7, 512, 512⟩ = 2 :=
    clamped_level_eq _ _ 7 512 512 10 2 hn (by decide)
  obtain ⟨r1, r2⟩ := paint_second_level_redraws (fun _ => true) painted_512_state.2.1
    painted_512_state.2.2 7 0 h0 h1 h2 i1 f1 f2 rfl rfl
  refine ⟨h0, hcl, ?_, ?_⟩
  · rw [draw_moment_eq _ _ _ _ 7 512 512 2 0 hcl]
    exact r2
  · rw [get_paint_texture_at (fun _ _ => 2) (fun _ => true) painted_512_state.2.1
      painted_512_state.2.2 7 512 512 10 2 h0 hn (by decide) (by decide), r1, hp]

/-- Claim C20 as stated fails on the newly created tower with a 512 × 512 base
texture, the estimated level 2 and an allocation that fails for level 1 only: the call
records a draw into level 2 that samples the level-1 texture, while the dirty rectangle
of level 1 at that moment is `{0, 0, 256, 256}`. -/
theorem draw_from_stale_parent :
    Reachable base_512_state.1 base_512_state.2 ∧
      clamped_level (fun _ _ => 2) base_512_state.1 ⟨7, 512, 512⟩ = 2 ∧
      alloc_fails_at_1 1 = false ∧
      (meta_texture_tower_get_paint_texture (fun _ _ => 2) alloc_fails_at_1
        base_512_state.1 base_512_state.2).2.2.draws =
        base_512_state.2.draws ++
          [⟨2, ⟨⟨1, 128, 128⟩⟩, ⟨0, 256, 256⟩, 0, 0, 128, 128, 0, 0, 1, 1⟩] ∧
      (draw_moment (fun _ _ => 2) alloc_fails_at_1 base_512_state.1 base_512_state.2
        ⟨7, 512, 512⟩ 1).1.invalid 1 = ⟨0, 0, 256, 256⟩ := by
  obtain ⟨h0, h1, h2, _, f2, hn, hc⟩ := base_512_facts
  have hp : base_512_state.2.next_ptr = 0 := by rw [hc]
  have hcl := base_512_clamped (fun _ _ => 2) 2 (by decide)
  obtain ⟨r1, r2⟩ := paint_second_level_stale_parent alloc_fails_at_1 base_512_state.1
    base_512_state.2 7 h0 h1 h2 f2 rfl rfl
  refine ⟨base_512_reachable, hcl, rfl, ?_, ?_⟩
  · rw [get_paint_texture_at (fun _ _ => 2) alloc_fails_at_1 base_512_state.1
      base_512_state.2 7 512 512 10 2 h0 hn (by decide) (by decide), r1, hp]
  · rw [draw_moment_eq _ _ _ _ 7 512 512 2 1 hcl]
    exact r2

/-- Claim C11 at the tower with a 512 × 512 base texture, which receives a 64 × 64
texture at another address. -/
theorem set_base_texture_discards_levels_witness :
    (∀ i, 1 ≤ i →
        (meta_texture_tower_set_base_texture base_512_state.1 base_512_state.2
          (some ⟨8, 64, 64⟩)).1.textures i = none ∧
        (meta_texture_tower_set_base_texture base_512_state.1 base_512_state.2
          (some ⟨8, 64, 64⟩)).1.fbos i = none) ∧
      (meta_texture_tower_set_base_texture base_512_state.1 base_512_state.2
        (some ⟨8, 64, 64⟩)).1.textures 0 = some ⟨8, 64, 64⟩ ∧
      (meta_texture_tower_set_base_texture base_512_state.1 base_512_state.2
        (some ⟨8, 64, 64⟩)).2.draws = base_512_state.2.draws := by
  have h := set_base_texture_discards_levels base_512_state.1 base_512_state.2 (some ⟨8, 64, 64⟩) base_512_reachable
    (by rw [base_512_facts.1]; decide)
  exact ⟨h.1, h.2.1, h.2.2.2.2.1⟩

/-- Claim C12 at the newly created tower that received a 512 × 512 base texture. -/
theorem level_count_zero_iff_no_base_witness :
    (base_512_state.1.n_levels = 0 ↔ base_512_state.1.textures 0 = none) ∧
      (base_512_state.1.textures 0 ≠ none →
        1 ≤ base_512_state.1.n_levels ∧ base_512_state.1.n_levels ≤ 12) :=
  level_count_zero_iff_no_base base_512_state.1 base_512_state.2 base_512_reachable

/-- Claim C14 at the tower with a 512 × 512 base texture, the estimated level 2 and
an allocation that fails for level 1. -/
theorem failed_allocation_skips_level_witness :
    ∃ ds, (meta_texture_tower_get_paint_texture (fun _ _ => 2) alloc_fails_at_1
        base_512_state.1 base_512_state.2).2.2.draws = base_512_state.2.draws ++ ds ∧
      ∀ d ∈ ds, d.level ≠ 1 :=
  (failed_allocation_skips_level (fun _ _ => 2) alloc_fails_at_1 base_512_state.1 base_512_state.2 1 rfl).2.1

/-- Claim C15, amended, at the tower with a 512 × 512 base texture, the estimated
level 1 and failing allocations. -/
theorem failed_allocation_returns_requested_level_witness :
    ∃ tex, (meta_texture_tower_get_paint_texture (fun _ _ => 1) (fun _ => false)
        base_512_state.1 base_512_state.2).1 = some tex ∧
      (meta_texture_tower_get_paint_texture (fun _ _ => 1) (fun _ => false)
        base_512_state.1 base_512_state.2).2.1.textures 1 = some tex ∧
      tex.width = level_size 512 1 ∧ tex.height = level_size 512 1 := by
  have hc := base_512_clamped (fun _ _ => 1) 1 (by decide)
  have h := failed_allocation_returns_requested_level (fun _ _ => 1) (fun _ => false) base_512_state.1 base_512_state.2
    base_512_reachable ⟨7, 512, 512⟩ base_512_facts.1 (by decide) (by rw [hc]) rfl
  rw [hc] at h
  obtain ⟨tex, h1, h2, h3, h4, _⟩ := h
  exact ⟨tex, h1, h2, h3, h4⟩

/-- Claim C17 at the tower with a 512 × 512 base texture and the estimated level 2. -/
theorem draw_targets_derived_level_witness :
    ∃ ds, (meta_texture_tower_get_paint_texture (fun _ _ => 2) (fun _ => true)
        base_512_state.1 base_512_state.2).2.2.draws = base_512_state.2.draws ++ ds ∧
      ∀ d ∈ ds, ∃ k, d.level = k + 1 ∧
        (draw_moment (fun _ _ => 2) (fun _ => true) base_512_state.1 base_512_state.2
          ⟨7, 512, 512⟩ k).1.textures k = some d.source ∧
        (draw_moment (fun _ _ => 2) (fun _ => true) base_512_state.1 base_512_state.2
          ⟨7, 512, 512⟩ (k + 1)).1.invalid (k + 1) = ⟨0, 0, 0, 0⟩ := by
  obtain ⟨ds, h1, h2⟩ := (draw_targets_derived_level (fun _ _ => 2) (fun _ => true) base_512_state.1
    base_512_state.2 base_512_reachable).2.2 ⟨7, 512, 512⟩ base_512_facts.1
  refine ⟨ds, h1, fun d hd => ?_⟩
  obtain ⟨k, a1, a2, _, _, _, _, _, _, _, _, _, a12⟩ := h2 d hd
  exact ⟨k, a1, a2, a12⟩

/-- Claim C18, amended, at the tower with a 1024 × 1 base texture and the estimated
level 1. -/
theorem draw_source_far_edges_witness :
    ∃ ds, (meta_texture_tower_get_paint_texture (fun _ _ => 1) (fun _ => true)
        thin_base_state.1 thin_base_state.2).2.2.draws = thin_base_state.2.draws ++ ds ∧
      ∀ d ∈ ds,
        (2 * d.x2 ≤ max 2 d.source.width ∧ 2 * d.y2 ≤ max 2 d.source.height) ∧
        (2 ≤ d.source.width → 2 * d.x2 ≤ d.source.width ∧ d.tx2 ≤ 1) ∧
        (2 ≤ d.source.height → 2 * d.y2 ≤ d.source.height ∧ d.ty2 ≤ 1) := by
  obtain ⟨ds, h1, h2⟩ := draw_source_far_edges (fun _ _ => 1) (fun _ => true) thin_base_state.1
    thin_base_state.2 thin_base_reachable
  refine ⟨ds, h1, fun d hd => ?_⟩
  obtain ⟨_, _, a3, a4, a5, _⟩ := h2 d hd
  exact ⟨a3, a4, a5⟩

/-- Claim C20, amended, at the tower with a 512 × 512 base texture, the estimated
level 2 and an allocation that fails for level 1 only. -/
theorem parent_current_when_allocated_witness :
    ∃ ds, (meta_texture_tower_get_paint_texture (fun _ _ => 2) alloc_fails_at_1
        base_512_state.1 base_512_state.2).2.2.draws = base_512_state.2.draws ++ ds ∧
      ∀ d ∈ ds, 2 ≤ d.level →
        (draw_moment (fun _ _ => 2) alloc_fails_at_1 base_512_state.1 base_512_state.2
            ⟨7, 512, 512⟩ (d.level - 1)).1.textures (d.level - 1) ≠ none ∧
          (alloc_fails_at_1 (d.level - 1) = true →
            (draw_moment (fun _ _ => 2) alloc_fails_at_1 base_512_state.1 base_512_state.2
              ⟨7, 512, 512⟩ (d.level - 1)).1.invalid (d.level - 1) = ⟨0, 0, 0, 0⟩) :=
  parent_current_when_allocated (fun _ _ => 2) alloc_fails_at_1 base_512_state.1 base_512_state.2
    ⟨7, 512, 512⟩ base_512_facts.1


theorem painted_512_within :
    ReachableWithin 65535 painted_512_state.2.1 painted_512_state.2.2 := by
  rw [painted_512_state, base_512_state]
  apply ReachableWithin.get_paint_texture
  apply ReachableWithin.set_base_texture _ _ _ (ReachableWithin.new _)
  intro b hb
  rw [← Option.some.inj hb]
  decide

/-- Claim C13, amended, at level 1 of the tower with a 512 × 512 base texture after
one paint at level 1. -/
theorem dirty_rectangle_well_formed_witness :
    (painted_512_state.2.1.invalid 1).is_empty ∨
      ((painted_512_state.2.1.invalid 1).x1 < (painted_512_state.2.1.invalid 1).x2 ∧
        (painted_512_state.2.1.invalid 1).x2 ≤ level_size 512 1 ∧
        (painted_512_state.2.1.invalid 1).y1 < (painted_512_state.2.1.invalid 1).y2 ∧
        (painted_512_state.2.1.invalid 1).y2 ≤ level_size 512 1) :=
  dirty_rectangle_well_formed painted_512_state.2.1 painted_512_state.2.2 painted_512_within ⟨7, 512, 512⟩
    painted_512_facts.1 1 le_rfl (by rw [painted_512_facts.2.2.2.2.2.2.1]; decide)
    (by rw [painted_512_facts.2.1]; simp)

theorem tower_ext (a b : MetaTextureTower) (h1 : a.n_levels = b.n_levels)
    (h2 : a.textures = b.textures) (h3 : a.fbos = b.fbos) (h4 : a.invalid = b.invalid)
    (h5 : a.pipeline_template = b.pipeline_template) : a = b := by
  cases a
  cases b
  simp only at h1 h2 h3 h4 h5
  subst h1 h2 h3 h4 h5
  rfl

theorem update_area_no_base (t : MetaTextureTower) (x y w h : Int)
    (hb : t.textures 0 = none) : meta_texture_tower_update_area t x y w h = t := by
  unfold meta_texture_tower_update_area
  rw [hb]

theorem merge_box_twice (cur cand : Box)
    (hwf : cur.is_empty ∨ (cur.x1 < cur.x2 ∧ cur.y1 < cur.y2)) :
    merge_box (merge_box cur cand) cand = merge_box cur cand := by
  by_cases he : cur.x1 = cur.x2 ∨ cur.y1 = cur.y2
  · have e1 : merge_box cur cand = cand := if_pos he
    rw [e1]
    unfold merge_box
    split
    · rfl
    · simp only [min_self, max_self]
  · have hlt : cur.x1 < cur.x2 ∧ cur.y1 < cur.y2 := by
      rcases hwf with h | h
      · exact absurd h he
      · exact h
    have e1 : merge_box cur cand =
        ⟨min cur.x1 cand.x1, min cur.y1 cand.y1, max cur.x2 cand.x2, max cur.y2 cand.y2⟩ :=
      if_neg he
    rw [e1]
    unfold merge_box
    have hne : ¬ (min cur.x1 cand.x1 = max cur.x2 cand.x2 ∨
        min cur.y1 cand.y1 = max cur.y2 cand.y2) := by
      omega
    rw [if_neg hne]
    simp only [Box.mk.injEq]
    omega

theorem merge_box_covers_old (cur cand : Box) (hne : ¬ cur.is_empty) :
    (merge_box cur cand).covers cur := by
  have e1 : merge_box cur cand =
      ⟨min cur.x1 cand.x1, min cur.y1 cand.y1, max cur.x2 cand.x2, max cur.y2 cand.y2⟩ :=
    if_neg hne
  rw [e1]
  unfold Box.covers
  simp only
  omega

/-- Claim C30. In a tower state in which the dirty rectangle of every derived level
is empty or has `x1 < x2` and `y1 < y2`, two successive
`meta_texture_tower_update_area` calls with the same arguments leave the same tower as
one call; and one call leaves at every level whose dirty rectangle was not empty a
rectangle that covers the old one. -/
theorem update_area_idempotent (t : MetaTextureTower) (x y w h : Int)
    (hwf : ∀ i, 1 ≤ i → i < t.n_levels →
      (t.invalid i).is_empty ∨
        ((t.invalid i).x1 < (t.invalid i).x2 ∧ (t.invalid i).y1 < (t.invalid i).y2)) :
    meta_texture_tower_update_area (meta_texture_tower_update_area t x y w h) x y w h =
        meta_texture_tower_update_area t x y w h ∧
      ∀ i, ¬ (t.invalid i).is_empty →
        ((meta_texture_tower_update_area t x y w h).invalid i).covers (t.invalid i) := by
  cases hb : t.textures 0 with
  | none =>
    rw [update_area_no_base t x y w h hb, update_area_no_base t x y w h hb]
    exact ⟨rfl, fun i _ => ⟨le_rfl, le_rfl, le_rfl, le_rfl⟩⟩
  | some base =>
    have hb2 : (meta_texture_tower_update_area t x y w h).textures 0 = some base := by
      rw [update_area_textures, hb]
    constructor
    · apply tower_ext
      · rw [update_area_n_levels]
      · rw [update_area_textures]
      · rw [update_area_fbos]
      · funext i
        rw [update_area_invalid _ base hb2, update_area_n_levels,
          update_area_invalid t base hb]
        by_cases hi : 1 ≤ i ∧ i < t.n_levels
        · rw [if_pos hi, if_pos hi]
          exact merge_box_twice _ _ (hwf i hi.1 hi.2)
        · rw [if_neg hi, if_neg hi]
      · rw [update_area_pipeline_template]
    · intro i hne
      rw [update_area_invalid t base hb]
      by_cases hi : 1 ≤ i ∧ i < t.n_levels
      · rw [if_pos hi]
        exact merge_box_covers_old _ _ hne
      · rw [if_neg hi]
        exact ⟨le_rfl, le_rfl, le_rfl, le_rfl⟩

theorem level_size_closed (w : Nat) (i : Nat) :
    level_size w (i + 1) = max 1 (w / 2 ^ (i + 1)) := by
  induction i with
  | zero => simp [level_size]
  | succ n ih =>
    have e : level_size w (n + 1 + 1) = max 1 (level_size w (n + 1) / 2) := rfl
    rw [e, ih, ← floor_half_step w (n + 1)]
    omega

theorem level_size_closed_pos (w : Nat) (hw : 1 ≤ w) (i : Nat) :
    level_size w i = max 1 (w / 2 ^ i) := by
  cases i with
  | zero => simp [level_size]; omega
  | succ n => exact level_size_closed w n


theorem footprint_closed (w h : Nat) (r : Rect) (i : Nat) :
    footprint w h r (i + 1) =
      ⟨r.x / 2 ^ (i + 1), r.y / 2 ^ (i + 1),
        min (max 1 (w / 2 ^ (i + 1))) ((r.x + r.width + 2 ^ (i + 1) - 1) / 2 ^ (i + 1)),
        min (max 1 (h / 2 ^ (i + 1))) ((r.y + r.height + 2 ^ (i + 1) - 1) / 2 ^ (i + 1))⟩ := by
  unfold footprint
  rw [level_size_closed, level_size_closed]

/-- Claim C28. For a tower with a base texture `W × H`, `1 ≤ W, H ≤ 65535`, a
rectangle with `x + w ≤ W` and `y + h ≤ H`, and a level `i` with `1 ≤ i < n_levels`: the
four `guint16` assignments of `meta_texture_tower_update_area` keep their values, and
the candidate rectangle of level `i` is `{x / 2^i, y / 2^i, min (w_i, ceil ((x + w) / 2^i)),
min (h_i, ceil ((y + h) / 2^i))}` with `w_i = max (1, W / 2^i)` and `h_i = max (1, H / 2^i)`;
it is what the call stores at a level whose dirty rectangle was empty. -/
theorem update_area_candidate_closed_form (t : MetaTextureTower) (p W H x y w h : Nat)
    (hbase : t.textures 0 = some ⟨p, W, H⟩)
    (hW1 : 1 ≤ W) (hH1 : 1 ≤ H) (hW : W ≤ 65535) (hH : H ≤ 65535)
    (hx : x + w ≤ W) (hy : y + h ≤ H) (i : Nat) (hi1 : 1 ≤ i) (hi2 : i < t.n_levels) :
    (guint16 (x : Int) = x ∧ guint16 (y : Int) = y ∧
        guint16 ((x : Int) + (w : Int)) = x + w ∧ guint16 ((y : Int) + (h : Int)) = y + h) ∧
      candidate W H
          ⟨guint16 (x : Int), guint16 (y : Int), guint16 ((x : Int) + (w : Int)),
            guint16 ((y : Int) + (h : Int))⟩ i =
        ⟨x / 2 ^ i, y / 2 ^ i,
          min (max 1 (W / 2 ^ i)) ((x + w + 2 ^ i - 1) / 2 ^ i),
          min (max 1 (H / 2 ^ i)) ((y + h + 2 ^ i - 1) / 2 ^ i)⟩ ∧
      ((t.invalid i).is_empty →
        (meta_texture_tower_update_area t x y w h).invalid i =
          ⟨x / 2 ^ i, y / 2 ^ i,
            min (max 1 (W / 2 ^ i)) ((x + w + 2 ^ i - 1) / 2 ^ i),
            min (max 1 (H / 2 ^ i)) ((y + h + 2 ^ i - 1) / 2 ^ i)⟩) := by
  have e0 : guint16 (x : Int) = x := guint16_of_le _ (by omega)
  have e1 : guint16 (y : Int) = y := guint16_of_le _ (by omega)
  have e2 := guint16_add_of_le x w (by omega)
  have e3 := guint16_add_of_le y h (by omega)
  obtain ⟨n, rfl⟩ : ∃ n, i = n + 1 := ⟨i - 1, by omega⟩
  have hc : candidate W H
      ⟨guint16 (x : Int), guint16 (y : Int), guint16 ((x : Int) + (w : Int)),
        guint16 ((y : Int) + (h : Int))⟩ (n + 1) =
      ⟨x / 2 ^ (n + 1), y / 2 ^ (n + 1),
        min (max 1 (W / 2 ^ (n + 1))) ((x + w + 2 ^ (n + 1) - 1) / 2 ^ (n + 1)),
        min (max 1 (H / 2 ^ (n + 1))) ((y + h + 2 ^ (n + 1) - 1) / 2 ^ (n + 1))⟩ := by
    rw [e0, e1, e2, e3]
    have := candidate_closed W H hW1 hH1 ⟨x, y, w, h⟩ n
    rw [footprint_closed] at this
    exact this
  refine ⟨⟨e0, e1, e2, e3⟩, hc, ?_⟩
  intro hempty
  rw [update_area_invalid_at t p W H hbase _ _ _ _ (n + 1) hi1 hi2,
    merge_box_empty _ _ hempty]
  exact hc

/-- For a base texture whose larger side is 8, 64 or 128, the coarsest level
`n_levels - 1` that `meta_texture_tower_set_base_texture` provides for has a larger
side of 2 texels. -/
theorem coarsest_level_short (t : MetaTextureTower) (c : Cogl) (p W H : Nat)
    (hnew : (t.textures 0).map CoglTexture.ptr ≠ some p)
    (hW : 1 ≤ W) (hH : 1 ≤ H)
    (hside : max W H = 8 ∨ max W H = 64 ∨ max W H = 128) :
    max
      (level_size W ((meta_texture_tower_set_base_texture t c (some ⟨p, W, H⟩)).1.n_levels - 1))
      (level_size H ((meta_texture_tower_set_base_texture t c (some ⟨p, W, H⟩)).1.n_levels - 1))
      = 2 := by
  rw [(set_base_texture_installs t c p W H hnew).1, level_count_of_max, if_pos hside]
  have key : ∀ k, max W H = 2 ^ (k + 1) →
      max (level_size W (Nat.log 2 (max W H) - 1)) (level_size H (Nat.log 2 (max W H) - 1))
        = 2 := by
    intro k hk
    rw [hk, Nat.log_pow (by decide), Nat.add_sub_cancel, level_size_closed_pos W hW,
      level_size_closed_pos H hH]
    have hpos : 0 < 2 ^ k := Nat.two_pow_pos k
    have hWle : W / 2 ^ k ≤ 2 := by
      have : W ≤ 2 ^ (k + 1) := hk ▸ le_max_left W H
      rw [pow_succ] at this
      exact Nat.div_le_of_le_mul (by omega)
    have hHle : H / 2 ^ k ≤ 2 := by
      have : H ≤ 2 ^ (k + 1) := hk ▸ le_max_right W H
      rw [pow_succ] at this
      exact Nat.div_le_of_le_mul (by omega)
    rcases le_total W H with hwh | hwh
    · rw [max_eq_right hwh] at hk
      have : H / 2 ^ k = 2 := by rw [hk, pow_succ, Nat.mul_div_cancel_left _ hpos]
      omega
    · rw [max_eq_left hwh] at hk
      have : W / 2 ^ k = 2 := by rw [hk, pow_succ, Nat.mul_div_cancel_left _ hpos]
      omega
  rcases hside with e | e | e
  · exact key 2 (by rw [e]; norm_num)
  · exact key 5 (by rw [e]; norm_num)
  · exact key 6 (by rw [e]; norm_num)

theorem window_jacobian_eq (pc : ClutterPaintContext) (width height : Int) :
    window_jacobian pc width height =
      ⟨(paint_jacobian pc width height).dxdu_ / (paint_jacobian pc width height).wc,
        (paint_jacobian pc width height).dxdv_ / (paint_jacobian pc width height).wc,
        (paint_jacobian pc width height).dydu_ / (paint_jacobian pc width height).wc,
        (paint_jacobian pc width height).dydv_ / (paint_jacobian pc width height).wc⟩ := rfl

theorem sqrt_max (u v : ℝ) : max (Real.sqrt u) (Real.sqrt v) = Real.sqrt (max u v) := by
  rcases le_total u v with h | h
  · rw [max_eq_right h, max_eq_right (Real.sqrt_le_sqrt h)]
  · rw [max_eq_left h, max_eq_left (Real.sqrt_le_sqrt h)]

theorem lambda_refines (a b c d wc : ℝ) (hwc : wc ≠ 0)
    (hdet : window_det ⟨a / wc, b / wc, c / wc, d / wc⟩ ≠ 0) :
    paint_lambda ⟨a, b, c, d, wc⟩ = opengl_lambda ⟨a / wc, b / wc, c / wc, d / wc⟩ := by
  have hdet2 : a * d - b * c ≠ 0 := by
    intro h0
    apply hdet
    unfold window_det
    simp only
    have : a / wc * (d / wc) - b / wc * (c / wc) = (a * d - b * c) / (wc * wc) := by
      field_simp
    rw [this, h0, zero_div]
  unfold paint_lambda opengl_lambda paint_det window_det
  simp only
  have e1 : d / wc / (a / wc * (d / wc) - b / wc * (c / wc)) *
        (d / wc / (a / wc * (d / wc) - b / wc * (c / wc))) +
      -(c / wc) / (a / wc * (d / wc) - b / wc * (c / wc)) *
        (-(c / wc) / (a / wc * (d / wc) - b / wc * (c / wc))) =
      (d * d + c * c) * (wc * wc / ((a * d - b * c) * (a * d - b * c))) := by
    field_simp
    ring
  have e2 : -(b / wc) / (a / wc * (d / wc) - b / wc * (c / wc)) *
        (-(b / wc) / (a / wc * (d / wc) - b / wc * (c / wc))) +
      a / wc / (a / wc * (d / wc) - b / wc * (c / wc)) *
        (a / wc / (a / wc * (d / wc) - b / wc * (c / wc))) =
      (b * b + a * a) * (wc * wc / ((a * d - b * c) * (a * d - b * c))) := by
    field_simp
    ring
  have hk : 0 ≤ wc * wc / ((a * d - b * c) * (a * d - b * c)) :=
    div_nonneg (mul_self_nonneg _) (mul_self_nonneg _)
  rw [e1, e2, sqrt_max, ← max_mul_of_nonneg _ _ hk]
  have hx : 0 ≤ max (d * d + c * c) (b * b + a * a) *
      (wc * wc / ((a * d - b * c) * (a * d - b * c))) :=
    mul_nonneg (le_trans (add_nonneg (mul_self_nonneg _) (mul_self_nonneg _))
      (le_max_left _ _)) hk
  have e3 : max (d * d + c * c) (b * b + a * a) * wc * wc /
      ((a * d - b * c) * (a * d - b * c)) =
      max (d * d + c * c) (b * b + a * a) *
        (wc * wc / ((a * d - b * c) * (a * d - b * c))) := by
    ring
  rw [e3, Real.logb, Real.log_sqrt hx]
  unfold M_LOG2E
  ring

/-- Claim C26. Over the reals, when `wc ≠ 0` and the determinant of the
window-coordinate Jacobian is not zero, the `lambda` that `get_paint_level` computes
from the `wc`-scaled partial derivatives equals the `lambda` of the commented-out
computation: `log2 (rho) + LOD_BIAS` with `rho` the larger of the lengths of the two
columns of the inverse Jacobian. -/
theorem simplified_lambda_refines_opengl (pc : ClutterPaintContext) (width height : Int)
    (hwc : (paint_jacobian pc width height).wc ≠ 0)
    (hdet : window_det (window_jacobian pc width height) ≠ 0) :
    paint_lambda (paint_jacobian pc width height) =
      opengl_lambda (window_jacobian pc width height) := by
  rw [window_jacobian_eq] at hdet ⊢
  exact lambda_refines _ _ _ _ _ hwc hdet

theorem axis_scale_jacobian (s : ℝ) (width height : Int) :
    paint_jacobian (scale_modelview unit_paint_context s) width height = ⟨s, 0, 0, s, 1⟩ := by
  rw [paint_jacobian_scaled unit_paint_context s width height
    (by simp [unit_paint_context, graphene_matrix_multiply, graphene_matrix_init_scale])
    (by simp [unit_paint_context, graphene_matrix_multiply, graphene_matrix_init_scale])]
  simp [unit_paint_context, graphene_matrix_multiply, graphene_matrix_init_scale]
  norm_num

theorem axis_scale_lambda (s : ℝ) (hs : 0 < s) :
    paint_lambda ⟨s, 0, 0, s, 1⟩ = Real.log (1 / s) / Real.log 2 + LOD_BIAS := by
  unfold paint_lambda paint_det M_LOG2E
  simp only
  have hx : max (s * s + 0 * 0) (0 * 0 + s * s) * 1 * 1 / ((s * s - 0 * 0) * (s * s - 0 * 0)) =
      (1 / s) ^ 2 := by
    rw [show s * s + 0 * 0 = 0 * 0 + s * s by ring, max_self]
    field_simp
    ring
  rw [hx, Real.log_pow]
  push_cast
  ring

theorem log_ratio_bounds :
    (0.99 : ℝ) ≤ Real.log (1 / (251 / 500)) / Real.log 2 ∧
      Real.log (1 / (251 / 500)) / Real.log 2 < 1 := by
  have h2 : (0 : ℝ) < Real.log 2 := Real.log_pos (by norm_num)
  have e : (1 : ℝ) / (251 / 500) = 500 / 251 := by norm_num
  rw [e]
  constructor
  · rw [le_div_iff₀ h2]
    have h100 : (100 : ℝ) * (0.99 * Real.log 2) ≤ 100 * Real.log (500 / 251) := by
      have a1 : (100 : ℝ) * (0.99 * Real.log 2) = Real.log ((2 : ℝ) ^ 99) := by
        rw [Real.log_pow]; push_cast; ring
      have a2 : (100 : ℝ) * Real.log (500 / 251) = Real.log ((500 / 251 : ℝ) ^ 100) := by
        rw [Real.log_pow]; push_cast; ring
      rw [a1, a2]
      apply Real.log_le_log (by positivity)
      norm_num
    linarith
  · rw [div_lt_one h2]
    apply Real.log_lt_log (by norm_num)
    norm_num

/-- Claim C25, evaluated at the identity projection, a 2 × 2 viewport and a
model-view scaled by `s = 251 / 500`, an axis-aligned paint without perspective whose
window-coordinate Jacobian is `s` times the identity: `get_paint_level` returns 1 while
`2 ^ 1 * s = 1.004 > 1`, so the level-1 image is scaled up. With `LOD_BIAS = -0.49` the
rounding threshold lies at `log2 (1 / s) = 0.99`, not at 1. -/
theorem lod_bias_picks_smaller_level :
    paint_jacobian (scale_modelview unit_paint_context (251 / 500)) 512 512 =
        ⟨251 / 500, 0, 0, 251 / 500, 1⟩ ∧
      window_jacobian (scale_modelview unit_paint_context (251 / 500)) 512 512 =
        ⟨251 / 500, 0, 0, 251 / 500⟩ ∧
      get_paint_level (scale_modelview unit_paint_context (251 / 500)) 512 512 = 1 ∧
      ¬ ((2 : ℝ) ^ (1 : ℕ) * (251 / 500) ≤ 1) := by
  have hj := axis_scale_jacobian (251 / 500) 512 512
  refine ⟨hj, ?_, ?_, by norm_num⟩
  · rw [window_jacobian_eq, hj]
    norm_num
  · unfold get_paint_level level_of_jacobian
    rw [hj, axis_scale_lambda _ (by norm_num)]
    obtain ⟨b1, b2⟩ := log_ratio_bounds
    have hdet : ¬ (paint_det ⟨251 / 500, 0, 0, 251 / 500, 1⟩ *
        paint_det ⟨251 / 500, 0, 0, 251 / 500, 1⟩ = 0) := by
      unfold paint_det
      norm_num
    simp only
    rw [if_neg hdet]
    unfold LOD_BIAS
    rw [if_neg (by linarith)]
    rw [Int.floor_eq_iff]
    constructor
    · push_cast; linarith
    · push_cast; linarith

theorem create_loop_invalid_keep (count : Nat) :
    ∀ (i tw th : Nat) (t : MetaTextureTower) (c : Cogl) (j : Nat),
      (t.textures j ≠ none ∨ j < i ∨ i + count ≤ j) →
      (create_loop count i tw th t c).1.invalid j = t.invalid j := by
  induction count with
  | zero => intro i tw th t c j _; rfl
  | succ n ih =>
    intro i tw th t c j hj
    rw [create_loop]
    cases h : t.textures i with
    | none =>
      have hji : j ≠ i := by
        rintro rfl
        rcases hj with h1 | h1 | h1
        · exact h1 h
        · omega
        · omega
      rw [ih, create_texture_invalid_ne _ _ _ _ _ _ hji]
      rw [create_texture_textures_ne _ _ _ _ _ _ hji]
      rcases hj with h1 | h1 | h1
      · left; exact h1
      · right; left; omega
      · right; right; omega
    | some d =>
      rw [ih]
      rcases hj with h1 | h1 | h1
      · left; exact h1
      · right; left; omega
      · by_cases hji : j = i
        · left; rw [hji, h]; simp
        · right; right; omega

theorem create_loop_created (count : Nat) :
    ∀ (i tw th : Nat) (t : MetaTextureTower) (c : Cogl) (j : Nat),
      i ≤ j → j < i + count → t.textures j = none →
      ∃ p, (create_loop count i tw th t c).1.textures j =
          some ⟨p, level_size tw (j - i + 1), level_size th (j - i + 1)⟩ ∧
        (create_loop count i tw th t c).1.invalid j =
          ⟨0, 0, guint16 (level_size tw (j - i + 1) : Nat),
            guint16 (level_size th (j - i + 1) : Nat)⟩ := by
  induction count with
  | zero => intro i tw th t c j h1 h2 _; omega
  | succ n ih =>
    intro i tw th t c j h1 h2 hnone
    rw [create_loop]
    by_cases hji : j = i
    · subst hji
      simp only [hnone]
      refine ⟨c.next_ptr, ?_, ?_⟩
      · rw [create_loop_textures_keep _ _ _ _ _ _ _ (Or.inr (Or.inl (Nat.lt_succ_self j))),
          create_texture_textures_same, Nat.sub_self]
        rfl
      · rw [create_loop_invalid_keep _ _ _ _ _ _ _ (Or.inr (Or.inl (Nat.lt_succ_self j))),
          create_texture_invalid_same, Nat.sub_self]
        rfl
    · have e : j - i + 1 = j - (i + 1) + 1 + 1 := by omega
      rw [e, level_size_shift tw, level_size_shift th]
      apply ih (i + 1) _ _ _ _ j (by omega) (by omega)
      cases h : t.textures i with
      | none => rw [create_texture_textures_ne _ _ _ _ _ _ hji]; exact hnone
      | some d => exact hnone

theorem level_size_succ_bound (w i : Nat) :
    1 ≤ level_size w (i + 1) ∧ level_size w (i + 1) ≤ max 1 (w / 2) := by
  induction i with
  | zero => simp [level_size]
  | succ n ih =>
    have e : level_size w (n + 1 + 1) = max 1 (level_size w (n + 1) / 2) := rfl
    rw [e]
    omega

theorem guint16_level_size (w i : Nat) (hw : w ≤ 131071) :
    guint16 (level_size w (i + 1) : Nat) = level_size w (i + 1) ∧
      guint16 (level_size w (i + 1) : Nat) ≠ 0 := by
  have hb := level_size_succ_bound w i
  have e := guint16_of_le (level_size w (i + 1)) (by omega)
  rw [e]
  exact ⟨rfl, by omega⟩

theorem revalidate_loop_all (alloc : Nat → Bool) (level : Nat) (halloc : ∀ j, alloc j = true)
    (count : Nat) :
    ∀ (i : Nat) (t : MetaTextureTower) (c : Cogl),
      1 ≤ i → i + count = level + 1 →
      (∀ j, j ≤ level → t.textures j ≠ none) →
      (1 ≤ count → ((t.invalid level).x2 ≠ (t.invalid level).x1 ∧
        (t.invalid level).y2 ≠ (t.invalid level).y1)) →
      ∃ ds, (revalidate_loop alloc level count i t c).2.draws = c.draws ++ ds ∧
        ds.map Draw.level = List.range' i count ∧
        (∀ j, i ≤ j → j ≤ level →
          (revalidate_loop alloc level count i t c).1.invalid j = ⟨0, 0, 0, 0⟩) ∧
        (∀ j, j < i → (revalidate_loop alloc level count i t c).1.invalid j = t.invalid j) := by
  induction count with
  | zero =>
    intro i t c _ hsum _ _
    exact ⟨[], by simp [revalidate_loop], rfl, fun j h1 h2 => by omega, fun j _ => rfl⟩
  | succ n ih =>
    intro i t c hi hsum htex hdirty
    have hd := hdirty (by omega)
    rw [revalidate_loop, if_pos hd]
    have h1 : t.textures (i - 1) ≠ none := htex _ (by omega)
    have h2 : t.textures i ≠ none := htex _ (by omega)
    cases e1 : t.textures (i - 1) with
    | none => exact absurd e1 h1
    | some src =>
      cases e2 : t.textures i with
      | none => exact absurd e2 h2
      | some dst =>
        obtain ⟨d, hdraw⟩ : ∃ d, revalidate_draw t i = some d :=
          ⟨_, revalidate_draw_some t i src dst e1 e2⟩
        have hlev : d.level = i := by
          obtain ⟨_, _, _, _, rfl⟩ := revalidate_draw_inv t i d hdraw
          rfl
        obtain ⟨r1, r2⟩ := revalidate_draws alloc t c i d (halloc i) hdraw
        have htex2 : ∀ j, j ≤ level →
            (texture_tower_revalidate alloc t c i).1.textures j ≠ none := by
          intro j hj
          rw [revalidate_textures]
          exact htex j hj
        have hdirty2 : 1 ≤ n →
            (((texture_tower_revalidate alloc t c i).1.invalid level).x2 ≠
                ((texture_tower_revalidate alloc t c i).1.invalid level).x1 ∧
              ((texture_tower_revalidate alloc t c i).1.invalid level).y2 ≠
                ((texture_tower_revalidate alloc t c i).1.invalid level).y1) := by
          intro hn
          rw [revalidate_invalid_other alloc t c i level (by omega)]
          exact hd
        obtain ⟨ds, hds, hmap, hz, hk⟩ := ih (i + 1) (texture_tower_revalidate alloc t c i).1
          (texture_tower_revalidate alloc t c i).2 (by omega) (by omega) htex2 hdirty2
        refine ⟨d :: ds, ?_, ?_, ?_, ?_⟩
        · rw [hds, r1]
          simp
        · rw [List.map_cons, hmap, hlev, List.range'_succ]
        · intro j hj1 hj2
          by_cases hji : j = i
          · rw [hji, hk i (Nat.lt_succ_self i), r2]
          · exact hz j (by omega) hj2
        · intro j hj
          rw [hk j (by omega), revalidate_invalid_other alloc t c i j (by omega)]

theorem alloc_all_true (alloc : Nat → Bool) (halloc : ∀ j, alloc j = true) :
    alloc = fun _ => true := funext halloc

theorem created_textures_some (level w h : Nat) (t : MetaTextureTower) (c : Cogl)
    (hbase : t.textures 0 ≠ none) (j : Nat) (hj : j ≤ level) :
    (create_loop level 1 w h t c).1.textures j ≠ none := by
  by_cases hj0 : j = 0
  · subst hj0
    rw [create_loop_textures_keep _ _ _ _ _ _ _ (Or.inr (Or.inl (by decide)))]
    exact hbase
  · exact create_loop_textures_some _ _ _ _ _ _ _ (by omega) (by omega)

theorem paint_texture_at_level_cases (alloc : Nat → Bool) (halloc : ∀ j, alloc j = true)
    (level w h : Nat) (t : MetaTextureTower) (c : Cogl) (hbase : t.textures 0 ≠ none) :
    ((t.textures level ≠ none ∧ (t.invalid level).is_empty) ∧
        paint_texture_at_level alloc level w h t c = (t.textures level, t, c)) ∨
      (¬ (t.textures level ≠ none ∧ (t.invalid level).is_empty) ∧
        ((create_loop level 1 w h t c).1.invalid level).is_empty ∧
        (paint_texture_at_level alloc level w h t c).2.1 = (create_loop level 1 w h t c).1 ∧
        (paint_texture_at_level alloc level w h t c).2.2.draws = c.draws) ∨
      (¬ (t.textures level ≠ none ∧ (t.invalid level).is_empty) ∧
        ¬ ((create_loop level 1 w h t c).1.invalid level).is_empty ∧
        ∃ ds, (paint_texture_at_level alloc level w h t c).2.2.draws = c.draws ++ ds ∧
          ds.map Draw.level = List.range' 1 level ∧
          ∀ j, 1 ≤ j → j ≤ level →
            (paint_texture_at_level alloc level w h t c).2.1.invalid j = ⟨0, 0, 0, 0⟩) := by
  by_cases hc : t.textures level = none ∨
      ((t.invalid level).x2 ≠ (t.invalid level).x1 ∧ (t.invalid level).y2 ≠ (t.invalid level).y1)
  · have hnot : ¬ (t.textures level ≠ none ∧ (t.invalid level).is_empty) := by
      rintro ⟨a, b⟩
      rcases hc with hc | hc
      · exact a hc
      · rcases b with b | b
        · exact hc.1 b.symm
        · exact hc.2 b.symm
    right
    by_cases hd : (((create_loop level 1 w h t c).1.invalid level).x2 ≠
          ((create_loop level 1 w h t c).1.invalid level).x1 ∧
        ((create_loop level 1 w h t c).1.invalid level).y2 ≠
          ((create_loop level 1 w h t c).1.invalid level).y1)
    · right
      refine ⟨hnot, ?_, ?_⟩
      · rintro (b | b)
        · exact hd.1 b.symm
        · exact hd.2 b.symm
      · obtain ⟨ds, hds, hmap, hz, _⟩ := revalidate_loop_all alloc level halloc level 1
          (create_loop level 1 w h t c).1 (create_loop level 1 w h t c).2 le_rfl (by omega)
          (created_textures_some level w h t c hbase) (fun _ => hd)
        unfold paint_texture_at_level
        rw [if_pos hc]
        refine ⟨ds, ?_, hmap, hz⟩
        show (revalidate_loop alloc level level 1 _ _).2.draws = _
        rw [hds, create_loop_draws]
    · left
      have e := revalidate_loop_clean alloc level level 1 (create_loop level 1 w h t c).1
        (create_loop level 1 w h t c).2 hd
      refine ⟨hnot, ?_, ?_, ?_⟩
      · unfold Box.is_empty
        by_contra hcon
        push_neg at hcon
        exact hd ⟨fun e => hcon.1 e.symm, fun e => hcon.2 e.symm⟩
      · unfold paint_texture_at_level
        rw [if_pos hc]
        show (revalidate_loop alloc level level 1 _ _).1 = _
        rw [e]
      · unfold paint_texture_at_level
        rw [if_pos hc]
        show (revalidate_loop alloc level level 1 _ _).2.draws = _
        rw [e, create_loop_draws]
  · left
    push_neg at hc
    have hempty : (t.invalid level).is_empty := by
      unfold Box.is_empty
      by_contra hcon
      push_neg at hcon
      exact hcon.2 (hc.2 (fun e => hcon.1 e.symm)).symm
    refine ⟨⟨hc.1, hempty⟩, ?_⟩
    exact paint_texture_at_level_clean alloc level w h t c hc.1
      (fun hd => by
        rcases hempty with b | b
        · exact hd.1 b.symm
        · exact hd.2 b.symm)

theorem created_level_dirty (level w h : Nat) (t : MetaTextureTower) (c : Cogl)
    (h1 : 1 ≤ level) (hw : w ≤ 131071) (hh : h ≤ 131071)
    (hnot : ¬ (t.textures level ≠ none ∧ (t.invalid level).is_empty)) :
    ¬ ((create_loop level 1 w h t c).1.invalid level).is_empty := by
  cases htex : t.textures level with
  | none =>
    obtain ⟨p, _, hinv⟩ := create_loop_created level 1 w h t c level h1 (by omega) htex
    rw [hinv]
    obtain ⟨n, hn⟩ : ∃ n, level - 1 + 1 = n + 1 := ⟨level - 1, rfl⟩
    rw [hn]
    have g1 := (guint16_level_size w n hw).2
    have g2 := (guint16_level_size h n hh).2
    rintro (b | b)
    · exact g1 b.symm
    · exact g2 b.symm
  | some d =>
    rw [create_loop_invalid_keep _ _ _ _ _ _ _ (Or.inl (by rw [htex]; simp))]
    intro he
    exact hnot ⟨by rw [htex]; simp, he⟩

/-- Claim C21, amended. On a tower with a base texture, after a
`meta_texture_tower_get_paint_texture` call that resolves to the clamped level `L ≥ 1`
with every framebuffer allocation succeeding, the call has returned the texture stored
at level `L`, the dirty rectangle of level `L` is empty, and, when the call recorded a
draw, the dirty rectangle of every level `i` with `1 ≤ i ≤ L` is `{0, 0, 0, 0}`. -/
theorem requested_level_clean_after_paint (paint_level : Int → Int → Int) (alloc : Nat → Bool)
    (t : MetaTextureTower) (c : Cogl) (base : CoglTexture)
    (hbase : t.textures 0 = some base) (hl : ¬ paint_level base.width base.height < 0)
    (h1 : 1 ≤ clamped_level paint_level t base) (halloc : ∀ j, alloc j = true) :
    (meta_texture_tower_get_paint_texture paint_level alloc t c).1 =
        (meta_texture_tower_get_paint_texture paint_level alloc t c).2.1.textures
          (clamped_level paint_level t base) ∧
      ((meta_texture_tower_get_paint_texture paint_level alloc t c).2.1.invalid
        (clamped_level paint_level t base)).is_empty ∧
      ((meta_texture_tower_get_paint_texture paint_level alloc t c).2.2.draws ≠ c.draws →
        ∀ i, 1 ≤ i → i ≤ clamped_level paint_level t base →
          (meta_texture_tower_get_paint_texture paint_level alloc t c).2.1.invalid i =
            ⟨0, 0, 0, 0⟩) := by
  have hb : t.textures 0 ≠ none := by rw [hbase]; simp
  rw [get_paint_texture_at_clamped _ _ _ _ base hbase hl]
  refine ⟨paint_texture_at_level_result _ _ _ _ _ _, ?_, ?_⟩
  · rcases paint_texture_at_level_cases alloc halloc _ base.width base.height t c hb with
      ⟨⟨_, he⟩, e⟩ | ⟨_, he, e, _⟩ | ⟨_, _, ds, _, _, hz⟩
    · rw [e]; exact he
    · rw [e]; exact he
    · rw [hz _ h1 le_rfl]; exact Or.inl rfl
  · intro hne i hi1 hi2
    rcases paint_texture_at_level_cases alloc halloc _ base.width base.height t c hb with
      ⟨_, e⟩ | ⟨_, _, _, e⟩ | ⟨_, _, ds, _, _, hz⟩
    · rw [e] at hne; exact absurd rfl hne
    · exact absurd e hne
    · exact hz i hi1 hi2

/-- Claim C27, amended. On a tower with a base texture of width and height below
131072 (so that every derived level measures at most 65535 texels in each direction),
when every framebuffer allocation succeeds, a
`meta_texture_tower_get_paint_texture` call that resolves to the clamped level `L ≥ 1`
returns the texture of level `L` and changes nothing (so records no draw) when that
texture exists and the dirty rectangle of level `L` is empty; otherwise the draws it
records have the destination levels `1, 2, ..., L`, one draw each, in this order. -/
theorem regeneration_draws_each_level (paint_level : Int → Int → Int) (alloc : Nat → Bool)
    (t : MetaTextureTower) (c : Cogl) (base : CoglTexture)
    (hbase : t.textures 0 = some base) (hw : base.width ≤ 131071) (hh : base.height ≤ 131071)
    (hl : ¬ paint_level base.width base.height < 0)
    (h1 : 1 ≤ clamped_level paint_level t base) (halloc : ∀ j, alloc j = true) :
    ((t.textures (clamped_level paint_level t base) ≠ none ∧
        (t.invalid (clamped_level paint_level t base)).is_empty) →
      meta_texture_tower_get_paint_texture paint_level alloc t c =
        (t.textures (clamped_level paint_level t base), t, c)) ∧
    (¬ (t.textures (clamped_level paint_level t base) ≠ none ∧
        (t.invalid (clamped_level paint_level t base)).is_empty) →
      ∃ ds, (meta_texture_tower_get_paint_texture paint_level alloc t c).2.2.draws =
          c.draws ++ ds ∧
        ds.map Draw.level = List.range' 1 (clamped_level paint_level t base)) := by
  have hb : t.textures 0 ≠ none := by rw [hbase]; simp
  rw [get_paint_texture_at_clamped _ _ _ _ base hbase hl]
  rcases paint_texture_at_level_cases alloc halloc _ base.width base.height t c hb with
    ⟨hyes, e⟩ | ⟨hnot, he, _, _⟩ | ⟨hnot, _, ds, hds, hmap, _⟩
  · exact ⟨fun _ => e, fun hn => absurd hyes hn⟩
  · exact absurd he (created_level_dirty _ _ _ t c h1 hw hh hnot)
  · exact ⟨fun hy => absurd hy hnot, fun _ => ⟨ds, hds, hmap⟩⟩

theorem draw_moment_zero (paint_level : Int → Int → Int) (alloc : Nat → Bool)
    (t : MetaTextureTower) (c : Cogl) (base : CoglTexture) :
    (draw_moment paint_level alloc t c base 0).1 =
      (create_loop (clamped_level paint_level t base) 1 base.width base.height t c).1 := by
  unfold draw_moment regeneration_state
  rw [revalidate_loop]

theorem paint_texture_at_level_textures (alloc : Nat → Bool) (level w h : Nat)
    (t : MetaTextureTower) (c : Cogl) :
    (paint_texture_at_level alloc level w h t c).2.1.textures =
      if t.textures level = none ∨
          ((t.invalid level).x2 ≠ (t.invalid level).x1 ∧
            (t.invalid level).y2 ≠ (t.invalid level).y1) then
        (create_loop level 1 w h t c).1.textures
      else t.textures := by
  unfold paint_texture_at_level
  split
  · exact revalidate_loop_textures _ _ _ _ _ _
  · rfl

/-- Claim C22, amended. In a reachable state with a base texture, when a
`meta_texture_tower_get_paint_texture` call runs its creation loop (the texture of the
clamped level `L` is absent or its dirty rectangle is not empty) and level `i`,
`1 ≤ i ≤ L`, has no texture, the call leaves at level `i` a texture of size
`max (1, pw / 2) × max (1, ph / 2)` for the size `pw × ph` of the texture at level
`i - 1`, and after the creation loop the dirty rectangle of level `i` is
`{0, 0, (guint16) width, (guint16) height}`, which is the full extent
`{0, 0, width, height}` when width and height are at most 65535. Consequently, in every
reachable state the size of a derived level that has a texture stands in that relation
to the size of the texture of the level below. -/
theorem created_level_half_of_parent (paint_level : Int → Int → Int) (alloc : Nat → Bool)
    (t : MetaTextureTower) (c : Cogl) (hr : Reachable t c) (base : CoglTexture)
    (hbase : t.textures 0 = some base) (hl : ¬ paint_level base.width base.height < 0) :
    (∀ i, 1 ≤ i → i ≤ clamped_level paint_level t base →
      (t.textures (clamped_level paint_level t base) = none ∨
        ¬ (t.invalid (clamped_level paint_level t base)).is_empty) →
      t.textures i = none →
      ∃ tex parent,
        (meta_texture_tower_get_paint_texture paint_level alloc t c).2.1.textures i =
          some tex ∧
        (meta_texture_tower_get_paint_texture paint_level alloc t c).2.1.textures (i - 1) =
          some parent ∧
        tex.width = max 1 (parent.width / 2) ∧ tex.height = max 1 (parent.height / 2) ∧
        (draw_moment paint_level alloc t c base 0).1.invalid i =
          ⟨0, 0, guint16 (tex.width : Nat), guint16 (tex.height : Nat)⟩ ∧
        (tex.width ≤ 65535 → tex.height ≤ 65535 →
          (draw_moment paint_level alloc t c base 0).1.invalid i =
            ⟨0, 0, tex.width, tex.height⟩)) ∧
    (∀ i tex parent, 1 ≤ i → t.textures i = some tex → t.textures (i - 1) = some parent →
      tex.width = max 1 (parent.width / 2) ∧ tex.height = max 1 (parent.height / 2)) := by
  have hinv := reachable_inv t c hr
  constructor
  · intro i hi1 hi2 hbranch hnone
    have hc : t.textures (clamped_level paint_level t base) = none ∨
        ((t.invalid (clamped_level paint_level t base)).x2 ≠
            (t.invalid (clamped_level paint_level t base)).x1 ∧
          (t.invalid (clamped_level paint_level t base)).y2 ≠
            (t.invalid (clamped_level paint_level t base)).y1) := by
      rcases hbranch with hb | hb
      · exact Or.inl hb
      · right
        unfold Box.is_empty at hb
        push_neg at hb
        exact ⟨fun e => hb.1 e.symm, fun e => hb.2 e.symm⟩
    have hinv2 := get_paint_texture_inv paint_level alloc t c hinv
    have hb2 : (meta_texture_tower_get_paint_texture paint_level alloc t c).2.1.textures 0 =
        some base := by
      rw [get_paint_texture_base_kept, hbase]
    have htex : (meta_texture_tower_get_paint_texture paint_level alloc t c).2.1.textures =
        (create_loop (clamped_level paint_level t base) 1 base.width base.height t c).1.textures := by
      rw [get_paint_texture_at_clamped _ _ _ _ base hbase hl, paint_texture_at_level_textures,
        if_pos hc]
    obtain ⟨p, hcreated, hrect⟩ := create_loop_created (clamped_level paint_level t base) 1
      base.width base.height t c i hi1 (by omega) hnone
    have hparent : (create_loop (clamped_level paint_level t base) 1 base.width base.height
        t c).1.textures (i - 1) ≠ none :=
      created_textures_some _ _ _ t c (by rw [hbase]; simp) (i - 1) (by omega)
    cases hp : (create_loop (clamped_level paint_level t base) 1 base.width base.height
        t c).1.textures (i - 1) with
    | none => exact absurd hp hparent
    | some parent =>
      have hps := inv_level_size _ base parent hinv2 hb2 (i - 1) (by rw [htex]; exact hp)
      have e : i - 1 + 1 = i := by omega
      rw [e] at hcreated hrect
      have hsz : level_size base.width i = max 1 (parent.width / 2) ∧
          level_size base.height i = max 1 (parent.height / 2) := by
        obtain ⟨n, rfl⟩ : ∃ n, i = n + 1 := ⟨i - 1, by omega⟩
        rw [Nat.add_sub_cancel] at hps
        rw [hps.1, hps.2]
        exact ⟨rfl, rfl⟩
      refine ⟨⟨p, level_size base.width i, level_size base.height i⟩, parent, ?_, ?_,
        hsz.1, hsz.2, ?_, ?_⟩
      · rw [htex]; exact hcreated
      · rw [htex]; exact hp
      · rw [draw_moment_zero]; exact hrect
      · intro b1 b2
        rw [draw_moment_zero, hrect, guint16_of_le _ b1, guint16_of_le _ b2]
  · intro i tex parent hi htex hparent
    have h1 := hinv.sizes base hbase i tex hi htex
    have h2 := inv_level_size t base parent hinv hbase (i - 1) hparent
    obtain ⟨n, rfl⟩ : ∃ n, i = n + 1 := ⟨i - 1, by omega⟩
    rw [Nat.add_sub_cancel] at h2
    rw [h1.1, h1.2, h2.1, h2.2]
    exact ⟨rfl, rfl⟩

theorem tracking_reachable (t : MetaTextureTower) (c : Cogl) (K : Nat)
    (h : ReachableTracking t c K) : Reachable t c := by
  induction h with
  | new c => exact Reachable.new c
  | set_base_texture t c K texture _ hpos ih => exact Reachable.set_base_texture t c texture ih hpos
  | update_area t c K x y w h _ ih => exact Reachable.update_area t c x y w h ih
  | get_paint_texture pl alloc t c K _ ih => exact Reachable.get_paint_texture pl alloc t c ih

theorem set_base_texture_same (t : MetaTextureTower) (c : Cogl) (texture : Option CoglTexture)
    (hsame : texture.map CoglTexture.ptr = (t.textures 0).map CoglTexture.ptr) :
    meta_texture_tower_set_base_texture t c texture = (t, c) := by
  unfold meta_texture_tower_set_base_texture
  rw [if_pos hsame]

theorem set_base_texture_no_create (t : MetaTextureTower) (c : Cogl)
    (texture : Option CoglTexture) (i : Nat) (hi : 1 ≤ i) :
    (meta_texture_tower_set_base_texture t c texture).1.textures i = none ∨
      (meta_texture_tower_set_base_texture t c texture).1.textures i = t.textures i := by
  by_cases hsame : texture.map CoglTexture.ptr = (t.textures 0).map CoglTexture.ptr
  · right
    rw [set_base_texture_same t c texture hsame]
  · rw [(set_base_texture_textures t c texture hsame i).1, if_neg (by omega)]
    split
    · exact Or.inl rfl
    · exact Or.inr rfl

theorem tracked_level_no_base (paint_level : Int → Int → Int) (t : MetaTextureTower) (K : Nat)
    (hb : t.textures 0 = none) : tracked_level paint_level t K = K := by
  unfold tracked_level
  rw [hb]

theorem tracked_level_negative (paint_level : Int → Int → Int) (t : MetaTextureTower) (K : Nat)
    (base : CoglTexture) (hb : t.textures 0 = some base)
    (hl : paint_level base.width base.height < 0) : tracked_level paint_level t K = K := by
  unfold tracked_level
  simp only [hb, if_pos hl]

theorem tracked_level_base (paint_level : Int → Int → Int) (t : MetaTextureTower) (K : Nat)
    (base : CoglTexture) (hb : t.textures 0 = some base)
    (hl : ¬ paint_level base.width base.height < 0) :
    tracked_level paint_level t K = max K (clamped_level paint_level t base) := by
  unfold tracked_level
  simp only [hb, if_neg hl]

theorem tracking_levels (t : MetaTextureTower) (c : Cogl) (K : Nat)
    (h : ReachableTracking t c K) : ∀ i, 1 ≤ i → (t.textures i ≠ none ↔ i ≤ K) := by
  induction h with
  | new c =>
    intro i hi
    constructor
    · intro hne; exact absurd rfl hne
    · intro hle; omega
  | set_base_texture t c K texture hprev hpos ih =>
    intro i hi
    by_cases hsame : texture.map CoglTexture.ptr = (t.textures 0).map CoglTexture.ptr
    · rw [set_base_texture_same t c texture hsame, if_pos hsame]
      exact ih i hi
    · have hinv := reachable_inv t c (tracking_reachable t c K hprev)
      rw [(set_base_texture_clears t c texture hinv hsame).2.1 i hi, if_neg hsame]
      constructor
      · intro hne; exact absurd rfl hne
      · intro hle; omega
  | update_area t c K x y w h _ ih =>
    intro i hi
    rw [update_area_textures]
    exact ih i hi
  | get_paint_texture pl alloc t c K _ ih =>
    intro i hi
    cases hb : t.textures 0 with
    | none =>
      rw [get_paint_texture_no_base _ _ _ _ hb, tracked_level_no_base _ _ _ hb]
      exact ih i hi
    | some base =>
      by_cases hl : pl base.width base.height < 0
      · rw [get_paint_texture_negative _ _ _ _ base hb hl,
          tracked_level_negative _ _ _ base hb hl]
        exact ih i hi
      · rw [get_paint_texture_at_clamped _ _ _ _ base hb hl, tracked_level_base _ _ _ base hb hl,
          paint_texture_at_level_textures]
        split
        · by_cases hle : i ≤ clamped_level pl t base
          · constructor
            · intro _; exact le_trans hle (le_max_right _ _)
            · intro _
              exact created_textures_some _ _ _ t c (by rw [hb]; simp) i hle
          · rw [create_loop_textures_keep _ _ _ _ _ _ _ (Or.inr (Or.inr (by omega)))]
            rw [ih i hi]
            omega
        · rename_i hc
          push_neg at hc
          have hK : max K (clamped_level pl t base) = K := by
            by_cases h0 : clamped_level pl t base = 0
            · rw [h0]; omega
            · have := (ih _ (by omega)).mp hc.1
              omega
          rw [hK]
          exact ih i hi

/-- Claim C23. In every reachable state, with `K` the largest clamped level that a
`meta_texture_tower_get_paint_texture` call has resolved to since the current base
texture was installed (0 if none): the derived levels that have a texture are exactly
the levels `1 .. K`; `K` is 0 or below `n_levels`; no level from `n_levels` on has a
texture or a framebuffer; `meta_texture_tower_set_base_texture` leaves every derived
level without texture or with the texture it had; and `meta_texture_tower_update_area`
leaves the textures as they are. -/
theorem levels_created_lazily (t : MetaTextureTower) (c : Cogl) (K : Nat) (h : ReachableTracking t c K) :
    (∀ i, 1 ≤ i → (t.textures i ≠ none ↔ i ≤ K)) ∧
      (K = 0 ∨ K < t.n_levels) ∧
      (∀ i, t.n_levels ≤ i → t.textures i = none ∧ t.fbos i = none) ∧
      (∀ texture i, 1 ≤ i →
        (meta_texture_tower_set_base_texture t c texture).1.textures i = none ∨
        (meta_texture_tower_set_base_texture t c texture).1.textures i = t.textures i) ∧
      (∀ x y width height,
        (meta_texture_tower_update_area t x y width height).textures = t.textures) := by
  have hinv := reachable_inv t c (tracking_reachable t c K h)
  have hlev := tracking_levels t c K h
  refine ⟨hlev, ?_, ?_, fun texture i hi => set_base_texture_no_create t c texture i hi,
    fun x y w h => update_area_textures t x y w h⟩
  · by_cases hK : K = 0
    · exact Or.inl hK
    · right
      have hne := (hlev K (by omega)).mpr le_rfl
      by_contra hcon
      exact hne (hinv.above K (by omega))
  · intro i hi
    refine ⟨hinv.above i hi, ?_⟩
    cases hf : t.fbos i with
    | none => rfl
    | some f =>
      have := hinv.fbo_bound i f hf
      rw [hinv.above i hi] at this
      exact absurd this (by simp)

theorem log2_6 : max (int_log2 6) (int_log2 6) = 2 := by
  rw [int_log2_max_exact 6 6 (by decide) (by decide)]
  apply Nat.log_eq_of_pow_le_of_lt_pow <;> norm_num

theorem log2_131072 : max (int_log2 131072) (int_log2 2) = 17 := by
  rw [int_log2_max_exact 131072 2 (by decide) (by decide)]
  apply Nat.log_eq_of_pow_le_of_lt_pow <;> norm_num

theorem paint_two_levels_6 (alloc : Nat → Bool) (t : MetaTextureTower) (c : Cogl) (p : Nat)
    (h0 : t.textures 0 = some ⟨p, 6, 6⟩) (h1 : t.textures 1 = none)
    (h2 : t.textures 2 = none) (f1 : t.fbos 1 = none) (f2 : t.fbos 2 = none)
    (ha1 : alloc 1 = true) (ha2 : alloc 2 = true) :
    (paint_texture_at_level alloc 2 6 6 t c).2.1.textures 1 = some ⟨c.next_ptr, 3, 3⟩ ∧
      (paint_texture_at_level alloc 2 6 6 t c).2.1.textures 2 =
        some ⟨c.next_ptr + 1, 1, 1⟩ ∧
      (paint_texture_at_level alloc 2 6 6 t c).2.1.invalid 1 = ⟨0, 0, 0, 0⟩ ∧
      (paint_texture_at_level alloc 2 6 6 t c).2.1.invalid 2 = ⟨0, 0, 0, 0⟩ := by
  have g1 : guint16 3 = 3 := by decide
  have g2 : guint16 1 = 1 := by decide
  simp [paint_texture_at_level, create_loop, revalidate_loop, texture_tower_create_texture,
    texture_tower_revalidate, h0, h1, h2, f1, f2, ha1, ha2, g1, g2]

theorem painted_6_facts :
    painted_6_state.2.1.textures 0 = some ⟨7, 6, 6⟩ ∧
      painted_6_state.2.1.textures 1 = some ⟨0, 3, 3⟩ ∧
      painted_6_state.2.1.textures 2 = some ⟨1, 1, 1⟩ ∧
      painted_6_state.2.1.invalid 1 = ⟨0, 0, 0, 0⟩ ∧
      painted_6_state.2.1.invalid 2 = ⟨0, 0, 0, 0⟩ ∧
      painted_6_state.2.1.n_levels = 3 := by
  obtain ⟨ht, hf, hc, hn, _⟩ := new_tower_set_base_state ⟨0, [], [], [], []⟩ 7 6 6 3
    (by decide) (by decide) (by decide) (by decide) (by rw [log2_6]; decide)
  have h0 : (meta_texture_tower_set_base_texture meta_texture_tower_new ⟨0, [], [], [], []⟩
      (some ⟨7, 6, 6⟩)).1.textures 0 = some ⟨7, 6, 6⟩ := by rw [ht]; rfl
  have h1 : (meta_texture_tower_set_base_texture meta_texture_tower_new ⟨0, [], [], [], []⟩
      (some ⟨7, 6, 6⟩)).1.textures 1 = none := by rw [ht]; rfl
  have h2 : (meta_texture_tower_set_base_texture meta_texture_tower_new ⟨0, [], [], [], []⟩
      (some ⟨7, 6, 6⟩)).1.textures 2 = none := by rw [ht]; rfl
  have f1 : (meta_texture_tower_set_base_texture meta_texture_tower_new ⟨0, [], [], [], []⟩
      (some ⟨7, 6, 6⟩)).1.fbos 1 = none := by rw [hf]
  have f2 : (meta_texture_tower_set_base_texture meta_texture_tower_new ⟨0, [], [], [], []⟩
      (some ⟨7, 6, 6⟩)).1.fbos 2 = none := by rw [hf]
  have hp : (meta_texture_tower_set_base_texture meta_texture_tower_new ⟨0, [], [], [], []⟩
      (some ⟨7, 6, 6⟩)).2.next_ptr = 0 := by rw [hc]
  have e := get_paint_texture_at (fun _ _ => 2) (fun _ => true) _
    (meta_texture_tower_set_base_texture meta_texture_tower_new ⟨0, [], [], [], []⟩
      (some ⟨7, 6, 6⟩)).2 7 6 6 3 2 h0 hn (by decide) (by decide)
  obtain ⟨r1, r2, r3, r4⟩ := paint_two_levels_6 (fun _ => true) _
    (meta_texture_tower_set_base_texture meta_texture_tower_new ⟨0, [], [], [], []⟩
      (some ⟨7, 6, 6⟩)).2 7 h0 h1 h2 f1 f2 rfl rfl
  rw [painted_6_state, e, r1, r2, r3, r4, hp, paint_texture_at_level_textures_zero,
    paint_texture_at_level_n_levels, h0, hn]
  exact ⟨rfl, rfl, rfl, rfl, rfl, rfl⟩

theorem corner_candidates :
    candidate 6 6 ⟨guint16 (corner_mark.x : Int), guint16 (corner_mark.y : Int),
        guint16 ((corner_mark.x : Int) + (corner_mark.width : Int)),
        guint16 ((corner_mark.y : Int) + (corner_mark.height : Int))⟩ 1 = ⟨2, 0, 3, 1⟩ ∧
      candidate 6 6 ⟨guint16 (corner_mark.x : Int), guint16 (corner_mark.y : Int),
        guint16 ((corner_mark.x : Int) + (corner_mark.width : Int)),
        guint16 ((corner_mark.y : Int) + (corner_mark.height : Int))⟩ 2 = ⟨1, 0, 1, 1⟩ := by
  have e1 : guint16 ((4 : Nat) : Int) = 4 := by decide
  have e2 : guint16 ((0 : Nat) : Int) = 0 := by decide
  have e3 : guint16 (((4 : Nat) : Int) + ((2 : Nat) : Int)) = 6 := by decide
  have e4 : guint16 (((0 : Nat) : Int) + ((1 : Nat) : Int)) = 1 := by decide
  rw [corner_mark]
  simp only []
  rw [e1, e2, e3, e4]
  exact ⟨by decide, by decide⟩

theorem marked_6_facts :
    marked_6_tower.textures 0 = some ⟨7, 6, 6⟩ ∧
      marked_6_tower.textures 2 = some ⟨1, 1, 1⟩ ∧
      marked_6_tower.invalid 1 = ⟨2, 0, 3, 1⟩ ∧
      marked_6_tower.invalid 2 = ⟨1, 0, 1, 1⟩ ∧
      marked_6_tower.n_levels = 3 := by
  obtain ⟨h0, _, h2, i1, i2, hn⟩ := painted_6_facts
  rw [marked_6_tower, update_area_textures, update_area_n_levels]
  refine ⟨h0, h2, ?_, ?_, hn⟩
  · rw [update_area_invalid_at _ 7 6 6 h0 _ _ _ _ 1 le_rfl (by rw [hn]; decide),
      merge_box_empty _ _ (by rw [i1]; exact Or.inl rfl)]
    exact corner_candidates.1
  · rw [update_area_invalid_at _ 7 6 6 h0 _ _ _ _ 2 (by decide) (by rw [hn]; decide),
      merge_box_empty _ _ (by rw [i2]; exact Or.inl rfl)]
    exact corner_candidates.2

theorem marked_6_within : ReachableWithin 65535 marked_6_tower painted_6_state.2.2 := by
  rw [marked_6_tower]
  apply ReachableWithin.update_area
  · rw [painted_6_state]
    apply ReachableWithin.get_paint_texture
    apply ReachableWithin.set_base_texture _ _ _ (ReachableWithin.new _)
    intro b hb
    rw [← Option.some.inj hb]
    decide
  · intro b hb
    rw [painted_6_facts.1] at hb
    rw [← Option.some.inj hb]
    unfold Rect.inside corner_mark
    decide

/-- Claim C21 as stated fails on a 6 × 6 base (3 levels) that was painted at
level 2 and then received the mark `(4, 0, 2, 1)`, a rectangle inside the base image:
level 1 holds `{2, 0, 3, 1}` and level 2, of size 1 × 1, holds `{1, 0, 1, 1}`, which is
empty. A following call for level 2, whose allocations succeed, finds the texture of
level 2 present and its rectangle empty, returns that texture and changes nothing: the
dirty rectangle of level 1 is still `{2, 0, 3, 1}`. -/
theorem lower_level_stays_dirty :
    ReachableWithin 65535 marked_6_tower painted_6_state.2.2 ∧
      marked_6_tower.textures 0 = some ⟨7, 6, 6⟩ ∧
      clamped_level (fun _ _ => 2) marked_6_tower ⟨7, 6, 6⟩ = 2 ∧
      meta_texture_tower_get_paint_texture (fun _ _ => 2) (fun _ => true)
          marked_6_tower painted_6_state.2.2 =
        (some ⟨1, 1, 1⟩, marked_6_tower, painted_6_state.2.2) ∧
      marked_6_tower.invalid 1 = ⟨2, 0, 3, 1⟩ ∧
      ¬ (marked_6_tower.invalid 1).is_empty := by
  obtain ⟨h0, h2, i1, i2, hn⟩ := marked_6_facts
  refine ⟨marked_6_within, h0, clamped_level_eq _ _ 7 6 6 3 2 hn (by decide), ?_, i1, ?_⟩
  · rw [get_paint_texture_at (fun _ _ => 2) (fun _ => true) marked_6_tower
      painted_6_state.2.2 7 6 6 3 2 h0 hn (by decide) (by decide),
      paint_texture_at_level_clean _ _ _ _ _ _ (by rw [h2]; simp) (by rw [i2]; decide), h2]
  · rw [i1]
    unfold Box.is_empty
    decide

theorem paint_first_level_wrapped (alloc : Nat → Bool) (t : MetaTextureTower) (c : Cogl)
    (h1 : t.textures 1 = none) :
    (paint_texture_at_level alloc 1 131072 2 t c).2.1.textures 1 =
        some ⟨c.next_ptr, 65536, 1⟩ ∧
      (paint_texture_at_level alloc 1 131072 2 t c).2.2.draws = c.draws ∧
      (regeneration_state alloc 1 0 (create_loop 1 1 131072 2 t c).1
        (create_loop 1 1 131072 2 t c).2).1.invalid 1 = ⟨0, 0, 0, 1⟩ := by
  have g1 : guint16 65536 = 0 := by decide
  have g2 : guint16 1 = 1 := by decide
  simp [paint_texture_at_level, regeneration_state, create_loop, revalidate_loop,
    texture_tower_create_texture, texture_tower_revalidate, h1, g1, g2]

theorem huge_base_facts :
    huge_base_state.1.textures 0 = some ⟨7, 131072, 2⟩ ∧
      huge_base_state.1.textures 1 = none ∧
      huge_base_state.1.n_levels = 12 ∧
      huge_base_state.2.draws = [] ∧
      huge_base_state.2.next_ptr = 0 := by
  obtain ⟨ht, _, hc⟩ := new_tower_set_base_fields ⟨0, [], [], [], []⟩ 7 131072 2
  have hn := (set_base_texture_installs meta_texture_tower_new ⟨0, [], [], [], []⟩ 7 131072 2
    (new_tower_no_base 7)).1
  rw [log2_131072] at hn
  rw [huge_base_state, ht, hc, hn]
  exact ⟨rfl, rfl, by decide, rfl, rfl⟩

theorem huge_base_reachable : Reachable huge_base_state.1 huge_base_state.2 := by
  rw [huge_base_state]
  apply Reachable.set_base_texture _ _ _ (Reachable.new _)
  intro b hb
  rw [← Option.some.inj hb]
  decide

/-- Claim C22 as stated fails on the newly created tower with a 131072 × 2 base
texture and the estimated level 1: the call creates level 1 with a 65536 × 1 texture,
and the dirty rectangle of level 1 after the creation loop is `{0, 0, 0, 1}`, because
the width is stored in a `guint16`. -/
theorem created_level_rectangle_wraps :
    Reachable huge_base_state.1 huge_base_state.2 ∧
      huge_base_state.1.textures 0 = some ⟨7, 131072, 2⟩ ∧
      huge_base_state.1.textures 1 = none ∧
      clamped_level (fun _ _ => 1) huge_base_state.1 ⟨7, 131072, 2⟩ = 1 ∧
      (meta_texture_tower_get_paint_texture (fun _ _ => 1) (fun _ => true)
        huge_base_state.1 huge_base_state.2).2.1.textures 1 = some ⟨0, 65536, 1⟩ ∧
      (draw_moment (fun _ _ => 1) (fun _ => true) huge_base_state.1 huge_base_state.2
        ⟨7, 131072, 2⟩ 0).1.invalid 1 = ⟨0, 0, 0, 1⟩ := by
  obtain ⟨h0, h1, hn, _, hp⟩ := huge_base_facts
  have hcl : clamped_level (fun _ _ => 1) huge_base_state.1 ⟨7, 131072, 2⟩ = 1 :=
    clamped_level_eq _ _ 7 131072 2 12 1 hn (by decide)
  obtain ⟨r1, _, r3⟩ := paint_first_level_wrapped (fun _ => true) huge_base_state.1
    huge_base_state.2 h1
  refine ⟨huge_base_reachable, h0, h1, hcl, ?_, ?_⟩
  · rw [get_paint_texture_at (fun _ _ => 1) (fun _ => true) huge_base_state.1
      huge_base_state.2 7 131072 2 12 1 h0 hn (by decide) (by decide), r1, hp]
  · rw [draw_moment_eq _ _ _ _ 7 131072 2 1 0 hcl]
    exact r3

/-- Claim C27 as stated fails on the newly created tower with a 131072 × 2 base
texture and the estimated level 1: level 1 has no texture before the call, and the call,
whose allocations succeed, records no draw, because the rectangle `{0, 0, 0, 1}` of the
created 65536 × 1 level is empty. -/
theorem wide_level_not_regenerated :
    Reachable huge_base_state.1 huge_base_state.2 ∧
      huge_base_state.1.textures 0 = some ⟨7, 131072, 2⟩ ∧
      clamped_level (fun _ _ => 1) huge_base_state.1 ⟨7, 131072, 2⟩ = 1 ∧
      huge_base_state.1.textures 1 = none ∧
      (meta_texture_tower_get_paint_texture (fun _ _ => 1) (fun _ => true)
        huge_base_state.1 huge_base_state.2).2.2.draws = huge_base_state.2.draws := by
  obtain ⟨h0, h1, hn, _, _⟩ := huge_base_facts
  obtain ⟨_, r2, _⟩ := paint_first_level_wrapped (fun _ => true) huge_base_state.1
    huge_base_state.2 h1
  refine ⟨huge_base_reachable, h0, clamped_level_eq _ _ 7 131072 2 12 1 hn (by decide), h1, ?_⟩
  rw [get_paint_texture_at (fun _ _ => 1) (fun _ => true) huge_base_state.1
    huge_base_state.2 7 131072 2 12 1 h0 hn (by decide) (by decide), r2]

theorem base_512_tracking : ReachableTracking base_512_state.1 base_512_state.2 0 := by
  have h := ReachableTracking.set_base_texture meta_texture_tower_new ⟨0, [], [], [], []⟩ 0
    (some ⟨7, 512, 512⟩) (ReachableTracking.new _)
    (by intro b hb; rw [← Option.some.inj hb]; decide)
  rw [ite_self] at h
  rw [base_512_state]
  exact h

theorem painted_512_tracking :
    ReachableTracking painted_512_state.2.1 painted_512_state.2.2
      (tracked_level (fun _ _ => 1) base_512_state.1 0) := by
  rw [painted_512_state]
  exact ReachableTracking.get_paint_texture _ _ _ _ _ base_512_tracking

theorem base_512_invalid (j : Nat) (h1 : 1 ≤ j) (h2 : j < 10) :
    base_512_state.1.invalid j = ⟨0, 0, level_size 512 j, level_size 512 j⟩ := by
  obtain ⟨_, _, _, _, hi⟩ := new_tower_set_base_state ⟨0, [], [], [], []⟩ 7 512 512 10
    (by decide) (by decide) (by decide) (by decide) (by rw [log2_512]; decide)
  rw [base_512_state]
  exact hi j h1 h2

/-- Claim C21, amended, at the tower with a 512 × 512 base texture and the
estimated level 1. -/
theorem requested_level_clean_after_paint_witness :
    ((meta_texture_tower_get_paint_texture (fun _ _ => 1) (fun _ => true)
      base_512_state.1 base_512_state.2).2.1.invalid
        (clamped_level (fun _ _ => 1) base_512_state.1 ⟨7, 512, 512⟩)).is_empty :=
  (requested_level_clean_after_paint (fun _ _ => 1) (fun _ => true) base_512_state.1 base_512_state.2
    ⟨7, 512, 512⟩ base_512_facts.1 (by decide)
    (by rw [base_512_clamped (fun _ _ => 1) 1 (by decide)]) (fun _ => rfl)).2.1

/-- Claim C22, amended, at the tower with a 512 × 512 base texture after one paint
at level 1. -/
theorem created_level_half_of_parent_witness :
    ∃ tex parent,
      (meta_texture_tower_get_paint_texture (fun _ _ => 1) (fun _ => true)
        base_512_state.1 base_512_state.2).2.1.textures 1 = some tex ∧
      (meta_texture_tower_get_paint_texture (fun _ _ => 1) (fun _ => true)
        base_512_state.1 base_512_state.2).2.1.textures (1 - 1) = some parent ∧
      tex.width = max 1 (parent.width / 2) ∧ tex.height = max 1 (parent.height / 2) ∧
      (draw_moment (fun _ _ => 1) (fun _ => true) base_512_state.1 base_512_state.2
        ⟨7, 512, 512⟩ 0).1.invalid 1 =
          ⟨0, 0, guint16 (tex.width : Nat), guint16 (tex.height : Nat)⟩ := by
  have hc := base_512_clamped (fun _ _ => 1) 1 (by decide)
  obtain ⟨tex, parent, a1, a2, a3, a4, a5, _⟩ :=
    (created_level_half_of_parent (fun _ _ => 1) (fun _ => true) base_512_state.1 base_512_state.2
      base_512_reachable ⟨7, 512, 512⟩ base_512_facts.1 (by decide)).1 1 le_rfl
      (by rw [hc]) (by rw [hc]; exact Or.inl base_512_facts.2.1) base_512_facts.2.1
  exact ⟨tex, parent, a1, a2, a3, a4, a5⟩

/-- Claim C23 at the tower with a 512 × 512 base texture after one paint at level 1. -/
theorem levels_created_lazily_witness :
    painted_512_state.2.1.textures 1 ≠ none ↔
      1 ≤ tracked_level (fun _ _ => 1) base_512_state.1 0 :=
  (levels_created_lazily painted_512_state.2.1 painted_512_state.2.2 _ painted_512_tracking).1 1 le_rfl

/-- Claim C26 at the identity projection, a 2 × 2 viewport and a model-view scaled
by 251 / 500. -/
theorem simplified_lambda_refines_opengl_witness :
    paint_lambda (paint_jacobian (scale_modelview unit_paint_context (251 / 500)) 512 512) =
      opengl_lambda (window_jacobian (scale_modelview unit_paint_context (251 / 500)) 512 512) :=
  simplified_lambda_refines_opengl (scale_modelview unit_paint_context (251 / 500)) 512 512
    (by rw [axis_scale_jacobian]; norm_num)
    (by rw [window_jacobian_eq, axis_scale_jacobian]; unfold window_det; norm_num)

/-- Claim C27, amended, at the tower with a 512 × 512 base texture and the
estimated level 2. -/
theorem regeneration_draws_each_level_witness :
    ∃ ds, (meta_texture_tower_get_paint_texture (fun _ _ => 2) (fun _ => true)
        base_512_state.1 base_512_state.2).2.2.draws = base_512_state.2.draws ++ ds ∧
      ds.map Draw.level = List.range' 1 (clamped_level (fun _ _ => 2) base_512_state.1
        ⟨7, 512, 512⟩) :=
  (regeneration_draws_each_level (fun _ _ => 2) (fun _ => true) base_512_state.1 base_512_state.2
    ⟨7, 512, 512⟩ base_512_facts.1 (by decide) (by decide) (by decide)
    (by rw [base_512_clamped (fun _ _ => 2) 2 (by decide)]; decide) (fun _ => rfl)).2
    (by rw [base_512_clamped (fun _ _ => 2) 2 (by decide)]
        exact fun h => h.1 base_512_facts.2.2.1)

/-- Claim C28 at the tower with a 512 × 512 base texture, the rectangle
`(0, 0, 64, 64)` and level 1. -/
theorem update_area_candidate_closed_form_witness :
    candidate 512 512
        ⟨guint16 ((0 : Nat) : Int), guint16 ((0 : Nat) : Int),
          guint16 (((0 : Nat) : Int) + ((64 : Nat) : Int)),
          guint16 (((0 : Nat) : Int) + ((64 : Nat) : Int))⟩ 1 =
      ⟨0 / 2 ^ 1, 0 / 2 ^ 1,
        min (max 1 (512 / 2 ^ 1)) ((0 + 64 + 2 ^ 1 - 1) / 2 ^ 1),
        min (max 1 (512 / 2 ^ 1)) ((0 + 64 + 2 ^ 1 - 1) / 2 ^ 1)⟩ :=
  (update_area_candidate_closed_form base_512_state.1 7 512 512 0 0 64 64 base_512_facts.1 (by decide) (by decide)
    (by decide) (by decide) (by decide) (by decide) 1 le_rfl
    (by rw [base_512_facts.2.2.2.2.2.1]; decide)).2.1

/-- Claim C30 at the tower with a 512 × 512 base texture and the rectangle
`(0, 0, 64, 64)`. -/
theorem update_area_idempotent_witness :
    meta_texture_tower_update_area
        (meta_texture_tower_update_area base_512_state.1 0 0 64 64) 0 0 64 64 =
      meta_texture_tower_update_area base_512_state.1 0 0 64 64 :=
  (update_area_idempotent base_512_state.1 0 0 64 64 (by
    intro i h1 h2
    rw [base_512_facts.2.2.2.2.2.1] at h2
    right
    rw [base_512_invalid i h1 h2]
    have := level_size_pos 512 (by decide) i
    exact ⟨this, this⟩)).1

end Mutter
